import Mathlib

/-!
LAMP pose-graph back-end: a shallow embedding.

The definitions below transcribe the parts of

* `internal/src/laser_loop_closure/src/LaserLoopClosure.cc`
* `src/lamp/src/LampBase.cc`
* `src/lamp/src/LampRobot.cc`

that the verified properties talk about.

Modelling conventions.

* `gtsam::Key` / `gtsam::Symbol` is an unsigned 64-bit integer: a `Nat` with explicit
  reduction modulo `2 ^ 64` wherever the source adds or subtracts.
* `double` is `ℚ` (no rounding); where the source can produce NaN the value is an
  `Option ℚ` with `none` for NaN.
* `ros::Time` is a number of nanoseconds; `toSec` is exact.
* `gtsam::Pose3` / `gu::Transform3` is an element of an arbitrary group `P`; the two scalar
  read-outs the source takes from a pose (`translation().norm()` and the rotation angle)
  are the fields of `Geometry`.
* `std::map` and `gtsam::Values` are association lists kept in key order. A map iterator
  is a position, `end()` being the length.
* Where the source runs into behaviour that C++ leaves undefined and goes on, what the
  compiled program does there is a parameter: `TreeEdges` for the iterator operations on
  the time index, `Build` for a missing `return`, for the dereference of `begin()` on an
  empty set and for a range-for whose container is assigned in its body. `libstdcxx` and
  the builds of the concrete instances give the values observed with g++ and libstdc++.
* The solver (`RobustPGO`), the ICP kernel and the point-cloud filter are external libraries:
  their numerical behaviour is a parameter (`Optimizer`, `Registration`).
* A function returns `none` where the source throws, divides by zero or does not come back
  to its caller.
* A nullable output pointer is an `Option`: `none` is `NULL`, `some v` a cell holding `v`.
* A loop that need not end takes a number of iterations it may use (`fuel`) and yields
  `none` when that number does not suffice.
* A function-local `static` is a field of the class state.
* An object whose class is not among the files (`pose_graph_` and `artifact_handler_` of
  `LampRobot`) is the list of the calls it has received; what it answers is a parameter
  (`RobotEnv`).
-/

namespace LAMP

/-! ## Keys and edges -/

/-- The type `gtsam::Key` (`uint64_t`); a `gtsam::Symbol` converts to it implicitly. -/
abbrev Key := Nat

/-- The C++ expression `key - 1` on 64-bit unsigned keys. -/
def keyPred (k : Key) : Key := (k + (2 ^ 64 - 1)) % 2 ^ 64

/-- The C++ expression `key + 1` on 64-bit unsigned keys. -/
def keySucc (k : Key) : Key := (k + 1) % 2 ^ 64

/-- The C++ expression `a - b` on 64-bit unsigned keys. -/
def keySub (a b : Key) : Key := (a + (2 ^ 64 - b % 2 ^ 64)) % 2 ^ 64

/-- The accessor `gtsam::Symbol::index()`: the low 56 bits. -/
def keyIndex (k : Key) : Nat := k % 2 ^ 56

/-- The key of `gtsam::Symbol(c, j)`: the character `c` in the top 8 bits, the index `j` in
the low 56 bits. -/
def Symbol (c j : Nat) : Key := (c % 2 ^ 8) * 2 ^ 56 + j % 2 ^ 56

/-- The accessor `gtsam::Symbol::chr()`: the top 8 bits. -/
def keyChr (k : Key) : Nat := k / 2 ^ 56 % 2 ^ 8

/-- The typedef `Edge` (`std::pair<gtsam::Key, gtsam::Key>`). -/
abbrev Edge := Key × Key

/-- The type `ros::Time`, in nanoseconds. -/
abbrev Time := Nat

/-- The method `ros::Time::toSec`. -/
def toSec (t : Time) : ℚ := (t : ℚ) / 1000000000

/-! ## Ordered maps -/

section Maps

variable {α β : Type}

/-- Lookup in a map (`find`, `at`, `count`): the value stored under `k`, if any. -/
def mapFind [DecidableEq α] (k : α) : List (α × β) → Option β
  | [] => none
  | e :: rest => if e.1 = k then some e.2 else mapFind k rest

/-- The tests `m.count(k)`, `m.exists(k)`, `m.find(k) != m.end()`. -/
def mapHas [DecidableEq α] (k : α) (m : List (α × β)) : Bool := (mapFind k m).isSome

/-- The method `std::map::insert`: keeps the map ordered and does nothing when the key
is already present. -/
def mapInsert [LinearOrder α] (k : α) (v : β) : List (α × β) → List (α × β)
  | [] => [(k, v)]
  | e :: rest =>
    if k < e.1 then (k, v) :: e :: rest
    else if k = e.1 then e :: rest
    else e :: mapInsert k v rest

/-- The assignment `m[k] = v` on a `std::map`: inserts or overwrites. -/
def mapSet [LinearOrder α] (k : α) (v : β) : List (α × β) → List (α × β)
  | [] => [(k, v)]
  | e :: rest =>
    if k < e.1 then (k, v) :: e :: rest
    else if k = e.1 then (k, v) :: rest
    else e :: mapSet k v rest

/-- The assignment `m[k] = v` on a map whose iteration order is never used. -/
def assocSet [DecidableEq α] (k : α) (v : β) : List (α × β) → List (α × β)
  | [] => [(k, v)]
  | e :: rest => if e.1 = k then (k, v) :: rest else e :: assocSet k v rest

/-- The keys of a map, in iteration order. -/
def mapKeys (m : List (α × β)) : List α := m.map Prod.fst

end Maps

/-! ## Poses, factors and values -/

/-- The two scalar read-outs of a pose used by the thresholds of the source. -/
structure Geometry (P : Type) where
  /-- The value `pose.translation().norm()`. -/
  translationNorm : P → ℚ
  /-- The value `2*acos(pose.rotation().toQuaternion().w())`; `none` is NaN, which `acos`
  returns when rounding has put `w` above `1`. -/
  rotationAngle : P → Option ℚ

/-- The comparison `a < b` of doubles, `a` possibly NaN: false at NaN. -/
def nanLess (a : Option ℚ) (b : ℚ) : Bool :=
  match a with
  | none => false
  | some x => decide (x < b)

/-- A 6-vector (`gtsam::Vector6`). -/
abbrev Vector6 := Fin 6 → ℚ

/-- A 6x6 matrix (`LaserLoopClosure::Mat66`). -/
abbrev Mat66 := Fin 6 → Fin 6 → ℚ

/-- The matrix left by `covariance->Zeros()`. -/
def Mat66.zeros : Mat66 := fun _ _ => 0

/-- The assignment `m(i, i) = v`. -/
def Mat66.setDiag (m : Mat66) (i : Fin 6) (v : ℚ) : Mat66 :=
  fun a b => if a = i ∧ b = i then v else m a b

/-- The noise models the source builds. -/
inductive NoiseModel where
  | covariance (m : Mat66)
  | sigmas (v : Vector6)
  | precisions (v : Vector6)
  | isotropic (sigma : ℚ)

/-- The factors the source hands to the solver. -/
inductive Factor (P : Type) where
  | prior (key : Key) (pose : P) (noise : NoiseModel)
  | between (key1 key2 : Key) (delta : P) (noise : NoiseModel)
  | range (key1 key2 : Key) (range : ℚ) (noise : NoiseModel)

/-- The keys a factor touches. -/
def Factor.keys {P : Type} : Factor P → List Key
  | .prior k _ _ => [k]
  | .between k1 k2 _ _ => [k1, k2]
  | .range k1 k2 _ _ => [k1, k2]

/-- The test `dynamic_pointer_cast<BetweenFactor<Pose3>>(f) != nullptr`. -/
def Factor.isBetween {P : Type} : Factor P → Bool
  | .between _ _ _ _ => true
  | _ => false

/-- The class `gtsam::NonlinearFactorGraph`: factors in slot order. -/
abbrev NonlinearFactorGraph (P : Type) := List (Factor P)

/-- The class `gtsam::Values`, holding poses only, in key order. -/
abbrev Values (P : Type) := List (Key × P)

/-- The method `Values::insert(key, pose)`: throws when the key is already present. -/
def Values.insert1 {P : Type} (k : Key) (p : P) (v : Values P) : Option (Values P) :=
  if mapHas k v then none else some (mapInsert k p v)

/-- The method `Values::insert(values)`: inserts every entry, throws on a present key. -/
def Values.insertAll {P : Type} : Values P → Values P → Option (Values P)
  | [], v => some v
  | e :: rest, v => (Values.insert1 e.1 e.2 v).bind (Values.insertAll rest)

/-! ## The solver -/

/-- The numerical behaviour of the external solver `RobustPGO`, left arbitrary: whether an
update throws, which factors survive outlier rejection, the pose it reports for each key,
its linearization point, the error of a graph at given values, and what a removal of
factor slots leaves. -/
structure Optimizer (P : Type) where
  throws : NonlinearFactorGraph P → Values P → Bool
  inliers : NonlinearFactorGraph P → Values P → NonlinearFactorGraph P
  estimate : NonlinearFactorGraph P → Values P → Key → P → P
  linearize : NonlinearFactorGraph P → Values P → Key → P → P
  error : NonlinearFactorGraph P → Values P → ℚ
  /-- The factors the solver holds once the listed slots of its graph are removed. -/
  removeFactors : NonlinearFactorGraph P → Values P → List Nat → NonlinearFactorGraph P

/-- The state of the solver object `pgo_solver_`: every factor and every initial value it
has been handed. -/
structure RobustPGO (P : Type) where
  factors : NonlinearFactorGraph P
  values : Values P

/-- A freshly constructed solver (`pgo_solver_.reset(new RobustPGO(...))`). -/
def RobustPGO.fresh {P : Type} : RobustPGO P := ⟨[], []⟩

/-- The call `pgo_solver_->update(new_factor, new_value)`. -/
def RobustPGO.update {P : Type} (opt : Optimizer P) (σ : RobustPGO P)
    (new_factor : NonlinearFactorGraph P) (new_value : Values P) : Option (RobustPGO P) :=
  match Values.insertAll new_value σ.values with
  | none => none
  | some vs =>
    if opt.throws (σ.factors ++ new_factor) vs then none
    else some ⟨σ.factors ++ new_factor, vs⟩

/-- The call `pgo_solver_->calculateEstimate()`. -/
def RobustPGO.calculateEstimate {P : Type} (opt : Optimizer P) (σ : RobustPGO P) : Values P :=
  σ.values.map fun e => (e.1, opt.estimate σ.factors σ.values e.1 e.2)

/-- The call `pgo_solver_->getLinearizationPoint()`. -/
def RobustPGO.getLinearizationPoint {P : Type} (opt : Optimizer P) (σ : RobustPGO P) :
    Values P :=
  σ.values.map fun e => (e.1, opt.linearize σ.factors σ.values e.1 e.2)

/-- The call `pgo_solver_->getFactorsUnsafe()`. -/
def RobustPGO.getFactorsUnsafe {P : Type} (opt : Optimizer P) (σ : RobustPGO P) :
    NonlinearFactorGraph P :=
  opt.inliers σ.factors σ.values

/-! ## Scan registration -/

/-- What the ICP object reports after `align`. -/
structure IcpResult (P : Type) where
  finalTransformation : P
  hasConverged : Bool
  fitnessScore : ℚ

/-- The external point-cloud routines: the filter, `pcl::transformPointCloud` and the
generalized ICP kernel (source cloud, target cloud). -/
structure Registration (P S : Type) where
  filter : S → S
  transformPointCloud : P → S → S
  align : S → S → IcpResult P

/-- What the compiled program does at three places where C++ leaves the behaviour of the
source undefined. -/
structure Build where
  /-- Whether a call that reaches the closing brace of a non-void function without a
  `return` statement comes back to its caller (with a value no caller reads). -/
  returnsAtEnd : Bool
  /-- The key read by `*keys.begin()` on an empty key set. -/
  emptyFront : Key
  /-- The keys a range-for over `values_` goes on to visit once `values_` has been assigned
  inside the loop, given the keys that were still to come and the keys of the new `values_`;
  `none` when the program stops there. -/
  resume : List Key → List Key → Option (List Key)

/-- Everything the class takes from outside. -/
structure Env (P S : Type) where
  geo : Geometry P
  opt : Optimizer P
  reg : Registration P S
  build : Build

/-! ## The persisted bundle -/

/-- The content of a saved zip bundle: the g2o graph, the rows of `keys.csv` (key, point
cloud, stamp in nanoseconds) and the two edge files. -/
structure Bundle (P S : Type) where
  graph : NonlinearFactorGraph P × Values P
  keys : List (Key × S × Time)
  odometry_edges : List Edge
  loop_edges : List Edge

/-! ## The class state -/

/-- The struct `ArtifactInfo`, without the message it carries. -/
structure ArtifactInfo where
  id : String
  num_updates : Int


/-- The data members of `LaserLoopClosure` that the embedded methods read or write, and
the file `posegraph_backup.zip` (`disk`; `none` when absent or unreadable). -/
structure LaserLoopClosure (P S : Type) where
  translation_threshold_nodes_ : ℚ
  rotation_threshold_nodes_ : ℚ
  translation_threshold_kf_ : ℚ
  proximity_threshold_ : ℚ
  max_tolerable_fitness_ : ℚ
  distance_before_reclosing_ : ℚ
  skip_recent_poses_ : Int
  check_for_loop_closures_ : Bool
  save_posegraph_backup_ : Bool
  keys_between_each_posegraph_backup_ : Nat
  b_check_deltas_ : Bool
  translational_sanity_check_lc_ : ℚ
  translational_sanity_check_odom_ : ℚ
  laser_lc_rot_sigma_ : ℚ
  laser_lc_trans_sigma_ : ℚ
  initial_noise_ : Vector6
  key_ : Key
  stored_key_ : Key
  first_loaded_key_ : Key
  last_closure_key_ : Key
  odometry_ : P
  odometry_kf_ : P
  delta_icp_ : P
  values_ : Values P
  nfg_ : NonlinearFactorGraph P
  values_backup_ : Values P
  nfg_backup_ : NonlinearFactorGraph P
  pgo_solver_ : RobustPGO P
  odometry_edges_ : List Edge
  loop_edges_ : List Edge
  manual_loop_edges_ : List Edge
  edge_poses_ : List (Edge × P)
  covariance_betweenfactor_ : List (Edge × Mat66)
  keyed_scans_ : List (Key × S)
  keyed_stamps_ : List (Key × Time)
  stamps_keyed_ : List (ℚ × Key)
  has_changed_ : Bool
  disk : Option (Bundle P S)
  manual_lc_rot_precision_ : ℚ
  manual_lc_trans_precision_ : ℚ
  artifact_rot_precision_ : ℚ
  artifact_trans_precision_ : ℚ
  artifact_edges_ : List Edge
  uwb_edges_ : List Edge
  /-- The function-local `static const` noise model of `AddFactor`; `none` until the first
  call reaches its initialisation. -/
  AddFactor_noise : Option NoiseModel
  initial_key_ : Key
  uwb_range_measurement_error_ : ℚ
  uwb_range_compensation_ : Int
  uwb_id2key_hash_ : List (String × Key)
  uwb_key2id_hash_ : List (Key × String)
  artifact_key2info_hash : List (Key × ArtifactInfo)

/-! ## The time index -/

/-- The call `stamps_keyed_.lower_bound(t)`: the position of the first entry whose stamp is
not less than `t`, the length of the map when there is none. -/
def lowerBound (t : ℚ) : List (ℚ × Key) → Nat
  | [] => 0
  | e :: rest => if e.1 < t then lowerBound t rest + 1 else 0

/-- What the red-black tree behind `std::map` does at the two iterator operations of the
lookups that C++ leaves undefined on a non-empty map, and what a read through `end()`
finds. -/
structure TreeEdges where
  /-- Whether `std::prev(begin())` is `end()`; it is `begin()` otherwise. The decrement
  climbs from the leftmost node: it stops at the header, which is `end()`, when the root has
  a left child, and stays at the leftmost node when the leftmost node is the root. -/
  prevBeginIsEnd : Bool
  /-- The pair read through `end()`. -/
  endEntry : ℚ × Key
  /-- The position that `++` moves `end()` to. -/
  nextEnd : Nat

/-- The behaviour of the libstdc++ tree holding the entries `m`, inserted in increasing stamp
order: with one or two entries the leftmost node is the root, with three or more the root
has a left child; the stamp read through `end()` is the node count of the header taken as
the bits of a double, `m.length * 2 ^ (-1074)`; the key read there is whatever follows the
map in memory (`beyond`); and `++` moves `end()` to the last entry. -/
def libstdcxx (m : List (ℚ × Key)) (beyond : Key) : TreeEdges :=
  { prevBeginIsEnd := decide (3 ≤ m.length)
    endEntry := ((m.length : ℚ) / 2 ^ 1074, beyond)
    nextEnd := m.length - 1 }

/-- Reading through a map iterator. An iterator is a position: `begin()` is `0`, `end()`
is the length. -/
def iterRead (m : List (ℚ × Key)) (tree : TreeEdges) (i : Nat) : ℚ × Key :=
  (m.get? i).getD tree.endEntry

/-- The iterator `std::prev(it)` on a non-empty map. -/
def iterPrev (m : List (ℚ × Key)) (tree : TreeEdges) (i : Nat) : Nat :=
  if i = 0 then (if tree.prevBeginIsEnd then m.length else 0) else i - 1

/-- The iterator `std::next(it)`. -/
def iterNext (m : List (ℚ × Key)) (tree : TreeEdges) (i : Nat) : Nat :=
  if i = m.length then tree.nextEnd else i + 1

/-- The method `LampRobot::getKeyAtTime` (LampBase.cc), on the members `stamps_keyed_` and
`key_`; `stamp` is `stamp.toSec()`. -/
def LampRobot.getKeyAtTime (stamps_keyed_ : List (ℚ × Key)) (key_ : Key)
    (tree : TreeEdges) (stamp : ℚ) : Key :=
  let iterTime := lowerBound stamp stamps_keyed_
  let t2 := (iterRead stamps_keyed_ tree iterTime).1
  if iterTime = 0 then (iterRead stamps_keyed_ tree iterTime).2
  else
    let t1 := (iterRead stamps_keyed_ tree (iterPrev stamps_keyed_ tree iterTime)).1
    let chosen : Key × Nat :=
      if t2 - stamp < stamp - t1 then ((iterRead stamps_keyed_ tree iterTime).2, iterTime)
      else
        ((iterRead stamps_keyed_ tree (iterPrev stamps_keyed_ tree iterTime)).2,
          iterPrev stamps_keyed_ tree iterTime)
    if chosen.2 = iterPrev stamps_keyed_ tree 0 then
      (iterRead stamps_keyed_ tree (iterNext stamps_keyed_ tree chosen.2)).2
    else if chosen.2 = stamps_keyed_.length then keyPred key_
    else chosen.1

/-- The method `LaserLoopClosure::GetKeyAtTime`, on the members `stamps_keyed_` and `key_`;
`stamp` is `stamp.toSec()`. Unlike the `LampRobot` version it has no early return at
`begin()`. On an empty map the decrement of `end()` goes through the null root of the
tree: `none`. -/
def GetKeyAtTime (stamps_keyed_ : List (ℚ × Key)) (key_ : Key)
    (tree : TreeEdges) (stamp : ℚ) : Option Key :=
  if stamps_keyed_.isEmpty then none
  else
    let iterTime := lowerBound stamp stamps_keyed_
    let t2 := (iterRead stamps_keyed_ tree iterTime).1
    let t1 := (iterRead stamps_keyed_ tree (iterPrev stamps_keyed_ tree iterTime)).1
    let chosen : Key × Nat :=
      if t2 - stamp < stamp - t1 then ((iterRead stamps_keyed_ tree iterTime).2, iterTime)
      else
        ((iterRead stamps_keyed_ tree (iterPrev stamps_keyed_ tree iterTime)).2,
          iterPrev stamps_keyed_ tree iterTime)
    if chosen.2 = iterPrev stamps_keyed_ tree 0 then
      some (iterRead stamps_keyed_ tree (iterNext stamps_keyed_ tree chosen.2)).2
    else if chosen.2 = stamps_keyed_.length then some (keyPred key_)
    else some chosen.1

/-- The entries of a `std::map<double, Symbol>` are in strictly increasing stamp order. -/
def StampsSorted (m : List (ℚ × Key)) : Prop := m.Pairwise fun a b => a.1 < b.1

/-! ## Pose helpers -/

section Methods

variable {P S : Type} [Group P]

/-- Modelled from the spec: `gu::PoseUpdate` of the `geometry_utils` package, whose source
is not part of the files at hand; the spec writes it as the product of rigid transforms. -/
def PoseUpdate (a b : P) : P := a * b

/-- Modelled from the spec: `gu::PoseInverse` of the `geometry_utils` package; the spec
writes it as the group inverse. -/
def PoseInverse (a : P) : P := a⁻¹

/-- Modelled from the spec: `gu::PoseDelta` of the `geometry_utils` package; the spec writes
`PoseDelta(pose1, pose2)` as `pose1⁻¹ · pose2`. -/
def PoseDelta (a b : P) : P := PoseUpdate (PoseInverse a) b

/-! ## Persistence -/

/-- The method `PublishPoseGraph`, as far as the class state goes: whatever its argument,
`has_changed_` is false afterwards. The messages it sends are not modelled. -/
def PublishPoseGraph (s : LaserLoopClosure P S) : LaserLoopClosure P S :=
  { s with has_changed_ := false }

/-- The method `ErasePosegraph`. It is declared `bool` and has no `return` statement:
`none` when the build does not come back from such a call. -/
def ErasePosegraph (env : Env P S) (s : LaserLoopClosure P S) : Option (LaserLoopClosure P S) :=
  if env.build.returnsAtEnd then
    some { s with
      keyed_scans_ := []
      keyed_stamps_ := []
      stamps_keyed_ := []
      loop_edges_ := []
      manual_loop_edges_ := []
      odometry_ := 1
      odometry_kf_ := 1
      odometry_edges_ := []
      has_changed_ := true }
  else none

/-- What `writeG2o` keeps of a factor graph: the between factors. -/
def g2oFactors (g : NonlinearFactorGraph P) : NonlinearFactorGraph P :=
  g.filter Factor.isBetween

/-- The loop of `Save` over `keyed_scans_` writing `keys.csv`. The outer `none` is the
exception of `keyed_stamps_.at`, the inner `none` the early `return false` for a key
that is missing from `values_`. -/
def saveKeyRows (values_ : Values P) (keyed_stamps_ : List (Key × Time)) :
    List (Key × S) → Option (Option (List (Key × S × Time)))
  | [] => some (some [])
  | e :: rest =>
    if !mapHas e.1 values_ then some none
    else
      match mapFind e.1 keyed_stamps_ with
      | none => none
      | some t =>
        match saveKeyRows values_ keyed_stamps_ rest with
        | none => none
        | some none => some none
        | some (some rows) => some (some ((e.1, e.2, t) :: rows))

/-- The method `Save("posegraph_backup.zip")`. On the early `return false` the zip file
has been opened for writing and is never closed, which leaves no readable bundle. On the
path that writes the whole bundle the method, declared `bool`, ends without a `return`
statement: `none` when the build does not come back from such a call. -/
def Save (env : Env P S) (s : LaserLoopClosure P S) : Option (LaserLoopClosure P S) :=
  match saveKeyRows s.values_ s.keyed_stamps_ s.keyed_scans_ with
  | none => none
  | some none => some { s with disk := none }
  | some (some rows) =>
    if env.build.returnsAtEnd then
      some { s with
        disk := some
          { graph := (g2oFactors (s.pgo_solver_.getFactorsUnsafe env.opt), s.values_)
            keys := rows
            odometry_edges := s.odometry_edges_
            loop_edges := s.loop_edges_ } }
    else none

/-- The expression `*nfg_.keys().begin()`: the smallest key of the factor graph; on a graph
without factors the key set is empty and the dereference is unchecked. -/
def firstKey (env : Env P S) (g : NonlinearFactorGraph P) : Key :=
  (g.flatMap Factor.keys).min?.getD env.build.emptyFront

/-- The loop of `Load` over the rows of `keys.csv`. -/
def loadKeyRows : List (Key × S × Time) → LaserLoopClosure P S → LaserLoopClosure P S
  | [], s => s
  | row :: rest, s =>
    loadKeyRows rest
      { s with
        key_ := row.1
        keyed_scans_ := mapSet row.1 row.2.1 s.keyed_scans_
        keyed_stamps_ := mapSet row.1 row.2.2 s.keyed_stamps_ }

/-- The method `Load("posegraph_backup.zip")`. -/
def Load (env : Env P S) (s : LaserLoopClosure P S) :
    Option (LaserLoopClosure P S × Bool) :=
  let s1 := { s with stored_key_ := s.key_ }
  match s1.disk with
  | none => some (s1, false)
  | some b =>
    let s2 := { s1 with nfg_ := b.graph.1, values_ := b.graph.2, pgo_solver_ := RobustPGO.fresh }
    let key0 := firstKey env s2.nfg_
    let s3 := { s2 with first_loaded_key_ := key0 }
    match mapFind key0 s3.values_ with
    | none => some (s3, false)
    | some pose0 =>
      let s4 :=
        { s3 with nfg_ := s3.nfg_ ++ [Factor.prior key0 pose0 (.sigmas s3.initial_noise_)] }
      match s4.pgo_solver_.update env.opt s4.nfg_ s4.values_ with
      | none => none
      | some σ =>
        let s5 := loadKeyRows b.keys { s4 with pgo_solver_ := σ }
        let s6 := { s5 with key_ := keySucc s5.key_ }
        let s7 := { s6 with odometry_edges_ := s6.odometry_edges_ ++ b.odometry_edges }
        let s8 := { s7 with loop_edges_ := s7.loop_edges_ ++ b.loop_edges }
        some (PublishPoseGraph s8, true)

/-! ## The sanity gate -/

/-- The method `SanityCheckForLoopClosure`. -/
def SanityCheckForLoopClosure (env : Env P S) (s : LaserLoopClosure P S)
    (translational_sanity_check cost_old cost : ℚ) :
    Option (LaserLoopClosure P S × Bool) :=
  if s.key_ > 1 then
    match mapFind (keyPred s.key_) s.values_backup_, mapFind (keyPred s.key_) s.values_ with
    | some old_pose, some new_pose =>
      let delta := env.geo.translationNorm (old_pose * new_pose⁻¹)
      if delta > translational_sanity_check ∨ cost > cost_old then
        let s1 := { s with values_ := s.values_backup_, nfg_ := s.nfg_backup_ }
        some ({ s1 with
                values_ := s1.pgo_solver_.calculateEstimate env.opt
                nfg_ := s1.pgo_solver_.getFactorsUnsafe env.opt }, false)
      else some (s, true)
    | _, _ => none
  else some (s, true)

/-! ## Odometry -/

/-- The method `MakeBetweenFactor`: records the odometry edge and builds the factor. -/
def MakeBetweenFactor (s : LaserLoopClosure P S) (delta : P) (covariance : NoiseModel) :
    LaserLoopClosure P S × Factor P :=
  ({ s with odometry_edges_ := s.odometry_edges_ ++ [(keyPred s.key_, s.key_)] },
   Factor.between (keyPred s.key_) s.key_ delta covariance)

/-- The first part of `AddBetweenFactor`: the incoming delta is composed onto both
accumulators. -/
def accumulate (s : LaserLoopClosure P S) (delta : P) : LaserLoopClosure P S :=
  { s with odometry_ := s.odometry_ * delta, odometry_kf_ := s.odometry_kf_ * delta }

/-- The test of `AddBetweenFactor` that ends the call without a new node. -/
def belowNodeThresholds (env : Env P S) (s : LaserLoopClosure P S) : Bool :=
  decide (env.geo.translationNorm s.odometry_ < s.translation_threshold_nodes_) &&
    nanLess (env.geo.rotationAngle s.odometry_) s.rotation_threshold_nodes_

/-- The middle part of `AddBetweenFactor`, from `MakeBetweenFactor` to the refresh of
`values_` and `nfg_` after the solver update, run on the state that already holds the
accumulated odometry. Returns the state and the two costs `cost_old`, `cost`. -/
def insertOdometryNode (env : Env P S) (s : LaserLoopClosure P S) (covariance : Mat66) :
    Option (LaserLoopClosure P S × ℚ × ℚ) :=
  let mk := MakeBetweenFactor s s.odometry_ (.covariance covariance)
  let s1 := mk.1
  let new_factor : NonlinearFactorGraph P := [mk.2]
  match mapFind (keyPred s1.key_) s1.values_ with
  | none => none
  | some last_pose =>
    let new_value : Values P := [(s1.key_, last_pose * s1.odometry_)]
    let odometry_edge : Edge := (keyPred s1.key_, s1.key_)
    let s2 :=
      { s1 with
        edge_poses_ := assocSet odometry_edge s1.odometry_ s1.edge_poses_
        covariance_betweenfactor_ :=
          assocSet odometry_edge covariance s1.covariance_betweenfactor_ }
    let nfg_temp := s2.pgo_solver_.getFactorsUnsafe env.opt ++ new_factor
    match Values.insert1 s2.key_ (last_pose * s2.odometry_)
        (s2.pgo_solver_.getLinearizationPoint env.opt) with
    | none => none
    | some values_temp =>
      let cost_old := env.opt.error nfg_temp values_temp
      match s2.pgo_solver_.update env.opt new_factor new_value with
      | none => none
      | some σ =>
        let s3 := { s2 with pgo_solver_ := σ, has_changed_ := true }
        let s4 :=
          { s3 with
            values_ := s3.pgo_solver_.calculateEstimate env.opt
            nfg_ := s3.pgo_solver_.getFactorsUnsafe env.opt }
        some (s4, cost_old, env.opt.error s4.nfg_ s4.values_)

/-- The last part of `AddBetweenFactor`: the stamp is indexed, the key handed out and
advanced, the accumulator reset, and the keyframe test decides the returned flag. -/
def commitOdometryNode (env : Env P S) (s : LaserLoopClosure P S) (stamp : Time) :
    LaserLoopClosure P S × Bool × Option Key :=
  let s1 :=
    { s with
      keyed_stamps_ := mapInsert s.key_ stamp s.keyed_stamps_
      stamps_keyed_ := mapInsert (toSec stamp) s.key_ s.stamps_keyed_ }
  let out := some s1.key_
  let s2 := { s1 with key_ := keySucc s1.key_ }
  let s3 := { s2 with odometry_ := 1 }
  if env.geo.translationNorm s3.odometry_kf_ > s3.translation_threshold_kf_ then
    ({ s3 with odometry_kf_ := 1 }, true, out)
  else (s3, false, out)

/-- The method `AddBetweenFactor(delta, covariance, stamp, key)`. The result is the new
state, the returned flag and the content of the output cell `key`. -/
def AddBetweenFactor (env : Env P S) (s : LaserLoopClosure P S) (delta : P)
    (covariance : Mat66) (stamp : Time) (key : Option Key) :
    Option (LaserLoopClosure P S × Bool × Option Key) :=
  match key with
  | none => some (s, false, none)
  | some k =>
    let s1 := accumulate s delta
    if belowNodeThresholds env s1 then some (s1, false, some k)
    else
      match insertOdometryNode env s1 covariance with
      | none => none
      | some (s4, cost_old, cost) =>
        if s4.b_check_deltas_ && mapHas (keyPred s4.key_) s4.values_backup_ then
          match SanityCheckForLoopClosure env s4 s4.translational_sanity_check_odom_
              cost_old cost with
          | none => none
          | some (s5, true) => some (commitOdometryNode env s5 stamp)
          | some (s5, false) =>
            match (ErasePosegraph env s5).bind (Load env) with
            | none => none
            | some (s6, _) => some (s6, false, some k)
        else some (commitOdometryNode env s4 stamp)

/-! ## Scan registration and loop closure -/

/-- The covariance `PerformICP` writes: zero except for the squared rotation sigma on the
first three diagonal entries and the squared translation sigma on the last three. -/
def icpCovariance (s : LaserLoopClosure P S) : Mat66 :=
  let rot := s.laser_lc_rot_sigma_ * s.laser_lc_rot_sigma_
  let trans := s.laser_lc_trans_sigma_ * s.laser_lc_trans_sigma_
  (((((Mat66.zeros.setDiag 0 rot).setDiag 1 rot).setDiag 2 rot).setDiag 3 trans).setDiag 4
    trans).setDiag 5 trans

/-- The value `PerformICP` assigns to `*delta` on success. -/
def compensatedDelta (pose1 pose2 delta_icp : P) : P :=
  let update := PoseUpdate (PoseInverse pose1) (PoseUpdate (PoseInverse delta_icp) pose1)
  PoseUpdate update (PoseDelta pose1 pose2)

/-- The first part of `PerformICP`: both scans are filtered (the first one only when it is
not filtered already), moved to the world frame (the first one only when `frame_id` is not
`"World"`), and aligned. -/
def alignScans (env : Env P S) (scan1 scan2 : S) (pose1 pose2 : P) (is_filtered : Bool)
    (frame_id : String) : IcpResult P :=
  let scan1_filtered := if !is_filtered then env.reg.filter scan1 else scan1
  let scan2_filtered := env.reg.filter scan2
  let source :=
    if frame_id != "World" then env.reg.transformPointCloud pose1 scan1_filtered
    else scan1_filtered
  let target := env.reg.transformPointCloud pose2 scan2_filtered
  env.reg.align source target

/-- The method `PerformICP` (the `Mat66` overload). The result is the new state
(`delta_icp_` is a member), the returned flag and the contents of the two output cells. -/
def PerformICP (env : Env P S) (s : LaserLoopClosure P S) (scan1 scan2 : S)
    (pose1 pose2 : P) (delta : Option P) (covariance : Option Mat66)
    (is_filtered : Bool) (frame_id : String) :
    LaserLoopClosure P S × Bool × Option P × Option Mat66 :=
  match delta, covariance with
  | some _, some _ =>
    let icp := alignScans env scan1 scan2 pose1 pose2 is_filtered frame_id
    let s1 := { s with delta_icp_ := icp.finalTransformation }
    if !icp.hasConverged then (s1, false, delta, covariance)
    else if icp.fitnessScore > s1.max_tolerable_fitness_ then (s1, false, delta, covariance)
    else
      (s1, true, some (compensatedDelta pose1 pose2 s1.delta_icp_), some (icpCovariance s1))
  | _, _ => (s, false, delta, covariance)

/-- The local variables of `FindLoopClosures` that live across loop iterations, together
with the class state and the content of `*closure_keys`. -/
structure ClosureSearch (P S : Type) where
  s : LaserLoopClosure P S
  closed_loop : Bool
  pose_graph_saved_ : Bool
  cost_old : ℚ
  cost : ℚ
  closure_keys : List Key

/-- How one iteration of the loop of `FindLoopClosures` ends: it goes on to the next pose
with `values_` untouched, it goes on after having assigned `values_`, or the method returns
`false`. -/
inductive LoopExit (P S : Type) where
  | next (st : ClosureSearch P S)
  | reassigned (st : ClosureSearch P S)
  | returned (st : ClosureSearch P S)

/-- The skip tests at the head of the loop body of `FindLoopClosures`: self-check, recently
collected poses, later keys, poses without a scan. -/
def skipsCandidate (s : LaserLoopClosure P S) (key other_key : Key) : Bool :=
  decide (other_key = key) ||
  (decide (key > other_key) &&
    decide (|((keySub key other_key : Nat) : ℚ)| < (s.skip_recent_poses_ : ℚ))) ||
  decide (other_key > key) ||
  !mapHas other_key s.keyed_scans_

/-- The body of `if (PerformICP(...)) { ... }` in `FindLoopClosures`: the loop closure
factor is handed to the solver and the edge recorded. -/
def emitLoopClosure (env : Env P S) (key other_key : Key) (delta : P) (covariance : Mat66)
    (st : ClosureSearch P S) : Option (ClosureSearch P S) :=
  let saved : Option (ClosureSearch P S) :=
    if st.s.save_posegraph_backup_ && !st.pose_graph_saved_ then
      (Save env st.s).map fun s' => { st with s := s', pose_graph_saved_ := true }
    else some st
  match saved with
  | none => none
  | some st1 =>
    let s1 := { st1.s with has_changed_ := true }
    let new_factor : NonlinearFactorGraph P :=
      [Factor.between key other_key delta (.covariance covariance)]
    let nfg_temp := s1.pgo_solver_.getFactorsUnsafe env.opt ++ new_factor
    let cost_old := env.opt.error nfg_temp s1.values_
    match s1.pgo_solver_.update env.opt new_factor [] with
    | none => none
    | some σ =>
      let s2 := { s1 with pgo_solver_ := σ, last_closure_key_ := key }
      let cost := env.opt.error (s2.pgo_solver_.getFactorsUnsafe env.opt)
        (s2.pgo_solver_.getLinearizationPoint env.opt)
      some
        { st1 with
          s := { s2 with loop_edges_ := s2.loop_edges_ ++ [(key, other_key)] }
          closed_loop := true
          cost_old := cost_old
          cost := cost
          closure_keys := st1.closure_keys ++ [other_key] }

/-- The part of the loop body of `FindLoopClosures` that deals with one candidate that
passed the proximity test: ICP, the emission of the factor on success, and the refresh of
`values_` and `nfg_`. -/
def registerCandidate (env : Env P S) (key other_key : Key) (pose1 pose2 : P)
    (transformedPointCloud : S) (st : ClosureSearch P S) : Option (ClosureSearch P S) :=
  match mapFind other_key st.s.keyed_scans_ with
  | none => none
  | some scan2 =>
    let r := PerformICP env st.s transformedPointCloud scan2 pose1 pose2 (some 1)
      (some Mat66.zeros) true "World"
    let st1 := { st with s := r.1 }
    let emitted : Option (ClosureSearch P S) :=
      match r.2.1, r.2.2.1, r.2.2.2 with
      | true, some delta, some covariance => emitLoopClosure env key other_key delta covariance st1
      | true, _, _ => none
      | false, _, _ => some st1
    emitted.map fun st2 =>
      { st2 with
        s := { st2.s with
               values_ := st2.s.pgo_solver_.calculateEstimate env.opt
               nfg_ := st2.s.pgo_solver_.getFactorsUnsafe env.opt } }

/-- The end of the loop body of `FindLoopClosures`, reached after `values_` has been
assigned: the sanity check with its rollback, and the update of the backups. -/
def checkCandidate (env : Env P S) (st : ClosureSearch P S) : Option (LoopExit P S) :=
  if st.s.b_check_deltas_ && st.closed_loop then
    match SanityCheckForLoopClosure env st.s st.s.translational_sanity_check_lc_
        st.cost_old st.cost with
    | none => none
    | some (s1, true) =>
      some (.reassigned { st with
        s := { s1 with nfg_backup_ := s1.nfg_, values_backup_ := s1.values_ }
        closed_loop := true })
    | some (s1, false) =>
      match (ErasePosegraph env s1).bind (Load env) with
      | none => none
      | some (s2, _) => some (.returned { st with s := s2, closed_loop := false })
  else
    some (.reassigned { st with
      s := { st.s with nfg_backup_ := st.s.nfg_, values_backup_ := st.s.values_ } })

/-- One iteration of the loop of `FindLoopClosures` over the poses of `values_`. -/
def loopBody (env : Env P S) (key : Key) (pose1 : P) (transformedPointCloud : S)
    (other_key : Key) (st : ClosureSearch P S) : Option (LoopExit P S) :=
  if skipsCandidate st.s key other_key then some (.next st)
  else
    match mapFind other_key st.s.values_ with
    | none => some (.returned st)
    | some pose2 =>
      let difference := PoseDelta pose1 pose2
      if env.geo.translationNorm difference < st.s.proximity_threshold_ then
        match registerCandidate env key other_key pose1 pose2 transformedPointCloud st with
        | none => none
        | some st1 => checkCandidate env st1
      else some (.next st)

/-- The loop of `FindLoopClosures` from the first assignment of `values_` on: the
iterator of the range-for has been invalidated, and the loop visits the keys it happens to
yield. -/
def staleLoop (env : Env P S) (key : Key) (pose1 : P) (transformedPointCloud : S) :
    List Key → ClosureSearch P S → Option (LoopExit P S)
  | [], st => some (.next st)
  | other_key :: rest, st =>
    match loopBody env key pose1 transformedPointCloud other_key st with
    | none => none
    | some (.returned st1) => some (.returned st1)
    | some (.next st1) => staleLoop env key pose1 transformedPointCloud rest st1
    | some (.reassigned st1) => staleLoop env key pose1 transformedPointCloud rest st1

/-- The loop of `FindLoopClosures`: a range-for over `values_`. It visits the keys of
`values_` in order until an iteration assigns `values_` (line 1003), which invalidates the
iterator of the loop; what the loop visits from there on is left to `Build.resume`. -/
def closureLoop (env : Env P S) (key : Key) (pose1 : P) (transformedPointCloud : S) :
    List Key → ClosureSearch P S → Option (LoopExit P S)
  | [], st => some (.next st)
  | other_key :: rest, st =>
    match loopBody env key pose1 transformedPointCloud other_key st with
    | none => none
    | some (.returned st1) => some (.returned st1)
    | some (.next st1) => closureLoop env key pose1 transformedPointCloud rest st1
    | some (.reassigned st1) =>
      match env.build.resume rest (mapKeys st1.s.values_) with
      | none => none
      | some keys => staleLoop env key pose1 transformedPointCloud keys st1

/-- The local variables of `FindLoopClosures` when its loop starts. -/
def searchStart (s : LaserLoopClosure P S) : ClosureSearch P S := ⟨s, false, false, 0, 0, []⟩

/-- The test of `FindLoopClosures` that a loop was closed too recently. The member
`last_closure_key_` is declared in a header that is not among the files at hand; it is
taken as a 64-bit key, which is what the subtraction from a `gtsam::Symbol` makes of it. -/
def closedRecently (s : LaserLoopClosure P S) (key : Key) : Bool :=
  decide (|((keySub key s.last_closure_key_ : Nat) : ℚ)| * s.translation_threshold_nodes_ <
    s.distance_before_reclosing_)

/-- The head of `FindLoopClosures`: the backup bundle is saved when the index of the key
is a multiple of `keys_between_each_posegraph_backup_` and backups are on. -/
def periodicBackup (env : Env P S) (s : LaserLoopClosure P S) (key : Key) :
    Option (LaserLoopClosure P S) :=
  if keyIndex key % s.keys_between_each_posegraph_backup_ = 0 ∧ s.save_posegraph_backup_
  then Save env s else some s

/-- The statements under `// Update backups` at the head of `FindLoopClosures`. -/
def refreshBackups (env : Env P S) (s : LaserLoopClosure P S) : LaserLoopClosure P S :=
  { s with
    nfg_backup_ := s.pgo_solver_.getFactorsUnsafe env.opt
    values_backup_ := s.pgo_solver_.getLinearizationPoint env.opt }

/-- The method `FindLoopClosures(key, closure_keys)`. The result is the new state, the
returned flag and the content of the output vector. The flag `b_only_allow_one_loop` is
the constant `false` in the source, so its `break` is left out. -/
def FindLoopClosures (env : Env P S) (s : LaserLoopClosure P S) (key : Key)
    (closure_keys : Option (List Key)) :
    Option (LaserLoopClosure P S × Bool × Option (List Key)) :=
  if s.keys_between_each_posegraph_backup_ = 0 then none
  else
    match periodicBackup env s key with
    | none => none
    | some s1 =>
      if !s1.check_for_loop_closures_ then some (s1, false, closure_keys)
      else if !mapHas key s1.keyed_scans_ then some (s1, false, closure_keys)
      else
        match closure_keys with
        | none => some (s1, false, none)
        | some _ =>
          let s2 := refreshBackups env s1
          match mapFind key s2.values_ with
          | none => some (s2, false, some [])
          | some pose1 =>
            if closedRecently s2 key then some (s2, false, some [])
            else
              match mapFind key s2.keyed_scans_ with
              | none => none
              | some scan1 =>
                let scan1_filtered := env.reg.filter scan1
                let transformedPointCloud := env.reg.transformPointCloud pose1 scan1_filtered
                match closureLoop env key pose1 transformedPointCloud (mapKeys s2.values_)
                    (searchStart s2) with
                | none => none
                | some (.returned st) => some (st.s, false, some st.closure_keys)
                | some (.next st) => some (st.s, st.closed_loop, some st.closure_keys)
                | some (.reassigned st) => some (st.s, st.closed_loop, some st.closure_keys)

/-! ## Predicates used to state the properties -/

/-- For one call of `AddBetweenFactor` that reaches a node threshold: the insertion of the
node throws nowhere (in particular the solver update succeeds) and the sanity check is
either not run or passes. -/
def nodeAccepted (env : Env P S) (s : LaserLoopClosure P S) (delta : P) (covariance : Mat66) :
    Bool :=
  match insertOdometryNode env (accumulate s delta) covariance with
  | none => false
  | some (s4, cost_old, cost) =>
    if s4.b_check_deltas_ && mapHas (keyPred s4.key_) s4.values_backup_ then
      match SanityCheckForLoopClosure env s4 s4.translational_sanity_check_odom_
          cost_old cost with
      | some (_, true) => true
      | _ => false
    else true

/-- Successive calls of `AddBetweenFactor`, one per input (delta, covariance, stamp), each
with a non-null output cell; the result lists the state after each call. -/
def addOdometry (env : Env P S) :
    LaserLoopClosure P S → List (P × Mat66 × Time) → Option (List (LaserLoopClosure P S))
  | _, [] => some []
  | s, x :: xs =>
    match AddBetweenFactor env s x.1 x.2.1 x.2.2 (some 0) with
    | none => none
    | some r => (addOdometry env r.1 xs).map fun trace => r.1 :: trace

/-- Every call of a run of `addOdometry` satisfies `nodeAccepted`. -/
def odometryAccepted (env : Env P S) :
    LaserLoopClosure P S → List (P × Mat66 × Time) → Bool
  | _, [] => true
  | s, x :: xs =>
    nodeAccepted env s x.1 x.2.1 &&
      match AddBetweenFactor env s x.1 x.2.1 x.2.2 (some 0) with
      | none => false
      | some r => odometryAccepted env r.1 xs

/-- The call of `PerformICP` that `FindLoopClosures` makes for a candidate returns true. -/
def registrationSucceeds (env : Env P S) (s : LaserLoopClosure P S) (transformedPointCloud : S)
    (scan2 : S) (pose1 pose2 : P) : Bool :=
  (PerformICP env s transformedPointCloud scan2 pose1 pose2 (some 1) (some Mat66.zeros) true
    "World").2.1

/-- The conditions under which the spec lets `other_key` close a loop with `key`, read on
the state `s`: `other_key` is a key of `values_` below `key`, at least
`skip_recent_poses_` keys away, with a stored scan, with the translation of its pose
(as `PoseDelta` measures it from `pose1`) within `proximity_threshold_`, and with a
successful scan registration. -/
def candidateQualifies (env : Env P S) (s : LaserLoopClosure P S) (key : Key) (pose1 : P)
    (transformedPointCloud : S) (other_key : Key) : Bool :=
  decide (other_key < key) &&
  decide (s.skip_recent_poses_ ≤ (key : Int) - (other_key : Int)) &&
  match mapFind other_key s.keyed_scans_, mapFind other_key s.values_ with
  | some scan2, some pose2 =>
    decide (env.geo.translationNorm (PoseDelta pose1 pose2) < s.proximity_threshold_) &&
      registrationSucceeds env s transformedPointCloud scan2 pose1 pose2
  | _, _ => false

/-- The state an iteration of the loop of `FindLoopClosures` ends in. -/
def LoopExit.state : LoopExit P S → ClosureSearch P S
  | .next st => st
  | .reassigned st => st
  | .returned st => st

/-- Two states agree on what the candidate tests of `FindLoopClosures` read, the poses
apart: the stored scans, the thresholds and the sanity switch. -/
def SameSetup (a b : LaserLoopClosure P S) : Prop :=
  a.keyed_scans_ = b.keyed_scans_ ∧ a.skip_recent_poses_ = b.skip_recent_poses_ ∧
  a.proximity_threshold_ = b.proximity_threshold_ ∧
  a.max_tolerable_fitness_ = b.max_tolerable_fitness_ ∧
  a.b_check_deltas_ = b.b_check_deltas_

end Methods

/-! ## Manual closures, factor removal and keyed scans -/

section Factors

variable {P S : Type} [Group P]

/-- The call `pgo_solver_->removeFactorsNoUpdate(factorsToRemove)`. -/
def RobustPGO.removeFactorsNoUpdate (opt : Optimizer P) (σ : RobustPGO P)
    (factorsToRemove : List Nat) : RobustPGO P :=
  ⟨opt.removeFactors σ.factors σ.values factorsToRemove, σ.values⟩

/-- The call `pgo_solver_->update(new_factor, new_value, factorsToRemove)`. -/
def RobustPGO.updateRemoving (opt : Optimizer P) (σ : RobustPGO P)
    (new_factor : NonlinearFactorGraph P) (new_value : Values P)
    (factorsToRemove : List Nat) : Option (RobustPGO P) :=
  (σ.removeFactorsNoUpdate opt factorsToRemove).update opt new_factor new_value

/-- The vector `precisions` of `AddFactor`: `head<3>` is the rotation precision, `tail<3>`
the translation precision. -/
def factorPrecisions (rot_precision trans_precision : ℚ) : Vector6 :=
  fun i => if i.val < 3 then rot_precision else trans_precision

/-- The part of `AddFactor` from the declaration of `new_factor` to the cost taken after
the solver update, run on the state whose `nfg_` and backups are already refreshed.
Returns the state and the two costs `cost_old`, `cost`. The noise model is the
function-local static: built from this call's precisions only if no earlier call built
it. -/
def addFactorUpdate (env : Env P S) (s : LaserLoopClosure P S) (key1 key2 : Key) (pose12 : P)
    (is_manual_loop_closure : Bool) (rot_precision trans_precision : ℚ) :
    Option (LaserLoopClosure P S × ℚ × ℚ) :=
  let linPoint := s.pgo_solver_.getLinearizationPoint env.opt
  let guess : Option (Values P) :=
    if is_manual_loop_closure = false ∧ mapHas key2 linPoint = false then
      (mapFind key1 linPoint).map fun p => [(key2, p * pose12)]
    else some []
  match guess with
  | none => none
  | some new_values =>
    match Values.insertAll new_values linPoint with
    | none => none
    | some linPoint1 =>
      let noise :=
        s.AddFactor_noise.getD (.precisions (factorPrecisions rot_precision trans_precision))
      let s1 := { s with AddFactor_noise := some noise }
      let factor := Factor.between key1 key2 pose12 noise
      let new_factor : NonlinearFactorGraph P := [factor]
      let cost_old := env.opt.error new_factor linPoint1
      match s1.pgo_solver_.update env.opt new_factor new_values with
      | none => none
      | some σ =>
        let result := σ.calculateEstimate env.opt
        let s2 := { s1 with pgo_solver_ := σ, nfg_ := σ.getFactorsUnsafe env.opt }
        let s3 :=
          if is_manual_loop_closure then
            { s2 with
              loop_edges_ := s2.loop_edges_ ++ [(key1, key2)]
              manual_loop_edges_ := s2.manual_loop_edges_ ++ [(key1, key2)] }
          else { s2 with artifact_edges_ := s2.artifact_edges_ ++ [(key1, key2)] }
        let s4 := { s3 with values_ := result }
        some (s4, cost_old, env.opt.error s4.nfg_ (s4.pgo_solver_.getLinearizationPoint env.opt))

/-- The head of `AddFactor`: `nfg_` and both backups are refreshed from the solver. -/
def refreshFromSolver (env : Env P S) (s : LaserLoopClosure P S) : LaserLoopClosure P S :=
  { s with
    nfg_ := s.pgo_solver_.getFactorsUnsafe env.opt
    nfg_backup_ := s.pgo_solver_.getFactorsUnsafe env.opt
    values_backup_ := s.pgo_solver_.getLinearizationPoint env.opt }

/-- The method `AddFactor(key1, key2, pose12, is_manual_loop_closure, rot_precision,
trans_precision)`. The value of `SanityCheckForLoopClosure` is stored in a local and not
read again. -/
def AddFactor (env : Env P S) (s : LaserLoopClosure P S) (key1 key2 : Key) (pose12 : P)
    (is_manual_loop_closure : Bool) (rot_precision trans_precision : ℚ) :
    Option (LaserLoopClosure P S × Bool) :=
  let linPoint := s.pgo_solver_.getLinearizationPoint env.opt
  let s0 := refreshFromSolver env s
  if is_manual_loop_closure = true ∧
      (mapHas key1 linPoint = false ∨ mapHas key2 linPoint = false) then some (s0, false)
  else if is_manual_loop_closure = false ∧ mapHas key2 linPoint = false ∧
      mapHas key1 linPoint = false then some (s0, false)
  else
    match addFactorUpdate env s0 key1 key2 pose12 is_manual_loop_closure rot_precision
        trans_precision with
    | none => none
    | some (s4, cost_old, cost) =>
      if s4.b_check_deltas_ then
        match SanityCheckForLoopClosure env s4 s4.translational_sanity_check_lc_
            cost_old cost with
        | none => none
        | some (s5, _) => some ({ s5 with has_changed_ := true }, true)
      else some ({ s4 with has_changed_ := true }, true)

/-- The method `AddManualLoopClosure(key1, key2, pose12)`. -/
def AddManualLoopClosure (env : Env P S) (s : LaserLoopClosure P S) (key1 key2 : Key)
    (pose12 : P) : Option (LaserLoopClosure P S × Bool) :=
  AddFactor env s key1 key2 pose12 true s.manual_lc_rot_precision_
    s.manual_lc_trans_precision_

/-- The slots `RemoveFactor` collects: the between factors joining the two keys, in either
direction. -/
def factorsToRemove (key1 key2 : Key) (nfg : NonlinearFactorGraph P) : List Nat :=
  (nfg.enum.filter fun e =>
    match e.2 with
    | .between k1 k2 _ _ => decide ((k1 = key1 ∧ k2 = key2) ∨ (k1 = key2 ∧ k2 = key1))
    | _ => false).map Prod.fst

/-- The loop of `RemoveFactor` over `loop_edges_`. Its index stays `0`: a matching entry
`loop_edges_[0]` is erased, a non-matching one leaves the loop state as it was. Each
iteration uses one unit of `fuel`; `none` means the fuel ran out. -/
def eraseLoopEdges (key1 key2 : Key) : Nat → List Edge → Option (List Edge)
  | _, [] => some []
  | 0, _ :: _ => none
  | fuel + 1, e :: rest =>
    if (key1 = e.1 ∧ key2 = e.2) ∨ (key1 = e.2 ∧ key2 = e.1) then
      eraseLoopEdges key1 key2 fuel rest
    else eraseLoopEdges key1 key2 fuel (e :: rest)

/-- The method `RemoveFactor(key1, key2, is_batch_loop_closure)`, with `fuel` iterations
allowed to its loop over `loop_edges_`. The subtraction `key - 1` is that of 64-bit
keys. -/
def RemoveFactor (env : Env P S) (fuel : Nat) (s : LaserLoopClosure P S) (key1 key2 : Key)
    (is_batch_loop_closure : Bool) : Option (LaserLoopClosure P S × Bool) :=
  if key1 = keyPred key2 ∨ key2 = keyPred key1 then some (s, false)
  else
    let nfg := s.pgo_solver_.getFactorsUnsafe env.opt
    let slots := factorsToRemove key1 key2 nfg
    if slots.length = 0 then some (s, false)
    else
      match eraseLoopEdges key1 key2 fuel s.loop_edges_ with
      | none => none
      | some edges =>
        let s1 := { s with loop_edges_ := edges }
        let removed : Option (RobustPGO P) :=
          if is_batch_loop_closure then some (s1.pgo_solver_.removeFactorsNoUpdate env.opt slots)
          else s1.pgo_solver_.updateRemoving env.opt [] [] slots
        match removed with
        | none => none
        | some σ =>
          let s2 := { s1 with pgo_solver_ := σ }
          let s3 := { s2 with values_ := s2.pgo_solver_.calculateEstimate env.opt }
          some (PublishPoseGraph { s3 with has_changed_ := true }, true)

/-- The method `AddKeyScanPair(key, scan, initial_pose)`; `header_stamp` reads the stamp
in the header of a scan. -/
def AddKeyScanPair (header_stamp : S → Time) (s : LaserLoopClosure P S) (key : Key) (scan : S)
    (initial_pose : Bool) : LaserLoopClosure P S × Bool :=
  if mapHas key s.keyed_scans_ then (s, false)
  else
    let s1 :=
      if initial_pose then
        { s with
          keyed_stamps_ := mapInsert key (header_stamp scan) s.keyed_stamps_
          stamps_keyed_ := mapInsert (toSec (header_stamp scan)) key s.stamps_keyed_ }
      else s
    ({ s1 with keyed_scans_ := mapInsert key scan s1.keyed_scans_ }, true)

/-- The method `KeyedScanCallback(msg)` on a message carrying `key` and `scan`. -/
def KeyedScanCallback (header_stamp : S → Time) (s : LaserLoopClosure P S) (key : Key)
    (scan : S) : LaserLoopClosure P S :=
  if mapHas key s.keyed_scans_ then s
  else
    let s1 :=
      if key = 0 then
        { s with
          keyed_stamps_ := mapInsert key (header_stamp scan) s.keyed_stamps_
          stamps_keyed_ := mapInsert (toSec (header_stamp scan)) key s.stamps_keyed_ }
      else s
    { s1 with keyed_scans_ := mapInsert key scan s1.keyed_scans_ }

/-- One of the two calls that store a keyed scan. -/
inductive ScanCall (S : Type) where
  | addKeyScanPair (key : Key) (scan : S) (initial_pose : Bool)
  | keyedScanCallback (key : Key) (scan : S)

/-- The state after one scan-storing call. -/
def ScanCall.run (header_stamp : S → Time) (s : LaserLoopClosure P S) :
    ScanCall S → LaserLoopClosure P S
  | .addKeyScanPair key scan initial_pose => (AddKeyScanPair header_stamp s key scan initial_pose).1
  | .keyedScanCallback key scan => KeyedScanCallback header_stamp s key scan

/-- The state after a sequence of scan-storing calls, made in order. -/
def runScanCalls (header_stamp : S → Time) (s : LaserLoopClosure P S) (calls : List (ScanCall S)) :
    LaserLoopClosure P S :=
  calls.foldl (ScanCall.run header_stamp) s

end Factors

/-! ## The base station: merging pose-graph messages -/

/-- The values of `pose_graph_msgs::PoseGraphEdge::type` that the source tells apart. -/
inductive PoseGraphEdgeType where
  | ODOM
  | LOOPCLOSE
  | ARTIFACT
  | UWB
  | other (code : Nat)
  deriving DecidableEq

/-- The fields of a `pose_graph_msgs::PoseGraphNode` that `PoseGraphCallback` reads; the
position and quaternion are kept as the pose they are assembled into. -/
structure PoseGraphNode (P : Type) where
  key : Key
  stamp : Time
  pose : P

/-- The fields of a `pose_graph_msgs::PoseGraphEdge` that `PoseGraphCallback` reads. -/
structure PoseGraphEdge (P : Type) where
  key_from : Key
  key_to : Key
  type : PoseGraphEdgeType
  pose : P

/-- The fields of a `pose_graph_msgs::PoseGraph` that `PoseGraphCallback` reads. -/
structure PoseGraphMsg (P : Type) where
  incremental : Bool
  nodes : List (PoseGraphNode P)
  edges : List (PoseGraphEdge P)

/-- The class state together with the two locals `new_values` and `new_factor` of
`PoseGraphCallback`. -/
structure Merge (P S : Type) where
  state : LaserLoopClosure P S
  new_values : Values P
  new_factor : NonlinearFactorGraph P

/-- The fixed covariance `PoseGraphCallback` gives every edge: `0.04 * 0.04` on the first
three diagonal entries, `0.01 * 0.01` on the last three. -/
def mergeCovariance : Mat66 :=
  fun i j => if i = j then (if i.val < 3 then (4 / 100) * (4 / 100) else (1 / 100) * (1 / 100)) else 0

section Merging

variable {P S : Type} [Group P]

/-- One iteration of the loop of `PoseGraphCallback` over the nodes of the message; `none`
is the exception of `new_values.insert` on a key it already holds. -/
def mergeNode (m : Merge P S) (msg_node : PoseGraphNode P) : Option (Merge P S) :=
  let s := { m.state with key_ := msg_node.key }
  if mapHas s.key_ s.values_ then some { m with state := s }
  else
    let new_factor :=
      if mapHas (keyPred s.key_) m.new_values then m.new_factor
      else m.new_factor ++ [Factor.prior s.key_ msg_node.pose (.sigmas s.initial_noise_)]
    match Values.insert1 s.key_ msg_node.pose m.new_values with
    | none => none
    | some new_values =>
      some
        { state :=
            { s with
              keyed_stamps_ := mapInsert msg_node.key msg_node.stamp s.keyed_stamps_
              stamps_keyed_ := mapInsert (toSec msg_node.stamp) msg_node.key s.stamps_keyed_ }
          new_values := new_values
          new_factor := new_factor }

/-- The loop of `PoseGraphCallback` over the nodes of the message. -/
def mergeNodes : List (PoseGraphNode P) → Merge P S → Option (Merge P S)
  | [], m => some m
  | msg_node :: rest, m =>
    match mergeNode m msg_node with
    | none => none
    | some m1 => mergeNodes rest m1

/-- One iteration of the loop of `PoseGraphCallback` over the edges of the message. -/
def mergeEdge (m : Merge P S) (msg_edge : PoseGraphEdge P) : Merge P S :=
  let s := m.state
  let incomming_edge : Edge := (msg_edge.key_from, msg_edge.key_to)
  let factor :=
    Factor.between msg_edge.key_from msg_edge.key_to msg_edge.pose (.covariance mergeCovariance)
  match msg_edge.type with
  | .ODOM =>
    if incomming_edge ∈ s.odometry_edges_ then m
    else
      { m with
        state := { s with odometry_edges_ := s.odometry_edges_ ++ [incomming_edge] }
        new_factor := m.new_factor ++ [factor] }
  | .LOOPCLOSE =>
    if incomming_edge ∈ s.loop_edges_ then m
    else
      { m with
        state := { s with loop_edges_ := s.loop_edges_ ++ [incomming_edge] }
        new_factor := m.new_factor ++ [factor] }
  | .ARTIFACT =>
    { m with state := { s with artifact_edges_ := s.artifact_edges_ ++ [incomming_edge] } }
  | .UWB =>
    if incomming_edge ∈ s.uwb_edges_ then m
    else { m with state := { s with uwb_edges_ := s.uwb_edges_ ++ [incomming_edge] } }
  | .other _ => m

/-- The method `PoseGraphCallback(msg)`. Of the two containers it clears for a message that
is not incremental, `keyed_poses_` is read by none of the embedded methods and is left out
of the state. -/
def PoseGraphCallback (env : Env P S) (s : LaserLoopClosure P S) (msg : PoseGraphMsg P) :
    Option (LaserLoopClosure P S) :=
  let s0 := if msg.incremental then s else { s with odometry_edges_ := [] }
  match mergeNodes msg.nodes ⟨s0, [], []⟩ with
  | none => none
  | some m1 =>
    let m2 := msg.edges.foldl mergeEdge m1
    match m2.state.pgo_solver_.update env.opt m2.new_factor m2.new_values with
    | none => none
    | some σ =>
      let s1 := { m2.state with pgo_solver_ := σ, has_changed_ := true }
      let s2 :=
        { s1 with
          values_ := s1.pgo_solver_.calculateEstimate env.opt
          nfg_ := s1.pgo_solver_.getFactorsUnsafe env.opt
          has_changed_ := true }
      some (PublishPoseGraph s2)

/-- The state after a sequence of messages, handled in order. -/
def PoseGraphCallbacks (env : Env P S) :
    List (PoseGraphMsg P) → LaserLoopClosure P S → Option (LaserLoopClosure P S)
  | [], s => some s
  | msg :: rest, s =>
    match PoseGraphCallback env s msg with
    | none => none
    | some s1 => PoseGraphCallbacks env rest s1

/-- The keys on which a factor graph holds a prior factor, in slot order. -/
def priorKeys (g : NonlinearFactorGraph P) : List Key :=
  g.filterMap fun f =>
    match f with
    | .prior k _ _ => some k
    | _ => none

end Merging

/-! ## The robot: artifact observations -/

/-- A call received by the object `pose_graph_` of `LampRobot`. The class of that object is
not among the files at hand, so the object is represented by the calls made on it. -/
inductive PoseGraphCall (P : Type) where
  | TrackNode (stamp : Time) (key : Key) (pose : P) (covariance : NoiseModel) (id : String)
  | InsertKeyedStamp (key : Key) (stamp : Time)
  | TrackFactor (key_from key_to : Key) (type : PoseGraphEdgeType) (transform : P)
      (covariance : NoiseModel)
  | keyed_stamps_index (key : Key)

/-- The object `pose_graph_`: the calls it has received, oldest first. -/
abbrev PoseGraph (P : Type) := List (PoseGraphCall P)

/-- A call received by the object `artifact_handler_`. -/
inductive ArtifactHandlerCall (P : Type) where
  | CleanFailedFactors (success : Bool)
  | PublishArtifacts (key : Key) (global_pose : P)

/-- Everything `ProcessArtifactData` takes from code outside the files at hand, left
arbitrary: the answers of `pose_graph_` as functions of the calls it has received, the
error key, the odometry handler (`none` when `b_has_value` is false), the fixed artifact
noise model and the artifact identifiers. -/
structure RobotEnv (P : Type) where
  HasKey : PoseGraph P → Key → Bool
  GetClosestKeyAtTime : PoseGraph P → Time → Bool → Key
  GetPose : PoseGraph P → Key → P
  keyed_stamps : PoseGraph P → Key → Time
  GTSAM_ERROR_SYMBOL : Key
  GetFusedOdomDeltaBetweenTimes : Time → Time → Option P
  SetFixedNoiseModels_artifact : NoiseModel
  GetArtifactID : Key → String

/-- One entry of `ArtifactData::factors`; `position` stands for the pose
`Pose3(Rot3(), artifact.position)`. -/
structure ArtifactFactor (P : Type) where
  stamp : Time
  key : Key
  position : P
  covariance : NoiseModel

/-- The struct `ArtifactData` handed over by the artifact handler. -/
structure ArtifactData (P : Type) where
  b_has_data : Bool
  factors : List (ArtifactFactor P)

/-- The members of `LampRobot` that `ProcessArtifactData` reads or writes. -/
structure LampRobot (P : Type) where
  pose_graph_ : PoseGraph P
  artifact_handler_ : List (ArtifactHandlerCall P)
  b_has_new_factor_ : Bool
  b_run_optimization_ : Bool
  b_artifacts_in_global_ : Bool
  b_use_fixed_covariances_ : Bool

/-- The locals of `ProcessArtifactData` that live across the iterations of its loop. -/
structure ArtifactLocals (P : Type) where
  transform : P
  temp_transform : P
  global_pose : P
  pose_key : Key

/-- The keys of the nodes tracked by a sequence of calls on `pose_graph_`. -/
def nodesTracked {P : Type} (calls : PoseGraph P) : List Key :=
  calls.filterMap fun c =>
    match c with
    | .TrackNode _ key _ _ _ => some key
    | _ => none

/-- The edges tracked by a sequence of calls on `pose_graph_`. -/
def edgesTracked {P : Type} (calls : PoseGraph P) : List (Key × Key × PoseGraphEdgeType) :=
  calls.filterMap fun c =>
    match c with
    | .TrackFactor key_from key_to type _ _ => some (key_from, key_to, type)
    | _ => none

section Robot

variable {P : Type} [Group P]

/-- The method `LampRobot::HandleRelativePoseMeasurement`; the three reference parameters
`transform`, `global_pose`, `key_from` are returned after the robot. -/
def LampRobot.HandleRelativePoseMeasurement (env : RobotEnv P) (r : LampRobot P) (stamp : Time)
    (relative_pose transform global_pose : P) : LampRobot P × P × P × Key :=
  let key_from := env.GetClosestKeyAtTime r.pose_graph_ stamp false
  if key_from = env.GTSAM_ERROR_SYMBOL then (r, transform, global_pose, key_from)
  else
    let stamp_from := env.keyed_stamps r.pose_graph_ key_from
    let r1 := { r with pose_graph_ := r.pose_graph_ ++ [.keyed_stamps_index key_from] }
    match env.GetFusedOdomDeltaBetweenTimes stamp_from stamp with
    | none => (r1, transform, global_pose, env.GTSAM_ERROR_SYMBOL)
    | some delta_pose =>
      let transform1 := delta_pose * relative_pose
      (r1, transform1, env.GetPose r1.pose_graph_ key_from * transform1, key_from)

/-- The method `LampRobot::ConvertGlobalToRelative`: the flag and the reference parameter
`pose_relative`. -/
def LampRobot.ConvertGlobalToRelative (env : RobotEnv P) (r : LampRobot P) (stamp : Time)
    (pose_global pose_relative : P) : Bool × P :=
  let key_from := env.GetClosestKeyAtTime r.pose_graph_ stamp false
  if key_from = env.GTSAM_ERROR_SYMBOL then (false, pose_relative)
  else (true, (env.GetPose r.pose_graph_ key_from)⁻¹ * pose_global)

/-- The two failure exits of the loop of `ProcessArtifactData`. -/
def LampRobot.failArtifact (r : LampRobot P) : LampRobot P :=
  { r with
    b_has_new_factor_ := false
    artifact_handler_ := r.artifact_handler_ ++ [.CleanFailedFactors false] }

/-- One iteration of the loop of `ProcessArtifactData`. An error is an iteration that ends
in `return false`; it carries the robot at that point. -/
def LampRobot.processArtifact (env : RobotEnv P) (r : LampRobot P) (l : ArtifactLocals P)
    (artifact : ArtifactFactor P) : Except (LampRobot P) (LampRobot P × ArtifactLocals P) :=
  let converted : Bool × P :=
    if r.b_artifacts_in_global_ then
      LampRobot.ConvertGlobalToRelative env r artifact.stamp artifact.position l.temp_transform
    else (true, artifact.position)
  if converted.1 = false then .error (LampRobot.failArtifact r)
  else
    let h := LampRobot.HandleRelativePoseMeasurement env r artifact.stamp converted.2
      l.transform l.global_pose
    let r1 := h.1
    let l1 : ArtifactLocals P := ⟨h.2.1, converted.2, h.2.2.1, h.2.2.2⟩
    if l1.pose_key = env.GTSAM_ERROR_SYMBOL then .error (LampRobot.failArtifact r1)
    else
      let covariance :=
        if r1.b_use_fixed_covariances_ then env.SetFixedNoiseModels_artifact
        else artifact.covariance
      let r2 :=
        if env.HasKey r1.pose_graph_ artifact.key = false then
          { r1 with
            pose_graph_ := r1.pose_graph_ ++
              [.TrackNode artifact.stamp artifact.key l1.global_pose covariance
                  (env.GetArtifactID artifact.key),
               .InsertKeyedStamp artifact.key artifact.stamp]
            artifact_handler_ :=
              r1.artifact_handler_ ++ [.PublishArtifacts artifact.key l1.global_pose] }
        else { r1 with b_run_optimization_ := true }
      .ok
        ({ r2 with
           pose_graph_ := r2.pose_graph_ ++
             [.TrackFactor l1.pose_key artifact.key .ARTIFACT l1.transform covariance] }, l1)

/-- The loop of `ProcessArtifactData` over the factors of the batch. -/
def LampRobot.processArtifacts (env : RobotEnv P) :
    List (ArtifactFactor P) → LampRobot P → ArtifactLocals P → LampRobot P × Bool
  | [], r, _ =>
    ({ r with artifact_handler_ := r.artifact_handler_ ++ [.CleanFailedFactors true] }, true)
  | artifact :: rest, r, l =>
    match LampRobot.processArtifact env r l artifact with
    | .error r1 => (r1, false)
    | .ok (r1, l1) => LampRobot.processArtifacts env rest r1 l1

/-- The method `LampRobot::ProcessArtifactData(data)`; the locals start as
default-constructed poses and keys. -/
def LampRobot.ProcessArtifactData (env : RobotEnv P) (r : LampRobot P) (data : ArtifactData P) :
    LampRobot P × Bool :=
  if data.b_has_data = false then (r, false)
  else
    LampRobot.processArtifacts env data.factors { r with b_has_new_factor_ := true }
      ⟨1, 1, 1, 0⟩

/-- The test for a batch of first sightings: each observation that is processed finds, at
its turn, its artifact key absent from the pose graph. -/
def LampRobot.firstSightings (env : RobotEnv P) :
    List (ArtifactFactor P) → LampRobot P → ArtifactLocals P → Bool
  | [], _, _ => true
  | artifact :: rest, r, l =>
    match LampRobot.processArtifact env r l artifact with
    | .error _ => true
    | .ok (r1, l1) =>
      !env.HasKey (r.pose_graph_ ++
          [.keyed_stamps_index (env.GetClosestKeyAtTime r.pose_graph_ artifact.stamp false)])
        artifact.key &&
      LampRobot.firstSightings env rest r1 l1

end Robot

/-! ## Initialisation, key changes, UWB anchors and artifacts -/

/-- The vector `prior_precisions` of `AddUwbFactor` and `DropUwbAnchor`: `head<3>` set to
`10.0`, `tail<3>` set to `0.0`. -/
def uwbPriorPrecisions : Vector6 := fun i => if i.val < 3 then 10 else 0

/-- The vector `precisions` of `DropUwbAnchor`: `head<3>` set to `0.0`, `tail<3>` set to
`4.0`. -/
def uwbDropPrecisions : Vector6 := fun i => if i.val < 3 then 0 else 4

section Station

variable {P S : Type} [Group P]

/-- The end of `LoadParameters`, from the reset of `odometry_` on: `pose` is the initial
pose read from the parameters, `prefix_converter` the first character of the parameter
`robot_prefix` (`none` when the parameter is missing). -/
def setInitialPose (env : Env P S) (s : LaserLoopClosure P S) (b_is_basestation_ : Bool)
    (prefix_converter : Option Nat) (pose : P) : Option (LaserLoopClosure P S × Bool) :=
  let s1 := { s with odometry_ := 1, initial_key_ := 0 }
  if b_is_basestation_ then some (s1, true)
  else
    let s2 :=
      match prefix_converter with
      | some c => { s1 with initial_key_ := Symbol c 0 }
      | none => s1
    let s3 := { s2 with key_ := s2.initial_key_ }
    match s3.pgo_solver_.update env.opt
        [Factor.prior s3.key_ pose (.sigmas s3.initial_noise_)] [(s3.key_, pose)] with
    | none => none
    | some σ =>
      let s4 := { s3 with pgo_solver_ := σ }
      some
        ({ s4 with
           values_ := s4.pgo_solver_.calculateEstimate env.opt
           nfg_ := s4.pgo_solver_.getFactorsUnsafe env.opt
           key_ := keySucc s4.key_ }, true)

/-- The method `GetLastPose`; `none` is the exception of `values_.at`. -/
def GetLastPose (s : LaserLoopClosure P S) : Option P :=
  if keyIndex s.key_ > 1 then mapFind (keyPred s.key_) s.values_
  else mapFind 0 s.values_

/-- The method `GetInitialPose`; `none` is the exception of `values_.at`. -/
def GetInitialPose (s : LaserLoopClosure P S) : Option P :=
  if keyIndex s.key_ > 1 then mapFind 0 s.values_
  else mapFind 0 s.values_

/-- The method `ChangeKeyNumber`, with `fuel` nested calls allowed; `rand i` is the value
of the `i`-th call of `rand()`. `none` means the fuel ran out. -/
def ChangeKeyNumber (rand : Nat → Nat) : Nat → LaserLoopClosure P S → Option (LaserLoopClosure P S)
  | fuel, s =>
    if s.initial_key_ = s.first_loaded_key_ then
      match fuel with
      | 0 => none
      | n + 1 => ChangeKeyNumber (fun i => rand (i + 1)) n { s with key_ := Symbol (rand 0) 0 }
    else some { s with key_ := s.initial_key_ }

/-- The head of `AddUwbFactor` and of `DropUwbAnchor`: the key of the anchor is looked up,
and created as `Symbol('u', uwb_id2key_hash_.size())` when the identifier is new. -/
def uwbKey (s : LaserLoopClosure P S) (uwb_id : String) : LaserLoopClosure P S × Key :=
  match mapFind uwb_id s.uwb_id2key_hash_ with
  | some uwb_key => (s, uwb_key)
  | none =>
    let uwb_key := Symbol 117 s.uwb_id2key_hash_.length
    ({ s with
       uwb_id2key_hash_ := assocSet uwb_id uwb_key s.uwb_id2key_hash_
       uwb_key2id_hash_ := assocSet uwb_key uwb_id s.uwb_key2id_hash_ }, uwb_key)

/-- The method `AddUwbFactor(uwb_id, stamp, range, robot_position)`; `robot_position` stands
for the pose `Pose3(Rot3(), Point3(robot_position))`, and `tree` is what the map of the
time index does at its two ends. -/
def AddUwbFactor (env : Env P S) (tree : TreeEdges) (s : LaserLoopClosure P S)
    (uwb_id : String) (stamp : Time) (range : ℚ) (robot_position : P) :
    Option (LaserLoopClosure P S × Bool) :=
  let s1 := (uwbKey s uwb_id).1
  let uwb_key := (uwbKey s uwb_id).2
  let rangeNoise := NoiseModel.isotropic s1.uwb_range_measurement_error_
  match GetKeyAtTime s1.stamps_keyed_ s1.key_ tree (toSec stamp) with
  | none => none
  | some pose_key =>
    if mapHas uwb_key s1.values_ = false then
      let linPoint := s1.pgo_solver_.getLinearizationPoint env.opt
      let s2 := { s1 with nfg_ := s1.pgo_solver_.getFactorsUnsafe env.opt }
      let new_values : Values P := [(uwb_key, robot_position)]
      match Values.insertAll new_values linPoint with
      | none => none
      | some _ =>
        let new_factor : NonlinearFactorGraph P :=
          if s2.uwb_range_compensation_ = (0 : Int) then
            [Factor.prior uwb_key 1 (.precisions uwbPriorPrecisions),
             Factor.range pose_key uwb_key range rangeNoise]
          else []
        let s3 :=
          if s2.uwb_range_compensation_ = (0 : Int) then
            { s2 with uwb_edges_ := s2.uwb_edges_ ++ [(pose_key, uwb_key)] }
          else s2
        match s3.pgo_solver_.update env.opt new_factor new_values with
        | none => none
        | some σ =>
          let s4 := { s3 with pgo_solver_ := σ, nfg_ := σ.getFactorsUnsafe env.opt }
          let s5 := { s4 with uwb_edges_ := s4.uwb_edges_ ++ [(pose_key, uwb_key)] }
          let s6 := { s5 with values_ := s5.pgo_solver_.calculateEstimate env.opt }
          some (PublishPoseGraph s6, true)
    else
      let s2 := { s1 with nfg_ := s1.pgo_solver_.getFactorsUnsafe env.opt }
      let new_factor : NonlinearFactorGraph P :=
        if s2.uwb_range_compensation_ = (0 : Int) then [Factor.range pose_key uwb_key range rangeNoise]
        else []
      let s3 :=
        if s2.uwb_range_compensation_ = (0 : Int) then
          { s2 with uwb_edges_ := s2.uwb_edges_ ++ [(pose_key, uwb_key)] }
        else s2
      match s3.pgo_solver_.update env.opt new_factor [] with
      | none => none
      | some σ =>
        let s4 := { s3 with pgo_solver_ := σ, nfg_ := σ.getFactorsUnsafe env.opt }
        let s5 := { s4 with values_ := s4.pgo_solver_.calculateEstimate env.opt }
        some (PublishPoseGraph s5, true)

/-- The method `DropUwbAnchor(uwb_id, stamp, robot_position)`. -/
def DropUwbAnchor (env : Env P S) (tree : TreeEdges) (s : LaserLoopClosure P S)
    (uwb_id : String) (stamp : Time) (robot_position : P) :
    Option (LaserLoopClosure P S × Bool) :=
  let s1 := (uwbKey s uwb_id).1
  let uwb_key := (uwbKey s uwb_id).2
  let linPoint := s1.pgo_solver_.getLinearizationPoint env.opt
  let s2 := { s1 with nfg_ := s1.pgo_solver_.getFactorsUnsafe env.opt }
  match GetKeyAtTime s2.stamps_keyed_ s2.key_ tree (toSec stamp) with
  | none => none
  | some pose_key =>
    let new_values : Values P := [(uwb_key, robot_position)]
    match Values.insertAll new_values linPoint with
    | none => none
    | some _ =>
      let new_factor : NonlinearFactorGraph P :=
        [Factor.prior uwb_key 1 (.precisions uwbPriorPrecisions),
         Factor.between pose_key uwb_key 1 (.precisions uwbDropPrecisions)]
      match s2.pgo_solver_.update env.opt new_factor new_values with
      | none => none
      | some σ =>
        let s3 := { s2 with pgo_solver_ := σ, nfg_ := σ.getFactorsUnsafe env.opt }
        let s4 := { s3 with uwb_edges_ := s3.uwb_edges_ ++ [(pose_key, uwb_key)] }
        let s5 := { s4 with values_ := s4.pgo_solver_.calculateEstimate env.opt }
        some (PublishPoseGraph s5, true)

/-- The method `AddArtifact(posekey, artifact_key, pose12, artifact)`. -/
def AddArtifact (env : Env P S) (s : LaserLoopClosure P S) (posekey artifact_key : Key)
    (pose12 : P) (artifact : ArtifactInfo) : Option (LaserLoopClosure P S × Bool) :=
  let s1 :=
    if mapHas artifact_key s.artifact_key2info_hash then s
    else
      { s with
        artifact_key2info_hash := assocSet artifact_key artifact s.artifact_key2info_hash }
  AddFactor env s1 posekey artifact_key pose12 false s1.artifact_rot_precision_
    s1.artifact_trans_precision_

/-- The method `AddFactorAtLoad(delta, covariance)`. -/
def AddFactorAtLoad (env : Env P S) (s : LaserLoopClosure P S) (delta : P)
    (covariance : Mat66) : Option (LaserLoopClosure P S × Bool) :=
  match mapFind s.first_loaded_key_ s.values_ with
  | none => none
  | some first_pose =>
    let s1 := { s with odometry_edges_ := s.odometry_edges_ ++ [(s.first_loaded_key_, s.key_)] }
    let new_factor : NonlinearFactorGraph P :=
      [Factor.between s1.first_loaded_key_ s1.key_ delta (.covariance covariance)]
    let new_value : Values P := [(s1.key_, first_pose * delta)]
    match s1.pgo_solver_.update env.opt new_factor new_value with
    | none => none
    | some σ =>
      let s2 := { s1 with pgo_solver_ := σ, has_changed_ := true }
      some
        ({ s2 with
           values_ := s2.pgo_solver_.calculateEstimate env.opt
           nfg_ := s2.pgo_solver_.getFactorsUnsafe env.opt
           has_changed_ := true
           key_ := keySucc s2.key_ }, true)

/-- The entries of a diagonal noise model given by precisions, `none` for any other noise
model. -/
def NoiseModel.precisionList : NoiseModel → Option (List ℚ)
  | .precisions v => some (List.ofFn v)
  | _ => none

/-- The between factors of a graph with the precisions of their noise models, in slot
order. -/
def betweenPrecisions (g : NonlinearFactorGraph P) : List (Key × Key × Option (List ℚ)) :=
  g.filterMap fun f =>
    match f with
    | .between k1 k2 _ noise => some (k1, k2, noise.precisionList)
    | _ => none

/-- The prior factors of a graph with the precisions of their noise models, in slot
order. -/
def priorPrecisions (g : NonlinearFactorGraph P) : List (Key × Option (List ℚ)) :=
  g.filterMap fun f =>
    match f with
    | .prior k _ noise => some (k, noise.precisionList)
    | _ => none

/-- The range factors of a graph, in slot order. -/
def rangeEdges (g : NonlinearFactorGraph P) : List Edge :=
  g.filterMap fun f =>
    match f with
    | .range k1 k2 _ _ => some (k1, k2)
    | _ => none

end Station

/-- The arguments of the calls of `CleanFailedFactors` among the calls received by
`artifact_handler_`, in order. -/
def cleanCalls {P : Type} (calls : List (ArtifactHandlerCall P)) : List Bool :=
  calls.filterMap fun c =>
    match c with
    | .CleanFailedFactors success => some success
    | _ => none

/-! ## A concrete instance -/

/-- Poses restricted to translations along one axis: the additive group of `ℚ`. -/
abbrev Pose1 := Multiplicative ℚ

/-- The norm of a translation along one axis; no rotation. -/
def lineGeometry : Geometry Pose1 :=
  { translationNorm := fun p => |Multiplicative.toAdd p|
    rotationAngle := fun _ => some 0 }

/-- A solver that never throws, rejects nothing, leaves every pose where it is and drops
exactly the slots it is asked to remove. -/
def idleOptimizer : Optimizer Pose1 :=
  { throws := fun _ _ => false
    inliers := fun g _ => g
    estimate := fun _ _ _ p => p
    linearize := fun _ _ _ p => p
    error := fun _ _ => 0
    removeFactors := fun g _ slots =>
      (g.enum.filter fun e => !slots.contains e.1).map Prod.snd }

/-- Point clouds are numbers; ICP converges with fitness `0` on equal clouds and reports
the identity, and fails to converge on different clouds. -/
def plainRegistration : Registration Pose1 Nat :=
  { filter := fun c => c
    transformPointCloud := fun _ c => c
    align := fun a b => ⟨1, decide (a = b), if a = b then 0 else 1⟩ }

/-- A build without optimisation against libstdc++: a call that ends without a `return`
statement comes back to its caller, the dereference of `begin()` on an empty key set reads
`0`, and the loop over `values_` goes on through the keys that were still to come. -/
def plainBuild : Build :=
  { returnsAtEnd := true
    emptyFront := 0
    resume := fun rest _ => some rest }

/-- The environment of the concrete instance. -/
def lineEnv : Env Pose1 Nat := ⟨lineGeometry, idleOptimizer, plainRegistration, plainBuild⟩

/-- The read-out of `lineGeometry`, except that the rotation stored with the pose at `0.25`
is an identity whose quaternion `w` has been rounded above `1`: the angle read from that
pose is NaN. -/
def roundedGeometry : Geometry Pose1 :=
  { translationNorm := fun p => |Multiplicative.toAdd p|
    rotationAngle := fun p => if Multiplicative.toAdd p = 1 / 4 then none else some 0 }

/-- The environment `lineEnv` with the read-out `roundedGeometry`. -/
def roundedEnv : Env Pose1 Nat :=
  ⟨roundedGeometry, idleOptimizer, plainRegistration, plainBuild⟩

/-- A solver that never throws and rejects nothing, and whose estimate puts every pose five
metres further along the axis as soon as its graph holds a second factor. -/
def shiftOptimizer : Optimizer Pose1 :=
  { throws := fun _ _ => false
    inliers := fun g _ => g
    estimate := fun g _ _ p => if g.length ≤ 1 then p else p * Multiplicative.ofAdd 5
    linearize := fun _ _ _ p => p
    error := fun _ _ => 0
    removeFactors := fun g _ slots =>
      (g.enum.filter fun e => !slots.contains e.1).map Prod.snd }

/-- The environment with the solver `shiftOptimizer`, for an arbitrary build. -/
def shiftEnv (build : Build) : Env Pose1 Nat :=
  ⟨lineGeometry, shiftOptimizer, plainRegistration, build⟩

/-- A robot right after initialisation with prefix `0`: one pose node `0` with its prior,
next key `1`, node threshold `0.5`, sanity checks off. -/
def startState : LaserLoopClosure Pose1 Nat :=
  { translation_threshold_nodes_ := 1 / 2
    rotation_threshold_nodes_ := 1
    translation_threshold_kf_ := 1
    proximity_threshold_ := 1
    max_tolerable_fitness_ := 1
    distance_before_reclosing_ := 0
    skip_recent_poses_ := 2
    check_for_loop_closures_ := true
    save_posegraph_backup_ := false
    keys_between_each_posegraph_backup_ := 10
    b_check_deltas_ := false
    translational_sanity_check_lc_ := 1
    translational_sanity_check_odom_ := 1
    laser_lc_rot_sigma_ := 1
    laser_lc_trans_sigma_ := 1
    initial_noise_ := fun _ => 1
    key_ := 1
    stored_key_ := 0
    first_loaded_key_ := 0
    last_closure_key_ := 0
    odometry_ := 1
    odometry_kf_ := 1
    delta_icp_ := 1
    values_ := [(0, 1)]
    nfg_ := [Factor.prior 0 1 (.sigmas fun _ => 1)]
    values_backup_ := []
    nfg_backup_ := []
    pgo_solver_ := ⟨[Factor.prior 0 1 (.sigmas fun _ => 1)], [(0, 1)]⟩
    odometry_edges_ := []
    loop_edges_ := []
    manual_loop_edges_ := []
    edge_poses_ := []
    covariance_betweenfactor_ := []
    keyed_scans_ := []
    keyed_stamps_ := []
    stamps_keyed_ := []
    has_changed_ := false
    disk := none
    manual_lc_rot_precision_ := 0
    manual_lc_trans_precision_ := 1 / 25
    artifact_rot_precision_ := 0
    artifact_trans_precision_ := 1 / 100
    artifact_edges_ := []
    uwb_edges_ := []
    AddFactor_noise := none
    initial_key_ := 0
    uwb_range_measurement_error_ := 1 / 10
    uwb_range_compensation_ := 0
    uwb_id2key_hash_ := []
    uwb_key2id_hash_ := []
    artifact_key2info_hash := [] }

/-- Ten odometry inputs of 0.6 along the axis, one per second. -/
def tenSteps : List (Pose1 × Mat66 × Time) :=
  (List.range 10).map fun i => (Multiplicative.ofAdd (3 / 5), Mat66.zeros, (i + 1) * 1000000000)

/-- A robot back at its start: pose nodes `0..3` with nodes `0` and `3` at the origin,
scans of equal content stored for the keys `0`, `1` and `3`, next key `4`, the reclosing
gate open. -/
def loopState : LaserLoopClosure Pose1 Nat :=
  { startState with
    key_ := 4
    values_ := [(0, 1), (1, Multiplicative.ofAdd 1), (2, Multiplicative.ofAdd 2), (3, 1)]
    pgo_solver_ :=
      ⟨[Factor.prior 0 1 (.sigmas fun _ => 1)],
        [(0, 1), (1, Multiplicative.ofAdd 1), (2, Multiplicative.ofAdd 2), (3, 1)]⟩
    keyed_scans_ := [(0, 7), (1, 7), (3, 7)] }

/-- A robot back at its start: pose nodes `0..4` at `0`, `0.5`, `2`, `1` and `0`, scans of
equal content stored for the keys `0`, `1` and `4`, next key `5`, the reclosing gate open.
The solver holds the prior only, so `values_` is its estimate. -/
def driftState : LaserLoopClosure Pose1 Nat :=
  { startState with
    key_ := 5
    values_ :=
      [(0, 1), (1, Multiplicative.ofAdd (1 / 2)), (2, Multiplicative.ofAdd 2),
        (3, Multiplicative.ofAdd 1), (4, 1)]
    pgo_solver_ :=
      ⟨[Factor.prior 0 1 (.sigmas fun _ => 1)],
        [(0, 1), (1, Multiplicative.ofAdd (1 / 2)), (2, Multiplicative.ofAdd 2),
          (3, Multiplicative.ofAdd 1), (4, 1)]⟩
    keyed_scans_ := [(0, 7), (1, 7), (4, 7)] }

/-- The state `loopState` right after a loop was closed at key `3`, with one metre to
travel before the next closure. -/
def gatedState : LaserLoopClosure Pose1 Nat :=
  { loopState with distance_before_reclosing_ := 1, last_closure_key_ := 3 }

/-- A state in which the last pose `1` moved from `1.0` in the backup to `3.0`. -/
def movedState : LaserLoopClosure Pose1 Nat :=
  { startState with
    key_ := 2
    values_ := [(0, 1), (1, Multiplicative.ofAdd 3)]
    values_backup_ := [(0, 1), (1, Multiplicative.ofAdd 1)] }

/-! ## A concrete instance with rotations -/

/-- Rigid motions that map the x axis onto itself: a translation by `x` along the axis,
preceded by a half turn about the z axis when `turned` holds. As a rotation matrix and a
translation vector this is `diag(±1, ±1, 1)` and `(x, 0, 0)`. -/
structure AxisPose where
  turned : Bool
  x : ℚ
  deriving DecidableEq

/-- The value `a.compose(b)`: rotation `R_a R_b`, translation `t_a + R_a t_b`. -/
def AxisPose.compose (a b : AxisPose) : AxisPose :=
  ⟨xor a.turned b.turned, a.x + (if a.turned then -b.x else b.x)⟩

/-- The value `a.inverse()`: rotation `R_aᵀ`, translation `-R_aᵀ t_a`. -/
def AxisPose.inverse (a : AxisPose) : AxisPose :=
  ⟨a.turned, if a.turned then a.x else -a.x⟩

instance : Group AxisPose where
  mul := AxisPose.compose
  one := ⟨false, 0⟩
  inv := AxisPose.inverse
  mul_assoc a b c := by
    obtain ⟨ta, xa⟩ := a
    obtain ⟨tb, xb⟩ := b
    obtain ⟨tc, xc⟩ := c
    show AxisPose.compose (AxisPose.compose _ _) _ = AxisPose.compose _ (AxisPose.compose _ _)
    cases ta <;> cases tb <;> cases tc <;> simp [AxisPose.compose] <;> ring
  one_mul a := by
    obtain ⟨ta, xa⟩ := a
    show AxisPose.compose ⟨false, 0⟩ _ = _
    simp [AxisPose.compose]
  mul_one a := by
    obtain ⟨ta, xa⟩ := a
    show AxisPose.compose _ ⟨false, 0⟩ = _
    simp [AxisPose.compose]
  inv_mul_cancel a := by
    obtain ⟨ta, xa⟩ := a
    show AxisPose.compose (AxisPose.inverse _) _ = ⟨false, 0⟩
    cases ta <;> simp [AxisPose.compose, AxisPose.inverse]

/-- The norm of the translation `(x, 0, 0)`; the angle of the half turn is given as the
rational `355/113`. -/
def axisGeometry : Geometry AxisPose :=
  { translationNorm := fun p => |p.x|
    rotationAngle := fun p => some (if p.turned then 355 / 113 else 0) }

/-- A solver for `AxisPose` that never throws, rejects nothing and leaves every pose where
it is. -/
def axisOptimizer : Optimizer AxisPose :=
  { throws := fun _ _ => false
    inliers := fun g _ => g
    estimate := fun _ _ _ p => p
    linearize := fun _ _ _ p => p
    error := fun _ _ => 0
    removeFactors := fun g _ slots =>
      (g.enum.filter fun e => !slots.contains e.1).map Prod.snd }

/-- The environment of the instance with rotations. -/
def axisEnv : Env AxisPose Nat :=
  ⟨axisGeometry, axisOptimizer, ⟨fun c => c, fun _ c => c, fun a b => ⟨1, decide (a = b), 0⟩⟩,
    plainBuild⟩

/-- A state whose last pose `1` sits at `x = 1` both in the backup and in the new values,
not turned in the backup and half-turned in the new values; the solver holds the new
values. -/
def turnedState : LaserLoopClosure AxisPose Nat :=
  { translation_threshold_nodes_ := 1 / 2
    rotation_threshold_nodes_ := 1
    translation_threshold_kf_ := 1
    proximity_threshold_ := 1
    max_tolerable_fitness_ := 1
    distance_before_reclosing_ := 0
    skip_recent_poses_ := 2
    check_for_loop_closures_ := true
    save_posegraph_backup_ := false
    keys_between_each_posegraph_backup_ := 10
    b_check_deltas_ := true
    translational_sanity_check_lc_ := 1
    translational_sanity_check_odom_ := 1
    laser_lc_rot_sigma_ := 1
    laser_lc_trans_sigma_ := 1
    initial_noise_ := fun _ => 1
    key_ := 2
    stored_key_ := 0
    first_loaded_key_ := 0
    last_closure_key_ := 0
    odometry_ := 1
    odometry_kf_ := 1
    delta_icp_ := 1
    values_ := [(0, 1), (1, ⟨true, 1⟩)]
    nfg_ := [Factor.prior 0 1 (.sigmas fun _ => 1)]
    values_backup_ := [(0, 1), (1, ⟨false, 1⟩)]
    nfg_backup_ := [Factor.prior 0 1 (.sigmas fun _ => 1)]
    pgo_solver_ := ⟨[Factor.prior 0 1 (.sigmas fun _ => 1)], [(0, 1), (1, ⟨true, 1⟩)]⟩
    odometry_edges_ := [(0, 1)]
    loop_edges_ := []
    manual_loop_edges_ := []
    edge_poses_ := []
    covariance_betweenfactor_ := []
    keyed_scans_ := []
    keyed_stamps_ := []
    stamps_keyed_ := []
    has_changed_ := false
    disk := none
    manual_lc_rot_precision_ := 0
    manual_lc_trans_precision_ := 1 / 25
    artifact_rot_precision_ := 0
    artifact_trans_precision_ := 1 / 100
    artifact_edges_ := []
    uwb_edges_ := []
    AddFactor_noise := none
    initial_key_ := 0
    uwb_range_measurement_error_ := 1 / 10
    uwb_range_compensation_ := 0
    uwb_id2key_hash_ := []
    uwb_key2id_hash_ := []
    artifact_key2info_hash := [] }

/-- A state whose last pose `1` went from `x = 3`, not turned, in the backup to `x = -3`,
half-turned, in the new values. -/
def flippedState : LaserLoopClosure AxisPose Nat :=
  { turnedState with
    values_ := [(0, 1), (1, ⟨true, -3⟩)]
    values_backup_ := [(0, 1), (1, ⟨false, 3⟩)]
    pgo_solver_ := ⟨[Factor.prior 0 1 (.sigmas fun _ => 1)], [(0, 1), (1, ⟨true, -3⟩)]⟩ }

/-! ## A concrete instance with a solver that moves poses -/

/-- A solver that never throws and rejects nothing, and whose estimate puts pose `2` at
the origin as soon as its graph holds more than three factors. -/
def pullOptimizer : Optimizer Pose1 :=
  { throws := fun _ _ => false
    inliers := fun g _ => g
    estimate := fun g _ k p => if 3 < g.length ∧ k = 2 then 1 else p
    linearize := fun _ _ _ p => p
    error := fun _ _ => 0
    removeFactors := fun g _ slots =>
      (g.enum.filter fun e => !slots.contains e.1).map Prod.snd }

/-- The environment of the instance with the moving solver. -/
def pullEnv : Env Pose1 Nat := ⟨lineGeometry, pullOptimizer, plainRegistration, plainBuild⟩

/-- A robot ten metres down the axis: pose nodes `0`, `1`, `2` at `0`, `5`, `10`, the
prior and two odometry factors in the solver, next key `3`, sanity checks on with a
threshold of one metre. -/
def chainState : LaserLoopClosure Pose1 Nat :=
  { startState with
    b_check_deltas_ := true
    key_ := 3
    values_ := [(0, 1), (1, Multiplicative.ofAdd 5), (2, Multiplicative.ofAdd 10)]
    pgo_solver_ :=
      ⟨[Factor.prior 0 1 (.sigmas fun _ => 1),
        Factor.between 0 1 (Multiplicative.ofAdd 5) (.covariance Mat66.zeros),
        Factor.between 1 2 (Multiplicative.ofAdd 5) (.covariance Mat66.zeros)],
        [(0, 1), (1, Multiplicative.ofAdd 5), (2, Multiplicative.ofAdd 10)]⟩
    odometry_edges_ := [(0, 1), (1, 2)] }

/-- The state `chainState` right after the solver took in a loop closure from `2` to `0`:
the backups hold the graph before the closure, the solver the graph with it. -/
def closedState : LaserLoopClosure Pose1 Nat :=
  { chainState with
    values_backup_ := [(0, 1), (1, Multiplicative.ofAdd 5), (2, Multiplicative.ofAdd 10)]
    nfg_backup_ := chainState.pgo_solver_.factors
    values_ := [(0, 1), (1, Multiplicative.ofAdd 5), (2, 1)]
    pgo_solver_ :=
      ⟨chainState.pgo_solver_.factors ++
        [Factor.between 2 0 (Multiplicative.ofAdd (-10)) (.precisions fun _ => 1)],
        [(0, 1), (1, Multiplicative.ofAdd 5), (2, Multiplicative.ofAdd 10)]⟩
    loop_edges_ := [(2, 0)] }

/-! ## Concrete messages for the base station -/

/-- An incremental message with the new node `1`, its odometry edge, a loop closure, an
artifact edge and a UWB edge. -/
def mixedMsg : PoseGraphMsg Pose1 :=
  { incremental := true
    nodes := [⟨1, 1000000000, Multiplicative.ofAdd 1⟩]
    edges :=
      [⟨0, 1, .ODOM, Multiplicative.ofAdd 1⟩, ⟨1, 0, .LOOPCLOSE, Multiplicative.ofAdd (-1)⟩,
       ⟨1, 100, .ARTIFACT, 1⟩, ⟨1, 200, .UWB, 1⟩] }

/-- A base station holding the chain of `chainState` and one edge of each kind. -/
def stationState : LaserLoopClosure Pose1 Nat :=
  { chainState with
    b_check_deltas_ := false
    odometry_edges_ := [(0, 1), (1, 2)]
    loop_edges_ := [(2, 0)]
    artifact_edges_ := [(1, 100)]
    uwb_edges_ := [(1, 200)] }

/-- A message that is not incremental and carries the single odometry edge `(0, 1)`. -/
def fullMsg : PoseGraphMsg Pose1 :=
  { incremental := false
    nodes := []
    edges := [⟨0, 1, .ODOM, Multiplicative.ofAdd 5⟩] }

/-- A base station that has received nothing yet. -/
def blankState : LaserLoopClosure Pose1 Nat :=
  { startState with key_ := 0, values_ := [], nfg_ := [], pgo_solver_ := RobustPGO.fresh }

/-- The start of a robot's chain: the nodes `0` and `1` and their odometry edge. -/
def chainMsg1 : PoseGraphMsg Pose1 :=
  { incremental := true
    nodes := [⟨0, 0, 1⟩, ⟨1, 1000000000, Multiplicative.ofAdd 1⟩]
    edges := [⟨0, 1, .ODOM, Multiplicative.ofAdd 1⟩] }

/-- The next piece of the chain: the node `2`, whose predecessor `1` came with
`chainMsg1`, and its odometry edge. -/
def chainMsg2 : PoseGraphMsg Pose1 :=
  { incremental := true
    nodes := [⟨2, 2000000000, Multiplicative.ofAdd 2⟩]
    edges := [⟨1, 2, .ODOM, Multiplicative.ofAdd 1⟩] }

/-! ## A concrete robot -/

/-- A pose graph that knows exactly the keys of its tracked nodes and answers every time
query with the pose key `3` at the origin; the odometry handler always has a delta, the
identity. -/
def lineRobotEnv : RobotEnv Pose1 :=
  { HasKey := fun g k => (nodesTracked g).contains k
    GetClosestKeyAtTime := fun _ _ _ => 3
    GetPose := fun _ _ => 1
    keyed_stamps := fun _ _ => 0
    GTSAM_ERROR_SYMBOL := 2 ^ 64 - 1
    GetFusedOdomDeltaBetweenTimes := fun _ _ => some 1
    SetFixedNoiseModels_artifact := .isotropic 1
    GetArtifactID := fun _ => "artifact" }

/-- A robot whose pose graph has received no call, with artifacts given in the relative
frame. -/
def idleRobot : LampRobot Pose1 := ⟨[], [], false, false, false, false⟩

/-- Two observations of the artifacts `100` and `101`, two metres ahead. -/
def twoArtifacts : List (ArtifactFactor Pose1) :=
  [⟨5, 100, Multiplicative.ofAdd 2, .isotropic 1⟩, ⟨6, 101, Multiplicative.ofAdd 2, .isotropic 1⟩]

/-! ## Concrete states for persistence, anchors and initialisation -/

/-- The robot environment `lineRobotEnv`, except that the odometry handler has no delta
for a stamp after `5`. -/
def gappyRobotEnv : RobotEnv Pose1 :=
  { lineRobotEnv with
    GetFusedOdomDeltaBetweenTimes := fun _ t => if t ≤ 5 then some 1 else none }

/-- The chain of `chainState` with sanity checks off: pose nodes `0`, `1`, `2` stamped at
`0`, `1` and `2` seconds, the nodes `0` and `1` being keyframes with a scan; next key
`3`. -/
def savedState : LaserLoopClosure Pose1 Nat :=
  { chainState with
    b_check_deltas_ := false
    keyed_scans_ := [(0, 7), (1, 8)]
    keyed_stamps_ := [(0, 0), (1, 1000000000), (2, 2000000000)]
    stamps_keyed_ := [(0, 0), (1, 1), (2, 2)] }

/-- The state `closedState` with a second loop edge, between the keys `3` and `1`. -/
def twoLoopState : LaserLoopClosure Pose1 Nat :=
  { closedState with loop_edges_ := [(2, 0), (3, 1)] }

/-- A robot whose initial key and first loaded key differ but carry the same prefix
character `a`. -/
def reloadedState : LaserLoopClosure Pose1 Nat :=
  { startState with initial_key_ := Symbol 97 0, first_loaded_key_ := Symbol 97 5 }

/-- The tree behind the time index of `savedState`: three entries, inserted in stamp order. -/
def savedTree : TreeEdges := libstdcxx savedState.stamps_keyed_ 0

/-- The freshly initialised robot with its first keyframe: a scan for key `0`, stamped at
five nanoseconds. The solver holds the prior on key `0` and no between factor. -/
def freshScanState : LaserLoopClosure Pose1 Nat :=
  { startState with
    keyed_scans_ := [(0, 7)]
    keyed_stamps_ := [(0, 5)]
    stamps_keyed_ := [(5 / 1000000000, 0)] }

/-- A robot with the prefix character `a` right after its first keyframe: the pose node
`a0` with its prior, a scan for it stamped at five nanoseconds, next key `a1`. The solver
holds no between factor. -/
def prefixedScanState : LaserLoopClosure Pose1 Nat :=
  { startState with
    key_ := Symbol 97 1
    initial_key_ := Symbol 97 0
    values_ := [(Symbol 97 0, 1)]
    nfg_ := [Factor.prior (Symbol 97 0) 1 (.sigmas fun _ => 1)]
    pgo_solver_ := ⟨[Factor.prior (Symbol 97 0) 1 (.sigmas fun _ => 1)], [(Symbol 97 0, 1)]⟩
    keyed_scans_ := [(Symbol 97 0, 7)]
    keyed_stamps_ := [(Symbol 97 0, 5)]
    stamps_keyed_ := [(5 / 1000000000, Symbol 97 0)] }

/-- A build that does not come back from a call that ends without a `return` statement;
otherwise as `plainBuild`. -/
def strictBuild : Build := { plainBuild with returnsAtEnd := false }

/-- The environment of the concrete instance on the build `strictBuild`. -/
def strictEnv : Env Pose1 Nat := ⟨lineGeometry, idleOptimizer, plainRegistration, strictBuild⟩

/-! ## Facts about the time index -/

theorem lowerBound_le_length (t : ℚ) (m : List (ℚ × Key)) : lowerBound t m ≤ m.length := by
  induction m with
  | nil => simp [lowerBound]
  | cons e rest ih =>
    simp only [lowerBound]
    split
    · simp only [List.length_cons]; omega
    · omega

theorem iterRead_of_get {m : List (ℚ × Key)} {i : Nat} {e : ℚ × Key} (tree : TreeEdges)
    (h : m.get? i = some e) : iterRead m tree i = e := by
  rw [iterRead, h]; rfl

theorem iterPrev_pos (m : List (ℚ × Key)) (tree : TreeEdges) {i : Nat} (h : i ≠ 0) :
    iterPrev m tree i = i - 1 := by
  simp [iterPrev, h]

theorem iterPrev_zero (m : List (ℚ × Key)) (tree : TreeEdges) :
    iterPrev m tree 0 = 0 ∨ iterPrev m tree 0 = m.length := by
  unfold iterPrev
  cases tree.prevBeginIsEnd <;> simp

theorem lowerBound_mem {m : List (ℚ × Key)} (hs : StampsSorted m) {t : ℚ} {k : Key}
    (hm : (t, k) ∈ m) : m.get? (lowerBound t m) = some (t, k) := by
  induction m with
  | nil => simp at hm
  | cons e rest ih =>
    rw [StampsSorted, List.pairwise_cons] at hs
    simp only [lowerBound]
    by_cases he : e.1 < t
    · rw [if_pos he]
      rcases List.mem_cons.1 hm with h | h
      · subst h; exact absurd he (lt_irrefl _)
      · simpa using ih hs.2 h
    · rw [if_neg he]
      rcases List.mem_cons.1 hm with h | h
      · subst h; rfl
      · exact absurd (hs.1 _ h) he

theorem lowerBound_prev (m : List (ℚ × Key)) (t : ℚ) (h : 0 < lowerBound t m) :
    ∃ e, m.get? (lowerBound t m - 1) = some e ∧ e.1 < t := by
  induction m with
  | nil => simp [lowerBound] at h
  | cons e rest ih =>
    simp only [lowerBound] at h ⊢
    by_cases he : e.1 < t
    · rw [if_pos he]
      by_cases h0 : 0 < lowerBound t rest
      · obtain ⟨e', h1, h2⟩ := ih h0
        refine ⟨e', ?_, h2⟩
        have : lowerBound t rest + 1 - 1 = (lowerBound t rest - 1) + 1 := by omega
        rw [this]; simpa using h1
      · have : lowerBound t rest = 0 := by omega
        exact ⟨e, by simp [this], he⟩
    · rw [if_neg he] at h; exact absurd h (lt_irrefl _)

theorem lowerBound_append {pre : List (ℚ × Key)} {t : ℚ} (h : ∀ e ∈ pre, e.1 < t)
    (rest : List (ℚ × Key)) : lowerBound t (pre ++ rest) = pre.length + lowerBound t rest := by
  induction pre with
  | nil => simp
  | cons e pre ih =>
    have he : e.1 < t := h e (List.mem_cons_self _ _)
    have ih' := ih fun x hx => h x (List.mem_cons_of_mem _ hx)
    show lowerBound t (e :: (pre ++ rest)) = (e :: pre).length + lowerBound t rest
    rw [lowerBound, if_pos he, ih', List.length_cons]
    omega

/-- C3: for an index in stamp order and a stamp `t` that is an entry of it,
`LampRobot::getKeyAtTime(t)` returns the key stored at `t`, whatever the tree does at its
two ends. -/
theorem getKeyAtTime_inserted_stamp (m : List (ℚ × Key)) (key_ : Key)
    (tree : TreeEdges) (t : ℚ) (k : Key) (hs : StampsSorted m) (hm : (t, k) ∈ m) :
    LampRobot.getKeyAtTime m key_ tree t = k := by
  have hget := lowerBound_mem hs hm
  have hlen : lowerBound t m < m.length := by
    by_contra hcon
    rw [List.get?_eq_none.2 (by omega)] at hget
    exact absurd hget (by simp)
  unfold LampRobot.getKeyAtTime
  simp only [iterRead_of_get tree hget]
  by_cases h0 : lowerBound t m = 0
  · rw [if_pos h0]
  · obtain ⟨e, he1, he2⟩ := lowerBound_prev m t (by omega)
    rw [if_neg h0, iterPrev_pos m tree h0]
    simp only [iterRead_of_get tree he1]
    have hlt : t - t < t - e.1 := by linarith
    rw [if_pos hlt]
    have h1 : lowerBound t m ≠ iterPrev m tree 0 := by
      rcases iterPrev_zero m tree with h | h <;> omega
    have h2 : lowerBound t m ≠ m.length := by omega
    simp only [h1, h2, if_false]

/-- An instance of C3: the index `{1 ↦ 5, 2 ↦ 6, 4 ↦ 7}` and the stamp `2`. -/
theorem getKeyAtTime_inserted_stamp_witness :
    LampRobot.getKeyAtTime [(1, 5), (2, 6), (4, 7)] 8 (libstdcxx [(1, 5), (2, 6), (4, 7)] 0) 2
      = 6 :=
  getKeyAtTime_inserted_stamp [(1, 5), (2, 6), (4, 7)] 8 (libstdcxx [(1, 5), (2, 6), (4, 7)] 0)
    2 6 (by norm_num [StampsSorted]) (by simp)

/-- C4 (the test against `std::prev(begin())` fires at `begin()`): the index
`{2.0 ↦ 6, 4.0 ↦ 7}` holds two entries inserted in stamp order, so its tree has the first
entry at the root and `std::prev(begin())` is `begin()`. For the query `2.5`, nearer to
`2.0`, and for the query `3.0`, equidistant, `LampRobot::getKeyAtTime` picks the earlier
entry, finds its iterator equal to `std::prev(begin())`, steps it forward and returns `7`,
the key of the later stamp, where the nearer or earlier stamp has the key `6`. With a third
entry in the index the same queries return `6`. -/
theorem getKeyAtTime_between_steps_off_begin :
    (∀ key_ beyond,
      LampRobot.getKeyAtTime [(2, 6), (4, 7)] key_ (libstdcxx [(2, 6), (4, 7)] beyond) (5 / 2)
        = 7) ∧
    (∀ key_ beyond,
      LampRobot.getKeyAtTime [(2, 6), (4, 7)] key_ (libstdcxx [(2, 6), (4, 7)] beyond) 3
        = 7) ∧
    (∀ key_ beyond,
      LampRobot.getKeyAtTime [(2, 6), (4, 7), (6, 8)] key_
        (libstdcxx [(2, 6), (4, 7), (6, 8)] beyond) (5 / 2) = 6) ∧
    (∀ key_ beyond,
      LampRobot.getKeyAtTime [(2, 6), (4, 7), (6, 8)] key_
        (libstdcxx [(2, 6), (4, 7), (6, 8)] beyond) 3 = 6) := by
  refine ⟨fun _ _ => ?_, fun _ _ => ?_, fun _ _ => ?_, fun _ _ => ?_⟩ <;>
    norm_num [LampRobot.getKeyAtTime, lowerBound, iterRead, iterPrev, iterNext, libstdcxx]

/-- C5 (`LaserLoopClosure::GetKeyAtTime` has no guard at `begin()`): for the query `1.0`,
earlier than every stamp, the lookup of `LaserLoopClosure` returns `7`, the key of the
latest stamp, on the index `{2.0 ↦ 6, 4.0 ↦ 7}`, and `8`, again the key of the latest stamp,
on the index `{2.0 ↦ 6, 4.0 ↦ 7, 6.0 ↦ 8}`; on the index `{2.0 ↦ 6}` it returns the key read
through `end()`. The earliest stamp has the key `6`, which is what
`LampRobot::getKeyAtTime`, with its early return at `begin()`, gives on all three. -/
theorem GetKeyAtTime_before_range_unguarded :
    (∀ key_ beyond,
      GetKeyAtTime [(2, 6), (4, 7)] key_ (libstdcxx [(2, 6), (4, 7)] beyond) 1 = some 7) ∧
    (∀ key_ beyond,
      GetKeyAtTime [(2, 6), (4, 7), (6, 8)] key_ (libstdcxx [(2, 6), (4, 7), (6, 8)] beyond) 1
        = some 8) ∧
    (∀ key_ beyond, GetKeyAtTime [(2, 6)] key_ (libstdcxx [(2, 6)] beyond) 1 = some beyond) ∧
    (∀ key_ beyond,
      LampRobot.getKeyAtTime [(2, 6), (4, 7)] key_ (libstdcxx [(2, 6), (4, 7)] beyond) 1 = 6 ∧
      LampRobot.getKeyAtTime [(2, 6), (4, 7), (6, 8)] key_
        (libstdcxx [(2, 6), (4, 7), (6, 8)] beyond) 1 = 6 ∧
      LampRobot.getKeyAtTime [(2, 6)] key_ (libstdcxx [(2, 6)] beyond) 1 = 6) := by
  refine ⟨fun _ _ => ?_, fun _ _ => ?_, fun _ _ => ?_, fun _ _ => ⟨rfl, rfl, rfl⟩⟩ <;>
    norm_num [GetKeyAtTime, lowerBound, iterRead, iterPrev, iterNext, libstdcxx]

/-- C6 (the test against `std::prev(begin())` fires at `end()`): the index
`{2.0 ↦ 6, 4.0 ↦ 7, 6.0 ↦ 8}` holds three entries, so the root of its tree has a left child
and `std::prev(begin())` is `end()`. For the query `7.0`, later than every stamp, with
`key_ = 100`, `LampRobot::getKeyAtTime` stays at `end()`, finds its iterator equal to
`std::prev(begin())`, steps it forward and returns `8`, the key of the latest entry, and not
`key_ - 1 = 99`. With one or two entries in the index it returns `99`. -/
theorem getKeyAtTime_past_range_takes_begin_branch :
    (∀ beyond,
      LampRobot.getKeyAtTime [(2, 6), (4, 7), (6, 8)] 100
        (libstdcxx [(2, 6), (4, 7), (6, 8)] beyond) 7 = 8) ∧
    keyPred 100 = 99 ∧
    (∀ beyond,
      LampRobot.getKeyAtTime [(2, 6), (4, 7)] 100 (libstdcxx [(2, 6), (4, 7)] beyond) 5 = 99) ∧
    (∀ beyond, LampRobot.getKeyAtTime [(2, 6)] 100 (libstdcxx [(2, 6)] beyond) 3 = 99) := by
  refine ⟨fun _ => ?_, ?_, fun _ => ?_, fun _ => ?_⟩ <;>
    norm_num [LampRobot.getKeyAtTime, lowerBound, iterRead, iterPrev, iterNext, libstdcxx,
      keyPred]
/-! ## Facts about maps -/

section MapFacts

variable {α β γ : Type}

theorem mapHas_cons [DecidableEq α] (k : α) (e : α × β) (m : List (α × β)) :
    mapHas k (e :: m) = (decide (e.1 = k) || mapHas k m) := by
  unfold mapHas
  simp only [mapFind]
  by_cases h : e.1 = k <;> simp [h]

theorem mapHas_nil [DecidableEq α] (k : α) : mapHas k ([] : List (α × β)) = false := rfl

theorem mapHas_iff_mem_keys [DecidableEq α] (k : α) (m : List (α × β)) :
    mapHas k m = true ↔ k ∈ mapKeys m := by
  induction m with
  | nil => simp [mapHas_nil, mapKeys]
  | cons e m ih =>
    rw [mapHas_cons]
    simp only [mapKeys, List.map_cons, List.mem_cons, Bool.or_eq_true, decide_eq_true_eq]
    rw [ih]
    simp only [mapKeys]
    constructor
    · rintro (h | h)
      · exact Or.inl h.symm
      · exact Or.inr h
    · rintro (h | h)
      · exact Or.inl h.symm
      · exact Or.inr h

theorem mapKeys_map_snd (f : α → β → γ) (m : List (α × β)) :
    mapKeys (m.map fun e => (e.1, f e.1 e.2)) = mapKeys m := by
  simp [mapKeys, List.map_map, Function.comp]

theorem mapHas_map_snd [DecidableEq α] (f : α → β → γ) (k : α) (m : List (α × β)) :
    mapHas k (m.map fun e => (e.1, f e.1 e.2)) = mapHas k m := by
  induction m with
  | nil => rfl
  | cons e m ih => simp only [List.map_cons, mapHas_cons, ih]

theorem mapHas_mapInsert [LinearOrder α] (k k' : α) (v : β) (m : List (α × β)) :
    mapHas k' (mapInsert k v m) = (decide (k = k') || mapHas k' m) := by
  induction m with
  | nil => simp [mapInsert, mapHas_cons, mapHas_nil]
  | cons e m ih =>
    simp only [mapInsert]
    by_cases h1 : k < e.1
    · simp only [if_pos h1, mapHas_cons]
    · simp only [if_neg h1]
      by_cases h2 : k = e.1
      · rw [if_pos h2, mapHas_cons, h2]
        by_cases h3 : e.1 = k' <;> simp [h3]
      · rw [if_neg h2, mapHas_cons, ih, mapHas_cons]
        by_cases h3 : e.1 = k' <;> by_cases h4 : k = k' <;> simp [h3, h4]

theorem mapFind_isSome_of_has [DecidableEq α] {k : α} {m : List (α × β)}
    (h : mapHas k m = true) : ∃ v, mapFind k m = some v := by
  unfold mapHas at h
  exact Option.isSome_iff_exists.1 h

theorem mapFind_of_mem_keys [DecidableEq α] {k : α} {m : List (α × β)}
    (h : k ∈ mapKeys m) : ∃ v, mapFind k m = some v :=
  mapFind_isSome_of_has ((mapHas_iff_mem_keys k m).2 h)

end MapFacts

section OdometryFacts

variable {P S : Type} [Group P]

theorem insertOdometryNode_eq {env : Env P S} {s s4 : LaserLoopClosure P S} {cov : Mat66}
    {cost_old cost : ℚ} (h : insertOdometryNode env s cov = some (s4, cost_old, cost)) :
    ∃ last_pose σ,
      mapFind (keyPred s.key_) s.values_ = some last_pose ∧
      s.pgo_solver_.update env.opt
        [Factor.between (keyPred s.key_) s.key_ s.odometry_ (.covariance cov)]
        [(s.key_, last_pose * s.odometry_)] = some σ ∧
      s4 = { s with
        odometry_edges_ := s.odometry_edges_ ++ [(keyPred s.key_, s.key_)]
        edge_poses_ := assocSet (keyPred s.key_, s.key_) s.odometry_ s.edge_poses_
        covariance_betweenfactor_ :=
          assocSet (keyPred s.key_, s.key_) cov s.covariance_betweenfactor_
        pgo_solver_ := σ
        has_changed_ := true
        values_ := σ.calculateEstimate env.opt
        nfg_ := σ.getFactorsUnsafe env.opt } := by
  unfold insertOdometryNode at h
  simp only [MakeBetweenFactor] at h
  split at h
  · exact absurd h (by simp)
  · rename_i last_pose hlast
    split at h
    · exact absurd h (by simp)
    · split at h
      · exact absurd h (by simp)
      · rename_i σ hσ
        refine ⟨last_pose, σ, hlast, hσ, ?_⟩
        simp only [Option.some.injEq, Prod.mk.injEq] at h
        exact h.1.symm

omit [Group P] in
theorem update_single {opt : Optimizer P} {σ σ' : RobustPGO P} {nf : NonlinearFactorGraph P}
    {k : Key} {v : P} (h : σ.update opt nf [(k, v)] = some σ') :
    mapHas k σ.values = false ∧ σ'.values = mapInsert k v σ.values ∧
      σ'.factors = σ.factors ++ nf := by
  unfold RobustPGO.update at h
  simp only [Values.insertAll, Values.insert1] at h
  by_cases hk : mapHas k σ.values = true
  · simp [hk] at h
  · simp only [hk, Bool.false_eq_true, if_false, Option.some_bind] at h
    split at h
    · exact absurd h (by simp)
    · simp only [Option.some.injEq] at h
      subst h
      exact ⟨by simpa using hk, rfl, rfl⟩

theorem sanity_true_state {env : Env P S} {s s' : LaserLoopClosure P S} {thr co c : ℚ}
    (h : SanityCheckForLoopClosure env s thr co c = some (s', true)) : s' = s := by
  unfold SanityCheckForLoopClosure at h
  split at h
  · split at h
    · dsimp only at h
      split at h
      · simp at h
      · simp only [Option.some.injEq, Prod.mk.injEq, and_true] at h
        exact h.symm
    · exact absurd h (by simp)
  · simp only [Option.some.injEq, Prod.mk.injEq, and_true] at h
    exact h.symm

theorem commitOdometryNode_fields (env : Env P S) (s : LaserLoopClosure P S) (stamp : Time) :
    (commitOdometryNode env s stamp).1.key_ = keySucc s.key_ ∧
    (commitOdometryNode env s stamp).2.2 = some s.key_ ∧
    (commitOdometryNode env s stamp).1.odometry_ = 1 ∧
    (commitOdometryNode env s stamp).1.values_ = s.values_ ∧
    (commitOdometryNode env s stamp).1.odometry_edges_ = s.odometry_edges_ ∧
    (commitOdometryNode env s stamp).1.keyed_stamps_ = mapInsert s.key_ stamp s.keyed_stamps_ ∧
    (commitOdometryNode env s stamp).1.stamps_keyed_ =
      mapInsert (toSec stamp) s.key_ s.stamps_keyed_ ∧
    (commitOdometryNode env s stamp).1.pgo_solver_ = s.pgo_solver_ ∧
    (commitOdometryNode env s stamp).1.translation_threshold_nodes_ =
      s.translation_threshold_nodes_ ∧
    (commitOdometryNode env s stamp).1.b_check_deltas_ = s.b_check_deltas_ := by
  unfold commitOdometryNode
  dsimp only
  split
  · exact ⟨rfl, rfl, rfl, rfl, rfl, rfl, rfl, rfl, rfl, rfl⟩
  · exact ⟨rfl, rfl, rfl, rfl, rfl, rfl, rfl, rfl, rfl, rfl⟩

/-- What a call of `AddBetweenFactor` that reaches a threshold and is accepted does. -/
theorem AddBetweenFactor_accepted {env : Env P S} {s : LaserLoopClosure P S} {delta : P}
    {cov : Mat66} (stamp : Time) (k : Key)
    (hb : belowNodeThresholds env (accumulate s delta) = false)
    (hok : nodeAccepted env s delta cov = true) :
    ∃ s4 cost_old cost,
      insertOdometryNode env (accumulate s delta) cov = some (s4, cost_old, cost) ∧
      AddBetweenFactor env s delta cov stamp (some k) = some (commitOdometryNode env s4 stamp) := by
  unfold nodeAccepted at hok
  unfold AddBetweenFactor
  simp only [hb, Bool.false_eq_true, if_false]
  split at hok
  · exact absurd hok (by simp)
  · rename_i s4 co c hins
    refine ⟨s4, co, c, hins, ?_⟩
    split at hok
    · rename_i hcheck
      rw [if_pos hcheck]
      split at hok
      · rename_i s5 hsan
        have := sanity_true_state hsan
        subst this
        simp only [hsan]
      · exact absurd hok (by simp)
    · rename_i hcheck
      rw [if_neg hcheck]

theorem belowNodeThresholds_accumulate (env : Env P S) (s : LaserLoopClosure P S) (delta : P) :
    belowNodeThresholds env (accumulate s delta) = true ↔
      (env.geo.translationNorm (s.odometry_ * delta) < s.translation_threshold_nodes_ ∧
        nanLess (env.geo.rotationAngle (s.odometry_ * delta)) s.rotation_threshold_nodes_
          = true) := by
  simp [belowNodeThresholds, accumulate]

/-- The state after an accepted node insertion, field by field. -/
theorem AddBetweenFactor_accepted_fields {env : Env P S} {s : LaserLoopClosure P S} {delta : P}
    {cov : Mat66} (stamp : Time) (k : Key)
    (hb : belowNodeThresholds env (accumulate s delta) = false)
    (hok : nodeAccepted env s delta cov = true) :
    ∃ s' flag, AddBetweenFactor env s delta cov stamp (some k) = some (s', flag, some s.key_) ∧
      s'.key_ = keySucc s.key_ ∧
      s'.odometry_ = 1 ∧
      s'.odometry_edges_ = s.odometry_edges_ ++ [(keyPred s.key_, s.key_)] ∧
      s'.keyed_stamps_ = mapInsert s.key_ stamp s.keyed_stamps_ ∧
      s'.stamps_keyed_ = mapInsert (toSec stamp) s.key_ s.stamps_keyed_ ∧
      s'.translation_threshold_nodes_ = s.translation_threshold_nodes_ ∧
      mapHas (keyPred s.key_) s.values_ = true ∧
      mapHas s.key_ s.pgo_solver_.values = false ∧
      (∀ k', mapHas k' s'.values_ = (decide (s.key_ = k') || mapHas k' s.pgo_solver_.values)) ∧
      (∀ k', mapHas k' s'.pgo_solver_.values = mapHas k' s'.values_) ∧
      s'.b_check_deltas_ = s.b_check_deltas_ := by
  obtain ⟨s4, co, c, hins, hres⟩ := AddBetweenFactor_accepted stamp k hb hok
  obtain ⟨last_pose, σ, hlast, hσ, hs4⟩ := insertOdometryNode_eq hins
  obtain ⟨hfresh, hvals, -⟩ := update_single hσ
  obtain ⟨c1, c2, c3, c4, c5, c6, c7, c8, c9, c10⟩ := commitOdometryNode_fields env s4 stamp
  have hkey : s4.key_ = s.key_ := by rw [hs4]; rfl
  have hv4 : s4.values_ = σ.calculateEstimate env.opt := by rw [hs4]
  have hp4 : s4.pgo_solver_ = σ := by rw [hs4]
  have hhas : ∀ k', mapHas k' s4.values_ =
      (decide (s.key_ = k') || mapHas k' s.pgo_solver_.values) := by
    intro k'
    rw [hv4, RobustPGO.calculateEstimate,
      mapHas_map_snd (fun a b => env.opt.estimate σ.factors σ.values a b), hvals,
      mapHas_mapInsert]
    rfl
  refine ⟨(commitOdometryNode env s4 stamp).1, (commitOdometryNode env s4 stamp).2.1, ?_,
    ?_, c3, ?_, ?_, ?_, ?_, ?_, hfresh, ?_, ?_, ?_⟩
  · rw [hres, ← hkey, ← c2]
  · rw [c1, hkey]
  · rw [c5, hs4]; rfl
  · rw [c6, hkey, hs4]; rfl
  · rw [c7, hkey, hs4]; rfl
  · rw [c9, hs4]; rfl
  · simp only [mapHas, hlast, accumulate] at hlast ⊢
    simp [mapHas, hlast]
  · intro k'; rw [c4]; exact hhas k'
  · intro k'
    rw [c8, c4, hp4, hv4, RobustPGO.calculateEstimate,
      mapHas_map_snd (fun a b => env.opt.estimate σ.factors σ.values a b)]
  · rw [c10, hs4]; rfl

/-- A call of `AddBetweenFactor` with a non-null output key, on a state whose next key is
not yet a node, in which the node insertion is accepted whenever it is attempted: the next
key becomes a pose node if and only if the accumulated odometry, after composing the
incoming delta, has translation norm `>= translation_threshold_nodes_` or a rotation angle
that does not compare as `< rotation_threshold_nodes_` (it is at least the threshold, or
NaN). Otherwise the call returns `false` and leaves `key_`, `values_`, `odometry_edges_`,
`keyed_stamps_` and `stamps_keyed_` as they were. -/
theorem AddBetweenFactor_node_iff (env : Env P S) (s : LaserLoopClosure P S)
    (delta : P) (cov : Mat66) (stamp : Time) (k : Key)
    (hnew : mapHas s.key_ s.values_ = false)
    (hok : belowNodeThresholds env (accumulate s delta) = false →
      nodeAccepted env s delta cov = true) :
    ∃ s' flag out, AddBetweenFactor env s delta cov stamp (some k) = some (s', flag, out) ∧
      (mapHas s.key_ s'.values_ = true ↔
        (s.translation_threshold_nodes_ ≤ env.geo.translationNorm (s.odometry_ * delta) ∨
          nanLess (env.geo.rotationAngle (s.odometry_ * delta)) s.rotation_threshold_nodes_
            = false)) ∧
      (mapHas s.key_ s'.values_ = true →
        out = some s.key_ ∧ s'.key_ = keySucc s.key_ ∧
        s'.odometry_edges_ = s.odometry_edges_ ++ [(keyPred s.key_, s.key_)] ∧
        s'.keyed_stamps_ = mapInsert s.key_ stamp s.keyed_stamps_ ∧
        s'.stamps_keyed_ = mapInsert (toSec stamp) s.key_ s.stamps_keyed_) ∧
      (mapHas s.key_ s'.values_ = false →
        flag = false ∧ s'.key_ = s.key_ ∧ s'.values_ = s.values_ ∧
        s'.odometry_edges_ = s.odometry_edges_ ∧ s'.keyed_stamps_ = s.keyed_stamps_ ∧
        s'.stamps_keyed_ = s.stamps_keyed_) := by
  by_cases hb : belowNodeThresholds env (accumulate s delta) = true
  · have hlt := (belowNodeThresholds_accumulate env s delta).1 hb
    have hres : AddBetweenFactor env s delta cov stamp (some k) =
        some (accumulate s delta, false, some k) := by
      unfold AddBetweenFactor
      simp only [hb, if_true]
    have hv : (accumulate s delta).values_ = s.values_ := rfl
    refine ⟨accumulate s delta, false, some k, hres, ?_, ?_, ?_⟩
    · rw [hv, hnew]
      constructor
      · intro h; exact absurd h (by simp)
      · rintro (h | h)
        · exact absurd hlt.1 (not_lt.2 h)
        · rw [hlt.2] at h; exact absurd h (by simp)
    · intro h; rw [hv, hnew] at h; exact absurd h (by simp)
    · intro _; exact ⟨rfl, rfl, rfl, rfl, rfl, rfl⟩
  · have hb' : belowNodeThresholds env (accumulate s delta) = false := by
      simpa using hb
    have hge : s.translation_threshold_nodes_ ≤ env.geo.translationNorm (s.odometry_ * delta) ∨
        nanLess (env.geo.rotationAngle (s.odometry_ * delta)) s.rotation_threshold_nodes_
          = false := by
      have := mt (belowNodeThresholds_accumulate env s delta).2 hb
      by_contra hcon
      push_neg at hcon
      exact this ⟨hcon.1, by simpa using hcon.2⟩
    obtain ⟨s', flag, hres, f1, -, f3, f4, f5, -, -, -, f9, -, -⟩ :=
      AddBetweenFactor_accepted_fields stamp k hb' (hok hb')
    have hin : mapHas s.key_ s'.values_ = true := by rw [f9]; simp
    refine ⟨s', flag, some s.key_, hres, ?_, ?_, ?_⟩
    · exact ⟨fun _ => hge, fun _ => hin⟩
    · intro _; exact ⟨rfl, f1, f3, f4, f5⟩
    · intro h; rw [hin] at h; exact absurd h (by simp)

/-- With the sanity check off and a solver that does not throw, the insertion of a node is
accepted as soon as the predecessor key is a node and the next key is not known to the
solver. -/
theorem nodeAccepted_of_unchecked {env : Env P S} {s : LaserLoopClosure P S} (delta : P)
    (cov : Mat66) (hsan : s.b_check_deltas_ = false)
    (hthrow : ∀ g v, env.opt.throws g v = false)
    (hprev : mapHas (keyPred s.key_) s.values_ = true)
    (hfresh : mapHas s.key_ s.pgo_solver_.values = false) :
    nodeAccepted env s delta cov = true := by
  obtain ⟨last_pose, hlast⟩ := mapFind_isSome_of_has hprev
  have hlin : mapHas s.key_ (s.pgo_solver_.getLinearizationPoint env.opt) = false := by
    rw [RobustPGO.getLinearizationPoint,
      mapHas_map_snd (fun a b => env.opt.linearize s.pgo_solver_.factors s.pgo_solver_.values a b)]
    exact hfresh
  unfold nodeAccepted insertOdometryNode
  simp only [MakeBetweenFactor, accumulate, hlast, Values.insert1, hlin, Bool.false_eq_true,
    if_false, RobustPGO.update, Values.insertAll, hfresh, Option.some_bind, hthrow, hsan,
    Bool.false_and]

/-- C2: successive calls of `AddBetweenFactor`, each with a delta that alone reaches the
node translation threshold and each accepted (solver update succeeding, sanity check
passing or not run), starting with accumulated odometry at the identity and next key
`k0` (no 64-bit wrap-around within the run): every call completes, and after call `i + 1`
the next key is `k0 + i + 1`, the accumulated odometry is the identity again, the odometry
edges are the former ones followed by `(k-1, k)` for `k = k0, ..., k0 + i` in that order,
and the pose keys are the former ones together with exactly `k0, ..., k0 + i`, none of
which was a pose key before. -/
theorem addOdometry_chain (env : Env P S) (inputs : List (P × Mat66 × Time))
    (s : LaserLoopClosure P S)
    (hid : s.odometry_ = 1)
    (hthr : ∀ x ∈ inputs, s.translation_threshold_nodes_ ≤ env.geo.translationNorm x.1)
    (hacc : odometryAccepted env s inputs = true)
    (hov : s.key_ + inputs.length < 2 ^ 64)
    (hsync : ∀ k, mapHas k s.pgo_solver_.values = mapHas k s.values_) :
    ∃ trace, addOdometry env s inputs = some trace ∧ trace.length = inputs.length ∧
      ∀ i st, trace.get? i = some st →
        st.key_ = s.key_ + (i + 1) ∧
        st.odometry_ = 1 ∧
        st.odometry_edges_ = s.odometry_edges_ ++
          (List.range (i + 1)).map (fun j => (keyPred (s.key_ + j), s.key_ + j)) ∧
        (∀ k, mapHas k st.values_ = true ↔
          (mapHas k s.values_ = true ∨ (s.key_ ≤ k ∧ k < s.key_ + (i + 1)))) ∧
        mapHas (s.key_ + i) s.values_ = false := by
  induction inputs generalizing s with
  | nil => exact ⟨[], rfl, rfl, fun i st h => absurd h (by simp)⟩
  | cons x xs ih =>
    simp only [odometryAccepted, Bool.and_eq_true] at hacc
    obtain ⟨hacc1, hacc2⟩ := hacc
    have hb : belowNodeThresholds env (accumulate s x.1) = false := by
      have hx := hthr x (List.mem_cons_self _ _)
      have hn : ¬ belowNodeThresholds env (accumulate s x.1) = true := by
        rw [belowNodeThresholds_accumulate, hid, one_mul]
        intro hcon
        exact absurd hcon.1 (not_lt.2 hx)
      simpa using hn
    obtain ⟨s', flag, hres, f1, f2, f3, -, -, f6, -, f8, f9, f10, -⟩ :=
      AddBetweenFactor_accepted_fields x.2.2 0 hb hacc1
    simp only [hres] at hacc2
    simp only [List.length_cons] at hov
    have hk1 : s'.key_ = s.key_ + 1 := by
      rw [f1, keySucc]; exact Nat.mod_eq_of_lt (by dsimp only [Key] at *; omega)
    obtain ⟨trace, ht1, ht2, ht3⟩ := ih s' f2
      (fun y hy => by rw [f6]; exact hthr y (List.mem_cons_of_mem _ hy)) hacc2
      (by rw [hk1]; dsimp only [Key] at *; omega) f10
    refine ⟨s' :: trace, ?_, ?_, ?_⟩
    · simp only [addOdometry, hres, ht1, Option.map_some']
    · simp only [List.length_cons, ht2]
    · intro i st hst
      cases i with
      | zero =>
        simp only [List.get?_cons_zero, Option.some.injEq] at hst
        subst hst
        refine ⟨hk1, f2, ?_, ?_, ?_⟩
        · rw [f3]; simp [List.range_succ]
        · intro k
          rw [f9, hsync]
          simp only [Bool.or_eq_true, decide_eq_true_eq]
          constructor
          · rintro (h | h)
            · exact Or.inr ⟨by dsimp only [Key] at *; omega, by dsimp only [Key] at *; omega⟩
            · exact Or.inl h
          · rintro (h | h)
            · exact Or.inr h
            · exact Or.inl (by dsimp only [Key] at *; omega)
        · rw [← hsync]; exact f8
      | succ i =>
        simp only [List.get?_cons_succ] at hst
        obtain ⟨g1, g2, g3, g4, g5⟩ := ht3 i st hst
        refine ⟨?_, g2, ?_, ?_, ?_⟩
        · rw [g1, hk1]; dsimp only [Key] at *; omega
        · have hmap : (List.range (i + 1)).map
                (fun j => (keyPred (s.key_ + 1 + j), s.key_ + 1 + j)) =
              (List.range (i + 1)).map
                ((fun j => (keyPred (s.key_ + j), s.key_ + j)) ∘ Nat.succ) :=
            List.map_congr_left fun j _ => by
              simp only [Function.comp, Nat.succ_eq_add_one, Nat.add_assoc, Nat.add_comm 1 j]
          rw [g3, f3, hk1, hmap, List.range_succ_eq_map (i + 1), List.map_cons, List.map_map,
            List.append_assoc]
          rfl
        · intro k
          rw [g4, f9, hsync, hk1]
          simp only [Bool.or_eq_true, decide_eq_true_eq]
          constructor
          · rintro ((h | h) | h)
            · exact Or.inr ⟨by dsimp only [Key] at *; omega, by dsimp only [Key] at *; omega⟩
            · exact Or.inl h
            · exact Or.inr ⟨by dsimp only [Key] at *; omega, by dsimp only [Key] at *; omega⟩
          · rintro (h | h)
            · exact Or.inl (Or.inr h)
            · by_cases hk : s.key_ = k
              · exact Or.inl (Or.inl hk)
              · exact Or.inr ⟨by dsimp only [Key] at *; omega, by dsimp only [Key] at *; omega⟩
        · have := g5
          rw [f9, hk1, hsync] at this
          simp only [Bool.or_eq_false_iff] at this
          rw [show s.key_ + (i + 1) = s.key_ + 1 + i by dsimp only [Key] at *; omega]
          exact this.2

omit [Group P] in
theorem keyPred_succ {k : Nat} (h : k + 1 < 2 ^ 64) : keyPred (k + 1) = k := by
  unfold keyPred
  dsimp only [Key] at *
  omega

/-- With the sanity check off and a solver that does not throw, a run of threshold-reaching
deltas is accepted throughout when the predecessor of the first key is a node and the keys
to come are fresh. -/
theorem odometryAccepted_of_unchecked (env : Env P S) (inputs : List (P × Mat66 × Time))
    (s : LaserLoopClosure P S)
    (hid : s.odometry_ = 1)
    (hthr : ∀ x ∈ inputs, s.translation_threshold_nodes_ ≤ env.geo.translationNorm x.1)
    (hsan : s.b_check_deltas_ = false)
    (hthrow : ∀ g v, env.opt.throws g v = false)
    (hprev : mapHas (keyPred s.key_) s.values_ = true)
    (hsync : ∀ k, mapHas k s.pgo_solver_.values = mapHas k s.values_)
    (hfresh : ∀ i, i < inputs.length → mapHas (s.key_ + i) s.values_ = false)
    (hov : s.key_ + inputs.length < 2 ^ 64) :
    odometryAccepted env s inputs = true := by
  induction inputs generalizing s with
  | nil => rfl
  | cons x xs ih =>
    simp only [List.length_cons] at hov hfresh
    have hfresh0 : mapHas s.key_ s.pgo_solver_.values = false := by
      rw [hsync]; exact hfresh 0 (by omega)
    have hacc1 := nodeAccepted_of_unchecked x.1 x.2.1 hsan hthrow hprev hfresh0
    have hb : belowNodeThresholds env (accumulate s x.1) = false := by
      have hx := hthr x (List.mem_cons_self _ _)
      have hn : ¬ belowNodeThresholds env (accumulate s x.1) = true := by
        rw [belowNodeThresholds_accumulate, hid, one_mul]
        intro hcon
        exact absurd hcon.1 (not_lt.2 hx)
      simpa using hn
    obtain ⟨s', flag, hres, f1, f2, -, -, -, f6, -, -, f9, f10, f11⟩ :=
      AddBetweenFactor_accepted_fields x.2.2 0 hb hacc1
    have hk1 : s'.key_ = s.key_ + 1 := by
      rw [f1, keySucc]; exact Nat.mod_eq_of_lt (by dsimp only [Key] at *; omega)
    simp only [odometryAccepted, hacc1, hres, Bool.true_and]
    apply ih s' f2
    · intro y hy; rw [f6]; exact hthr y (List.mem_cons_of_mem _ hy)
    · rw [f11]; exact hsan
    · rw [hk1, keyPred_succ (by dsimp only [Key] at *; omega), f9]; simp
    · exact f10
    · intro i hi
      rw [hk1, f9, hsync]
      have h1 := hfresh (i + 1) (by omega)
      have h2 : s.key_ + 1 + i = s.key_ + (i + 1) := by dsimp only [Key] at *; omega
      rw [h2, h1]
      have h3 : ¬ s.key_ = s.key_ + (i + 1) := by dsimp only [Key] at *; omega
      simp [h3]
    · rw [hk1]; dsimp only [Key] at *; omega

end OdometryFacts

section RegistrationFacts

variable {P S : Type} [Group P]

theorem PerformICP_flag (env : Env P S) (s : LaserLoopClosure P S) (scan1 scan2 : S)
    (pose1 pose2 d : P) (c : Mat66) (is_filtered : Bool) (frame_id : String) :
    (PerformICP env s scan1 scan2 pose1 pose2 (some d) (some c) is_filtered frame_id).2.1 =
      ((alignScans env scan1 scan2 pose1 pose2 is_filtered frame_id).hasConverged &&
        decide ((alignScans env scan1 scan2 pose1 pose2 is_filtered frame_id).fitnessScore ≤
          s.max_tolerable_fitness_)) := by
  unfold PerformICP
  dsimp only
  cases hc : (alignScans env scan1 scan2 pose1 pose2 is_filtered frame_id).hasConverged
  · simp
  · by_cases hf : (alignScans env scan1 scan2 pose1 pose2 is_filtered frame_id).fitnessScore >
        s.max_tolerable_fitness_
    · simp [hf]
    · simp only [Bool.not_true, Bool.false_eq_true, if_false, hf, Bool.true_and]
      simp only [gt_iff_lt, not_lt] at hf
      simp [hf]

theorem PerformICP_outputs (env : Env P S) (s : LaserLoopClosure P S) (scan1 scan2 : S)
    (pose1 pose2 d : P) (c : Mat66) (is_filtered : Bool) (frame_id : String) :
    (PerformICP env s scan1 scan2 pose1 pose2 (some d) (some c) is_filtered frame_id).2.2 =
      if (PerformICP env s scan1 scan2 pose1 pose2 (some d) (some c) is_filtered frame_id).2.1
      then
        (some (compensatedDelta pose1 pose2
            (alignScans env scan1 scan2 pose1 pose2 is_filtered frame_id).finalTransformation),
          some (icpCovariance s))
      else (some d, some c) := by
  unfold PerformICP
  dsimp only
  cases hc : (alignScans env scan1 scan2 pose1 pose2 is_filtered frame_id).hasConverged
  · simp
  · by_cases hf : (alignScans env scan1 scan2 pose1 pose2 is_filtered frame_id).fitnessScore >
        s.max_tolerable_fitness_
    · simp [hf]
    · simp only [Bool.not_true, Bool.false_eq_true, if_false, hf, if_true]
      rfl

theorem PerformICP_state (env : Env P S) (s : LaserLoopClosure P S) (scan1 scan2 : S)
    (pose1 pose2 d : P) (c : Mat66) (is_filtered : Bool) (frame_id : String) :
    (PerformICP env s scan1 scan2 pose1 pose2 (some d) (some c) is_filtered frame_id).1 =
      { s with delta_icp_ :=
          (alignScans env scan1 scan2 pose1 pose2 is_filtered frame_id).finalTransformation } := by
  unfold PerformICP
  dsimp only
  split
  · rfl
  · split <;> rfl

theorem registerCandidate_failed {env : Env P S} (key other_key : Key) (pose1 pose2 : P)
    (cloud : S) (st : ClosureSearch P S) {scan2 : S}
    (hscan : mapFind other_key st.s.keyed_scans_ = some scan2)
    (hfail : registrationSucceeds env st.s cloud scan2 pose1 pose2 = false) :
    registerCandidate env key other_key pose1 pose2 cloud st =
      some { st with
        s := { st.s with
          delta_icp_ := (alignScans env cloud scan2 pose1 pose2 true "World").finalTransformation
          values_ := st.s.pgo_solver_.calculateEstimate env.opt
          nfg_ := st.s.pgo_solver_.getFactorsUnsafe env.opt } } := by
  unfold registrationSucceeds at hfail
  unfold registerCandidate
  simp only [hscan, hfail, PerformICP_state]
  rfl

/-- C8: `PerformICP` with non-null outputs returns true exactly when ICP converged with a
fitness score `<= max_tolerable_fitness_`; when it returns false the two output cells keep
their content; and the part of `FindLoopClosures` that handles a candidate whose
registration failed leaves the solver, `loop_edges_` and `closure_keys` as they were. -/
theorem PerformICP_accepts_iff (env : Env P S) (s : LaserLoopClosure P S) (scan1 scan2 : S)
    (pose1 pose2 d : P) (c : Mat66) (is_filtered : Bool) (frame_id : String)
    (key other_key : Key) (st : ClosureSearch P S) :
    ((PerformICP env s scan1 scan2 pose1 pose2 (some d) (some c) is_filtered frame_id).2.1
        = true ↔
      ((alignScans env scan1 scan2 pose1 pose2 is_filtered frame_id).hasConverged = true ∧
        (alignScans env scan1 scan2 pose1 pose2 is_filtered frame_id).fitnessScore ≤
          s.max_tolerable_fitness_)) ∧
    ((PerformICP env s scan1 scan2 pose1 pose2 (some d) (some c) is_filtered frame_id).2.1
        = false →
      (PerformICP env s scan1 scan2 pose1 pose2 (some d) (some c) is_filtered frame_id).2.2
        = (some d, some c)) ∧
    (mapFind other_key st.s.keyed_scans_ = some scan2 →
      registrationSucceeds env st.s scan1 scan2 pose1 pose2 = false →
      ∃ st', registerCandidate env key other_key pose1 pose2 scan1 st = some st' ∧
        st'.s.pgo_solver_ = st.s.pgo_solver_ ∧ st'.s.loop_edges_ = st.s.loop_edges_ ∧
        st'.closure_keys = st.closure_keys) := by
  refine ⟨?_, ?_, ?_⟩
  · rw [PerformICP_flag]
    simp
  · intro h
    rw [PerformICP_outputs, h]
    simp
  · intro hscan hfail
    exact ⟨_, registerCandidate_failed key other_key pose1 pose2 scan1 st hscan hfail,
      rfl, rfl, rfl⟩

/-- C9: on success `PerformICP` writes
`delta = pose1⁻¹ · (delta_icp⁻¹ · pose1) · (pose1⁻¹ · pose2)`, which equals
`pose1⁻¹ · delta_icp⁻¹ · pose2`; when ICP reports the identity this is the current relative
pose `pose1⁻¹ · pose2`. -/
theorem PerformICP_delta (env : Env P S) (s : LaserLoopClosure P S) (scan1 scan2 : S)
    (pose1 pose2 d : P) (c : Mat66) (is_filtered : Bool) (frame_id : String)
    (hok : (PerformICP env s scan1 scan2 pose1 pose2 (some d) (some c) is_filtered
      frame_id).2.1 = true) :
    (PerformICP env s scan1 scan2 pose1 pose2 (some d) (some c) is_filtered frame_id).1.delta_icp_
      = (alignScans env scan1 scan2 pose1 pose2 is_filtered frame_id).finalTransformation ∧
    (PerformICP env s scan1 scan2 pose1 pose2 (some d) (some c) is_filtered frame_id).2.2.1 =
      some (pose1⁻¹ *
        ((alignScans env scan1 scan2 pose1 pose2 is_filtered frame_id).finalTransformation⁻¹ *
          pose1) * (pose1⁻¹ * pose2)) ∧
    pose1⁻¹ *
        ((alignScans env scan1 scan2 pose1 pose2 is_filtered frame_id).finalTransformation⁻¹ *
          pose1) * (pose1⁻¹ * pose2) =
      pose1⁻¹ *
        (alignScans env scan1 scan2 pose1 pose2 is_filtered frame_id).finalTransformation⁻¹ *
        pose2 ∧
    ((alignScans env scan1 scan2 pose1 pose2 is_filtered frame_id).finalTransformation = 1 →
      (PerformICP env s scan1 scan2 pose1 pose2 (some d) (some c) is_filtered frame_id).2.2.1
        = some (pose1⁻¹ * pose2)) := by
  have hout := PerformICP_outputs env s scan1 scan2 pose1 pose2 d c is_filtered frame_id
  rw [hok] at hout
  simp only [if_true] at hout
  refine ⟨?_, ?_, ?_, ?_⟩
  · rw [PerformICP_state]
  · rw [hout]; rfl
  · group
  · intro h1
    rw [hout]
    simp only [compensatedDelta, PoseUpdate, PoseInverse, PoseDelta, h1]
    congr 1
    group

end RegistrationFacts

section SanityFacts

variable {P S : Type} [Group P]

/-- The sanity gate in terms of the quantity it computes: with `key_ > 1` and the last pose
present in both the backup and the current values,
`SanityCheckForLoopClosure(threshold, cost_old, cost)` returns false exactly when the
translation norm of `old_pose.compose(new_pose.inverse())` exceeds the threshold or
`cost > cost_old`; equality on both is accepted; with `key_ <= 1` the check accepts and
leaves the state alone. -/
theorem SanityCheck_rejects_iff (env : Env P S) (s : LaserLoopClosure P S)
    (threshold cost_old cost : ℚ) :
    (1 < s.key_ → ∀ old_pose new_pose,
      mapFind (keyPred s.key_) s.values_backup_ = some old_pose →
      mapFind (keyPred s.key_) s.values_ = some new_pose →
      ∃ s' accept,
        SanityCheckForLoopClosure env s threshold cost_old cost = some (s', accept) ∧
        (accept = false ↔
          (threshold < env.geo.translationNorm (old_pose * new_pose⁻¹) ∨ cost_old < cost)) ∧
        (env.geo.translationNorm (old_pose * new_pose⁻¹) = threshold → cost = cost_old →
          accept = true)) ∧
    (s.key_ ≤ 1 → SanityCheckForLoopClosure env s threshold cost_old cost = some (s, true)) := by
  constructor
  · intro hk old_pose new_pose hold hnew
    unfold SanityCheckForLoopClosure
    rw [if_pos hk]
    simp only [hold, hnew]
    by_cases hrej : env.geo.translationNorm (old_pose * new_pose⁻¹) > threshold ∨ cost > cost_old
    · rw [if_pos hrej]
      refine ⟨_, false, rfl, ⟨fun _ => hrej, fun _ => rfl⟩, ?_⟩
      intro h1 h2
      rcases hrej with h | h
      · exact absurd h (by rw [h1]; exact lt_irrefl _)
      · exact absurd h (by rw [h2]; exact lt_irrefl _)
    · rw [if_neg hrej]
      refine ⟨s, true, rfl, ⟨fun h => absurd h (by simp), fun h => absurd h hrej⟩, ?_⟩
      intro _ _; rfl
  · intro hk
    unfold SanityCheckForLoopClosure
    rw [if_neg (not_lt.2 hk)]

end SanityFacts

section ClosureFacts

variable {P S : Type} [Group P]

omit [Group P] in
theorem keySub_of_lt {a b : Nat} (ha : a < 2 ^ 64) (hb : b < a) : keySub a b = a - b := by
  unfold keySub
  dsimp only [Key] at *
  omega

omit [Group P] in
/-- The skip tests of the loop body let a pose through exactly when it is below the key,
far enough from it, and has a scan. -/
theorem skipsCandidate_eq_false (s : LaserLoopClosure P S) {key : Key} (other_key : Key)
    (hkey : key < 2 ^ 64) :
    skipsCandidate s key other_key = false ↔
      (other_key < key ∧ s.skip_recent_poses_ ≤ (key : Int) - (other_key : Int) ∧
        mapHas other_key s.keyed_scans_ = true) := by
  unfold skipsCandidate
  simp only [Bool.or_eq_false_iff, Bool.and_eq_false_imp, decide_eq_false_iff_not,
    decide_eq_true_eq, Bool.not_eq_false', gt_iff_lt, not_lt]
  constructor
  · rintro ⟨⟨⟨h1, h2⟩, h3⟩, h4⟩
    have hlt : other_key < key := lt_of_le_of_ne h3 h1
    refine ⟨hlt, ?_, h4⟩
    have h5 := h2 hlt
    rw [keySub_of_lt hkey hlt, abs_of_nonneg (by positivity)] at h5
    have h6 : ((s.skip_recent_poses_ : Int) : ℚ) ≤ (((key : Int) - (other_key : Int) : Int) : ℚ) := by
      rw [Nat.cast_sub (le_of_lt hlt)] at h5
      push_cast
      exact h5
    exact_mod_cast h6
  · rintro ⟨h1, h2, h3⟩
    refine ⟨⟨⟨ne_of_lt h1, fun _ => ?_⟩, le_of_lt h1⟩, h3⟩
    rw [keySub_of_lt hkey h1, abs_of_nonneg (by positivity), Nat.cast_sub (le_of_lt h1)]
    have h6 : ((s.skip_recent_poses_ : Int) : ℚ) ≤ (((key : Int) - (other_key : Int) : Int) : ℚ) := by
      exact_mod_cast h2
    push_cast at h6
    exact h6

end ClosureFacts

section Instances

/-- C1 (the angle test lets NaN through): the freshly initialised robot has the node
thresholds `0.5` for the translation and `1.0` for the rotation. A delta moves it by `0.25`,
below the translation threshold, and the angle `2*acos(w)` read from the accumulated pose is
NaN, so it is not at or above the rotation threshold either. The test
`norm < threshold && angle < threshold` is then false, and `AddBetweenFactor` inserts the
pose node `1`: it hands out the key, advances `key_` to `2`, and records the odometry edge
`(0, 1)` and the stamp. With the angle read as `0` the same call inserts nothing and leaves
`key_`, `values_`, `odometry_edges_` and `keyed_stamps_` as they were. -/
theorem AddBetweenFactor_node_on_nan_angle :
    (startState.translation_threshold_nodes_, startState.rotation_threshold_nodes_) =
      (1 / 2, 1) ∧
    roundedEnv.geo.translationNorm (startState.odometry_ * Multiplicative.ofAdd (1 / 4)) =
      1 / 4 ∧
    roundedEnv.geo.rotationAngle (startState.odometry_ * Multiplicative.ofAdd (1 / 4)) =
      none ∧
    (AddBetweenFactor roundedEnv startState (Multiplicative.ofAdd (1 / 4)) Mat66.zeros 7
        (some 0)).map (fun r => (r.2.2, r.1.key_)) = some (some 1, 2) ∧
    (AddBetweenFactor roundedEnv startState (Multiplicative.ofAdd (1 / 4)) Mat66.zeros 7
        (some 0)).map (fun r => mapKeys r.1.values_) = some [0, 1] ∧
    (AddBetweenFactor roundedEnv startState (Multiplicative.ofAdd (1 / 4)) Mat66.zeros 7
        (some 0)).map (fun r => (r.1.odometry_edges_, r.1.keyed_stamps_)) =
      some ([(0, 1)], [(1, 7)]) ∧
    (AddBetweenFactor lineEnv startState (Multiplicative.ofAdd (1 / 4)) Mat66.zeros 7
        (some 0)).map (fun r => (r.2.1, r.2.2, r.1.key_)) = some (false, some 0, 1) ∧
    (AddBetweenFactor lineEnv startState (Multiplicative.ofAdd (1 / 4)) Mat66.zeros 7
        (some 0)).map (fun r => mapKeys r.1.values_) = some [0] ∧
    (AddBetweenFactor lineEnv startState (Multiplicative.ofAdd (1 / 4)) Mat66.zeros 7
        (some 0)).map (fun r => (r.1.odometry_edges_, r.1.keyed_stamps_)) = some ([], []) := by
  refine ⟨by decide!, by decide!, by decide!, by decide!, by decide!, by decide!, by decide!,
    by decide!, by decide!⟩

/-- An instance of C2: ten deltas of `0.6` with node threshold `0.5` on the freshly
initialised robot. -/
theorem addOdometry_chain_witness :
    ∃ trace, addOdometry lineEnv startState tenSteps = some trace ∧
      trace.length = tenSteps.length ∧
      ∀ i st, trace.get? i = some st →
        st.key_ = startState.key_ + (i + 1) ∧
        st.odometry_ = 1 ∧
        st.odometry_edges_ = startState.odometry_edges_ ++
          (List.range (i + 1)).map
            (fun j => (keyPred (startState.key_ + j), startState.key_ + j)) ∧
        (∀ k, mapHas k st.values_ = true ↔
          (mapHas k startState.values_ = true ∨
            (startState.key_ ≤ k ∧ k < startState.key_ + (i + 1)))) ∧
        mapHas (startState.key_ + i) startState.values_ = false :=
  addOdometry_chain lineEnv tenSteps startState rfl
    (by
      intro x hx
      simp only [tenSteps, List.mem_map] at hx
      obtain ⟨i, -, rfl⟩ := hx
      norm_num [startState, lineEnv, lineGeometry, abs_of_nonneg])
    (odometryAccepted_of_unchecked lineEnv tenSteps startState rfl
      (by
        intro x hx
        simp only [tenSteps, List.mem_map] at hx
        obtain ⟨i, -, rfl⟩ := hx
        norm_num [startState, lineEnv, lineGeometry, abs_of_nonneg])
      rfl (fun _ _ => rfl) (by decide) (fun _ => rfl)
      (by
        intro i hi
        have hi' : i < 10 := by simpa [tenSteps] using hi
        interval_cases i <;> decide)
      (by decide))
    (by decide) (fun _ => rfl)

/-- An instance of C8: on `loopState`, two scans of different content, on which the
registration fails. -/
theorem PerformICP_accepts_iff_witness :
    ((PerformICP lineEnv loopState 7 8 1 1 (some 1) (some Mat66.zeros) true "World").2.1
        = true ↔
      ((alignScans lineEnv 7 8 1 1 true "World").hasConverged = true ∧
        (alignScans lineEnv 7 8 1 1 true "World").fitnessScore ≤
          loopState.max_tolerable_fitness_)) ∧
    (PerformICP lineEnv loopState 7 8 1 1 (some 1) (some Mat66.zeros) true "World").2.2
      = (some 1, some Mat66.zeros) ∧
    ∃ st', registerCandidate lineEnv 3 0 1 1 8 (searchStart loopState) = some st' ∧
      st'.s.pgo_solver_ = (searchStart loopState).s.pgo_solver_ ∧
      st'.s.loop_edges_ = (searchStart loopState).s.loop_edges_ ∧
      st'.closure_keys = (searchStart loopState).closure_keys :=
  ⟨(PerformICP_accepts_iff lineEnv loopState 7 8 1 1 1 Mat66.zeros true "World" 3 0
      (searchStart loopState)).1,
    (PerformICP_accepts_iff lineEnv loopState 7 8 1 1 1 Mat66.zeros true "World" 3 0
      (searchStart loopState)).2.1 (by decide!),
    (PerformICP_accepts_iff lineEnv loopState 8 7 1 1 1 Mat66.zeros true "World" 3 0
      (searchStart loopState)).2.2 (by decide) (by decide!)⟩

/-- An instance of C9: poses at `2` and `5` and two scans of equal content, on which ICP
reports the identity. -/
theorem PerformICP_delta_witness :
    (PerformICP lineEnv loopState 7 7 (Multiplicative.ofAdd 2) (Multiplicative.ofAdd 5)
        (some 1) (some Mat66.zeros) true "World").2.1 = true ∧
    (PerformICP lineEnv loopState 7 7 (Multiplicative.ofAdd 2) (Multiplicative.ofAdd 5)
        (some 1) (some Mat66.zeros) true "World").2.2.1 =
      some ((Multiplicative.ofAdd 2 : Pose1)⁻¹ * Multiplicative.ofAdd 5) :=
  ⟨by decide!,
    (PerformICP_delta lineEnv loopState 7 7 (Multiplicative.ofAdd 2) (Multiplicative.ofAdd 5)
      1 Mat66.zeros true "World" (by decide!)).2.2.2 (by decide!)⟩

end Instances


/-! ## The sanity gate on rotated poses and on manual closures -/

section GateFacts

/-- On poses of the x axis, the quantity the sanity gate compares is the distance between
the old position and the new position turned by the relative rotation. -/
theorem axis_delta (old new : AxisPose) :
    axisGeometry.translationNorm (old * new⁻¹) =
      |old.x - (if old.turned = new.turned then new.x else -new.x)| := by
  obtain ⟨b, xo⟩ := old
  obtain ⟨c, xn⟩ := new
  show |(AxisPose.compose ⟨b, xo⟩ (AxisPose.inverse ⟨c, xn⟩)).x| = _
  cases b <;> cases c <;> simp [AxisPose.compose, AxisPose.inverse, sub_eq_add_neg]

/-- A rejecting sanity gate leaves the solver's current estimate and factors in `values_`
and `nfg_`, and does not touch the backups. -/
theorem SanityCheck_rejected_state {P S : Type} [Group P] (env : Env P S)
    (s s' : LaserLoopClosure P S) (t cost_old cost : ℚ)
    (h : SanityCheckForLoopClosure env s t cost_old cost = some (s', false)) :
    s'.values_ = s.pgo_solver_.calculateEstimate env.opt ∧
    s'.nfg_ = s.pgo_solver_.getFactorsUnsafe env.opt ∧
    s'.values_backup_ = s.values_backup_ ∧ s'.nfg_backup_ = s.nfg_backup_ ∧
    s'.pgo_solver_ = s.pgo_solver_ ∧ s'.loop_edges_ = s.loop_edges_ ∧
    s'.manual_loop_edges_ = s.manual_loop_edges_ := by
  unfold SanityCheckForLoopClosure at h
  dsimp only at h
  split at h
  · split at h
    · split at h
      · simp only [Option.some.injEq, Prod.mk.injEq, and_true] at h
        subst h
        exact ⟨rfl, rfl, rfl, rfl, rfl, rfl, rfl⟩
      · simp at h
    · simp at h
  · simp at h

end GateFacts

section GateInstances

/-- C11 (the code departs from its own comment `Translational change`): in `turnedState`
the last pose `1` has the same translation `x = 1` in `values_backup_` and in `values_`,
so the Euclidean distance between the two translations is `0`; the backup pose is not
rotated and the new pose is half-turned. The quantity
`old_pose.compose(new_pose.inverse()).translation().norm()` is `2`, above the threshold
`1`, and the gate rejects with equal costs. -/
theorem SanityCheck_delta_turned :
    mapFind (keyPred turnedState.key_) turnedState.values_backup_ = some ⟨false, 1⟩ ∧
    mapFind (keyPred turnedState.key_) turnedState.values_ = some ⟨true, 1⟩ ∧
    |(⟨false, 1⟩ : AxisPose).x - (⟨true, 1⟩ : AxisPose).x| = 0 ∧
    axisEnv.geo.translationNorm ((⟨false, 1⟩ : AxisPose) * (⟨true, 1⟩ : AxisPose)⁻¹) = 2 ∧
    (SanityCheckForLoopClosure axisEnv turnedState 1 0 0).map Prod.snd = some false := by
  refine ⟨by decide, by decide, by decide!, by decide!, by decide!⟩

/-- C10 (the quantity compared is not the translational change of the last pose): in
`flippedState` the last pose `1` went from `x = 3` in `values_backup_` to `x = -3` in
`values_`, a translational change of `6`, above the threshold `1`, and made a half turn.
The quantity `old_pose.compose(new_pose.inverse()).translation().norm()` is `0`, and with
equal costs the gate accepts. -/
theorem SanityCheck_accepts_moved_pose :
    mapFind (keyPred flippedState.key_) flippedState.values_backup_ = some ⟨false, 3⟩ ∧
    mapFind (keyPred flippedState.key_) flippedState.values_ = some ⟨true, -3⟩ ∧
    |(⟨true, -3⟩ : AxisPose).x - (⟨false, 3⟩ : AxisPose).x| = 6 ∧
    axisEnv.geo.translationNorm ((⟨false, 3⟩ : AxisPose) * (⟨true, -3⟩ : AxisPose)⁻¹) = 0 ∧
    (1 < flippedState.key_ ∧ (1 : ℚ) < 6 ∧ ¬ (0 : ℚ) < 0) ∧
    (SanityCheckForLoopClosure axisEnv flippedState 1 0 0).map Prod.snd = some true := by
  refine ⟨by decide, by decide, by decide!, by decide!, by decide!, by decide!⟩

/-- C12 (the restored snapshot is overwritten): `closedState` holds the graph before a
loop closure in its backups (pose `2` at `10`, three factors) and the graph with the
closure in the solver (pose `2` estimated at the origin, four factors). The gate rejects,
and `values_` and `nfg_` end as the solver's estimate and factors, not as the backups. -/
theorem SanityCheck_leaves_solver_state :
    (SanityCheckForLoopClosure pullEnv closedState 1 0 0).map
        (fun r => (r.2, r.1.values_, r.1.nfg_.length)) =
      some (false, [(0, 1), (1, Multiplicative.ofAdd 5), (2, 1)], 4) ∧
    (SanityCheckForLoopClosure pullEnv closedState 1 0 0).map
        (fun r => (r.1.values_backup_, r.1.nfg_backup_.length)) =
      some ([(0, 1), (1, Multiplicative.ofAdd 5), (2, Multiplicative.ofAdd 10)], 3) ∧
    (SanityCheckForLoopClosure pullEnv closedState 1 0 0).map
        (fun r => decide (r.1.values_ = r.1.values_backup_)) = some false := by
  refine ⟨by decide!, by decide!, by decide!⟩

/-- C13 (the gate's verdict is dropped): on `chainState`, with `b_check_deltas_` set and a
threshold of one metre, the manual closure from `2` to `0` moves the last pose `2` from
`10` to the origin. The sanity gate run inside the call rejects, yet the call returns
true, the pair stays in `loop_edges_` and `manual_loop_edges_`, and the last pose keeps
its new value. -/
theorem AddManualLoopClosure_drops_verdict :
    chainState.b_check_deltas_ = true ∧
    mapFind 2 chainState.values_ = some (Multiplicative.ofAdd 10) ∧
    ((addFactorUpdate pullEnv (refreshFromSolver pullEnv chainState) 2 0
        (Multiplicative.ofAdd (-10)) true chainState.manual_lc_rot_precision_
        chainState.manual_lc_trans_precision_).bind
      fun r => (SanityCheckForLoopClosure pullEnv r.1 r.1.translational_sanity_check_lc_
        r.2.1 r.2.2).map Prod.snd) = some false ∧
    (AddManualLoopClosure pullEnv chainState 2 0 (Multiplicative.ofAdd (-10))).map
        (fun r => (r.2, r.1.loop_edges_, r.1.manual_loop_edges_)) =
      some (true, [(2, 0)], [(2, 0)]) ∧
    (AddManualLoopClosure pullEnv chainState 2 0 (Multiplicative.ofAdd (-10))).map
        (fun r => mapFind 2 r.1.values_) = some (some 1) := by
  refine ⟨rfl, by decide, by decide!, by decide!, by decide!⟩

end GateInstances

/-! ## Factor removal and keyed scans -/

section RemovalFacts

variable {P S : Type}

/-- For keys in the 64-bit range, the key before `k + 1` is `k`. -/
theorem keyPred_add_one (k : Nat) (h : k + 1 < 2 ^ 64) : keyPred (k + 1) = k := by
  unfold keyPred
  dsimp only [Key] at *
  omega

/-- C14: for consecutive keys, read either with the 64-bit subtraction of the source or
as keys in range that differ by one, `RemoveFactor` returns false and leaves the whole
state as it was: the solver with its factors, `values_` and `loop_edges_` included. This
holds for a batch and for a single removal, and needs no iteration of the loop. -/
theorem RemoveFactor_consecutive (env : Env P S) (fuel : Nat) (s : LaserLoopClosure P S)
    (key1 key2 : Key) (is_batch_loop_closure : Bool) :
    (key1 = keyPred key2 ∨ key2 = keyPred key1 →
      RemoveFactor env fuel s key1 key2 is_batch_loop_closure = some (s, false)) ∧
    (key1 < 2 ^ 64 → key2 < 2 ^ 64 → key1 + 1 = key2 ∨ key2 + 1 = key1 →
      RemoveFactor env fuel s key1 key2 is_batch_loop_closure = some (s, false)) := by
  have hpred : key1 = keyPred key2 ∨ key2 = keyPred key1 →
      RemoveFactor env fuel s key1 key2 is_batch_loop_closure = some (s, false) := by
    intro h
    unfold RemoveFactor
    rw [if_pos h]
  refine ⟨hpred, fun h1 h2 h => hpred ?_⟩
  rcases h with h | h
  · left
    rw [← h, keyPred_add_one key1 (by rw [h]; exact h2)]
  · right
    rw [← h, keyPred_add_one key2 (by rw [h]; exact h1)]

end RemovalFacts

section ScanFacts

variable {P S : Type}

/-- Inserting under an absent key stores the value there and changes no other entry. -/
theorem mapFind_mapInsert_absent {β : Type} (k k' : Key) (v : β) (m : List (Key × β))
    (h : mapHas k m = false) :
    mapFind k' (mapInsert k v m) = if k = k' then some v else mapFind k' m := by
  induction m with
  | nil => simp [mapInsert, mapFind]
  | cons e m ih =>
    rw [mapHas_cons] at h
    simp only [Bool.or_eq_false_iff, decide_eq_false_iff_not] at h
    obtain ⟨h1, h2⟩ := h
    simp only [mapInsert]
    by_cases hlt : k < e.1
    · simp only [if_pos hlt, mapFind]
    · have hne : ¬ k = e.1 := fun hk => h1 hk.symm
      simp only [if_neg hlt, if_neg hne, mapFind, ih h2]
      by_cases h3 : e.1 = k'
      · have h4 : ¬ k = k' := fun hk => h1 (h3.trans hk.symm)
        simp [h3, h4]
      · simp [h3]

/-- A scan-storing call keeps every scan that is already stored. -/
theorem ScanCall.run_keeps (header_stamp : S → Time) (s : LaserLoopClosure P S)
    (call : ScanCall S) (key : Key) (old : S) (h : mapFind key s.keyed_scans_ = some old) :
    mapFind key (ScanCall.run header_stamp s call).keyed_scans_ = some old := by
  have hkeep : ∀ (k : Key) (scan : S), mapHas k s.keyed_scans_ = false →
      mapFind key (mapInsert k scan s.keyed_scans_) = some old := by
    intro k scan hk
    rw [mapFind_mapInsert_absent k key scan _ hk]
    have hne : ¬ k = key := by
      intro hkk
      rw [hkk] at hk
      unfold mapHas at hk
      rw [h] at hk
      simp at hk
    rw [if_neg hne, h]
  cases call with
  | addKeyScanPair k scan initial_pose =>
    simp only [ScanCall.run, AddKeyScanPair]
    by_cases hk : mapHas k s.keyed_scans_ = true
    · rw [if_pos hk]
      exact h
    · rw [if_neg hk]
      have hk' : mapHas k s.keyed_scans_ = false := by simpa using hk
      cases initial_pose
      · exact hkeep k scan hk'
      · exact hkeep k scan hk'
  | keyedScanCallback k scan =>
    simp only [ScanCall.run, KeyedScanCallback]
    by_cases hk : mapHas k s.keyed_scans_ = true
    · rw [if_pos hk]
      exact h
    · rw [if_neg hk]
      have hk' : mapHas k s.keyed_scans_ = false := by simpa using hk
      by_cases h0 : k = 0
      · rw [if_pos h0]
        exact hkeep k scan hk'
      · rw [if_neg h0]
        exact hkeep k scan hk'

/-- C16: keyed scans are write-once. With a key that already has a scan, `AddKeyScanPair`
returns false and `KeyedScanCallback` returns, both leaving the whole state (so
`keyed_scans_`, `keyed_stamps_` and `stamps_keyed_`) as it was. With a new key,
`AddKeyScanPair` returns true and both calls store exactly the given scan under the key.
Hence a scan, once stored for a key, is the scan stored for that key after any sequence
of these calls. -/
theorem keyed_scans_write_once (header_stamp : S → Time) (s : LaserLoopClosure P S)
    (key : Key) (scan : S) :
    (mapHas key s.keyed_scans_ = true →
      (∀ initial_pose, AddKeyScanPair header_stamp s key scan initial_pose = (s, false)) ∧
      KeyedScanCallback header_stamp s key scan = s) ∧
    (mapHas key s.keyed_scans_ = false →
      (∀ initial_pose,
        (AddKeyScanPair header_stamp s key scan initial_pose).2 = true ∧
        mapFind key (AddKeyScanPair header_stamp s key scan initial_pose).1.keyed_scans_ =
          some scan) ∧
      mapFind key (KeyedScanCallback header_stamp s key scan).keyed_scans_ = some scan) ∧
    (∀ (calls : List (ScanCall S)) (old : S), mapFind key s.keyed_scans_ = some old →
      mapFind key (runScanCalls header_stamp s calls).keyed_scans_ = some old) := by
  refine ⟨fun h => ⟨fun ip => ?_, ?_⟩, fun h => ⟨fun ip => ⟨?_, ?_⟩, ?_⟩, ?_⟩
  · unfold AddKeyScanPair
    rw [if_pos h]
  · unfold KeyedScanCallback
    rw [if_pos h]
  · unfold AddKeyScanPair
    simp [h]
  · unfold AddKeyScanPair
    cases ip <;> simp [h, mapFind_mapInsert_absent key key scan _ h]
  · unfold KeyedScanCallback
    rw [if_neg (by simp [h])]
    by_cases h0 : key = 0
    · rw [if_pos h0]
      simp [mapFind_mapInsert_absent key key scan _ h]
    · rw [if_neg h0]
      simp [mapFind_mapInsert_absent key key scan _ h]
  · intro calls
    induction calls generalizing s with
    | nil => exact fun old h => h
    | cons call rest ih =>
      intro old h
      exact ih (ScanCall.run header_stamp s call) old
        (ScanCall.run_keeps header_stamp s call key old h)

end ScanFacts

/-! ## Manual loop closures -/

section ManualFacts

variable {P S : Type} [Group P]

omit [Group P] in
/-- An update that brings no new values keeps the solver's values and appends the
factors. -/
theorem update_no_values {opt : Optimizer P} {σ σ' : RobustPGO P}
    {nf : NonlinearFactorGraph P} (h : σ.update opt nf [] = some σ') :
    σ'.values = σ.values ∧ σ'.factors = σ.factors ++ nf := by
  unfold RobustPGO.update at h
  simp only [Values.insertAll] at h
  split at h
  · exact absurd h (by simp)
  · simp only [Option.some.injEq] at h
    subst h
    exact ⟨rfl, rfl⟩

omit [Group P] in
/-- The linearization point has the keys of the solver's values. -/
theorem mapHas_getLinearizationPoint (opt : Optimizer P) (σ : RobustPGO P) (k : Key) :
    mapHas k (σ.getLinearizationPoint opt) = mapHas k σ.values :=
  mapHas_map_snd (opt.linearize σ.factors σ.values) k σ.values

omit [Group P] in
/-- The estimate has the keys of the solver's values. -/
theorem mapHas_calculateEstimate (opt : Optimizer P) (σ : RobustPGO P) (k : Key) :
    mapHas k (σ.calculateEstimate opt) = mapHas k σ.values :=
  mapHas_map_snd (opt.estimate σ.factors σ.values) k σ.values

/-- What the update part of `AddFactor` leaves for a manual closure. -/
theorem addFactorUpdate_manual {env : Env P S} {s s4 : LaserLoopClosure P S} {key1 key2 : Key}
    {pose12 : P} {rot trans cost_old cost : ℚ}
    (h : addFactorUpdate env s key1 key2 pose12 true rot trans = some (s4, cost_old, cost)) :
    s4.pgo_solver_.values = s.pgo_solver_.values ∧
    s4.values_ = s4.pgo_solver_.calculateEstimate env.opt ∧
    s4.loop_edges_ = s.loop_edges_ ++ [(key1, key2)] ∧
    s4.manual_loop_edges_ = s.manual_loop_edges_ ++ [(key1, key2)] := by
  unfold addFactorUpdate at h
  simp only [Bool.true_eq_false, false_and, if_false, Values.insertAll] at h
  split at h
  · exact absurd h (by simp)
  · rename_i σ hσ
    simp only [if_true, Option.some.injEq, Prod.mk.injEq] at h
    obtain ⟨h1, -, -⟩ := h
    subst h1
    exact ⟨(update_no_values hσ).1, rfl, rfl, rfl⟩

/-- C15: when `key1` or `key2` is absent from the solver's current values,
`AddManualLoopClosure` returns false, and the solver (its factors and values), `values_`,
`loop_edges_` and `manual_loop_edges_` are as before, `nfg_` being the solver's factors.
Whenever the call returns, it has either left both edge lists alone or appended
`(key1, key2)` to both and returned true, and then both keys are nodes of the solver's
values and of `values_`: every edge it records joins two existing nodes. -/
theorem AddManualLoopClosure_endpoints (env : Env P S) (s : LaserLoopClosure P S)
    (key1 key2 : Key) (pose12 : P) :
    (mapHas key1 s.pgo_solver_.values = false ∨ mapHas key2 s.pgo_solver_.values = false →
      ∃ s', AddManualLoopClosure env s key1 key2 pose12 = some (s', false) ∧
        s'.pgo_solver_ = s.pgo_solver_ ∧ s'.values_ = s.values_ ∧
        s'.nfg_ = s.pgo_solver_.getFactorsUnsafe env.opt ∧
        s'.loop_edges_ = s.loop_edges_ ∧ s'.manual_loop_edges_ = s.manual_loop_edges_) ∧
    (∀ s' flag, AddManualLoopClosure env s key1 key2 pose12 = some (s', flag) →
      (flag = false ∧ s'.loop_edges_ = s.loop_edges_ ∧
        s'.manual_loop_edges_ = s.manual_loop_edges_) ∨
      (flag = true ∧ s'.loop_edges_ = s.loop_edges_ ++ [(key1, key2)] ∧
        s'.manual_loop_edges_ = s.manual_loop_edges_ ++ [(key1, key2)] ∧
        mapHas key1 s.pgo_solver_.values = true ∧ mapHas key2 s.pgo_solver_.values = true ∧
        mapHas key1 s'.pgo_solver_.values = true ∧ mapHas key2 s'.pgo_solver_.values = true ∧
        mapHas key1 s'.values_ = true ∧ mapHas key2 s'.values_ = true)) := by
  constructor
  · intro h
    refine ⟨refreshFromSolver env s, ?_, rfl, rfl, rfl, rfl, rfl⟩
    unfold AddManualLoopClosure AddFactor
    dsimp only
    rw [if_pos]
    refine ⟨rfl, ?_⟩
    rw [mapHas_getLinearizationPoint, mapHas_getLinearizationPoint]
    exact h
  · intro s' flag h
    unfold AddManualLoopClosure AddFactor at h
    dsimp only at h
    rw [mapHas_getLinearizationPoint, mapHas_getLinearizationPoint] at h
    by_cases hk : mapHas key1 s.pgo_solver_.values = false ∨
        mapHas key2 s.pgo_solver_.values = false
    · rw [if_pos ⟨rfl, hk⟩] at h
      simp only [Option.some.injEq, Prod.mk.injEq] at h
      obtain ⟨h1, h2⟩ := h
      subst h1
      exact Or.inl ⟨h2.symm, rfl, rfl⟩
    · rw [if_neg (fun hc => hk hc.2), if_neg (by simp)] at h
      have hk1 : mapHas key1 s.pgo_solver_.values = true := by
        cases hm : mapHas key1 s.pgo_solver_.values
        · exact absurd (Or.inl hm) hk
        · rfl
      have hk2 : mapHas key2 s.pgo_solver_.values = true := by
        cases hm : mapHas key2 s.pgo_solver_.values
        · exact absurd (Or.inr hm) hk
        · rfl
      split at h
      · exact absurd h (by simp)
      · rename_i s4 cost_old cost h4
        obtain ⟨g1, g2, g3, g4⟩ := addFactorUpdate_manual h4
        have g1' : s4.pgo_solver_.values = s.pgo_solver_.values := g1
        have g3' : s4.loop_edges_ = s.loop_edges_ ++ [(key1, key2)] := g3
        have g4' : s4.manual_loop_edges_ = s.manual_loop_edges_ ++ [(key1, key2)] := g4
        have hfin : ∀ s5 : LaserLoopClosure P S, s5.pgo_solver_ = s4.pgo_solver_ →
            s5.values_ = s4.pgo_solver_.calculateEstimate env.opt →
            s5.loop_edges_ = s4.loop_edges_ →
            s5.manual_loop_edges_ = s4.manual_loop_edges_ →
            s' = { s5 with has_changed_ := true } → flag = true →
            (flag = false ∧ s'.loop_edges_ = s.loop_edges_ ∧
              s'.manual_loop_edges_ = s.manual_loop_edges_) ∨
            (flag = true ∧ s'.loop_edges_ = s.loop_edges_ ++ [(key1, key2)] ∧
              s'.manual_loop_edges_ = s.manual_loop_edges_ ++ [(key1, key2)] ∧
              mapHas key1 s.pgo_solver_.values = true ∧
              mapHas key2 s.pgo_solver_.values = true ∧
              mapHas key1 s'.pgo_solver_.values = true ∧
              mapHas key2 s'.pgo_solver_.values = true ∧
              mapHas key1 s'.values_ = true ∧ mapHas key2 s'.values_ = true) := by
          intro s5 e1 e2 e3 e4 es ef
          subst es
          refine Or.inr ⟨ef, e3.trans g3', e4.trans g4', hk1, hk2, ?_, ?_, ?_, ?_⟩
          · show mapHas key1 s5.pgo_solver_.values = true
            rw [e1, g1']
            exact hk1
          · show mapHas key2 s5.pgo_solver_.values = true
            rw [e1, g1']
            exact hk2
          · show mapHas key1 s5.values_ = true
            rw [e2, mapHas_calculateEstimate, g1']
            exact hk1
          · show mapHas key2 s5.values_ = true
            rw [e2, mapHas_calculateEstimate, g1']
            exact hk2
        split at h
        · split at h
          · exact absurd h (by simp)
          · rename_i s5 accept h5
            simp only [Option.some.injEq, Prod.mk.injEq] at h
            obtain ⟨h6, h7⟩ := h
            cases accept with
            | true =>
              have := sanity_true_state h5
              subst this
              exact hfin s5 rfl g2 rfl rfl h6.symm h7.symm
            | false =>
              obtain ⟨r1, -, -, -, r5, r6, r7⟩ := SanityCheck_rejected_state env _ _ _ _ _ h5
              exact hfin s5 r5 r1 r6 r7 h6.symm h7.symm
        · simp only [Option.some.injEq, Prod.mk.injEq] at h
          exact hfin s4 rfl g2 rfl rfl h.1.symm h.2.symm

end ManualFacts
section ClosureLoopFacts

variable {P S : Type} [Group P]

omit [Group P] in
theorem Save_eq {env : Env P S} {s s' : LaserLoopClosure P S} (h : Save env s = some s') :
    ∃ d, s' = { s with disk := d } := by
  unfold Save at h
  split at h
  · exact absurd h (by simp)
  · simp only [Option.some.injEq] at h; exact ⟨_, h.symm⟩
  · split at h
    · simp only [Option.some.injEq] at h; exact ⟨_, h.symm⟩
    · exact absurd h (by simp)

omit [Group P] in
theorem SameSetup.refl (a : LaserLoopClosure P S) : SameSetup a a := ⟨rfl, rfl, rfl, rfl, rfl⟩

omit [Group P] in
theorem SameSetup.trans {a b c : LaserLoopClosure P S} (h1 : SameSetup a b)
    (h2 : SameSetup b c) : SameSetup a c :=
  ⟨h1.1.trans h2.1, h1.2.1.trans h2.2.1, h1.2.2.1.trans h2.2.2.1,
    h1.2.2.2.1.trans h2.2.2.2.1, h1.2.2.2.2.trans h2.2.2.2.2⟩

theorem registrationSucceeds_congr (env : Env P S) {a b : LaserLoopClosure P S}
    (h : a.max_tolerable_fitness_ = b.max_tolerable_fitness_) (cloud scan2 : S)
    (pose1 pose2 : P) :
    registrationSucceeds env a cloud scan2 pose1 pose2 =
      registrationSucceeds env b cloud scan2 pose1 pose2 := by
  unfold registrationSucceeds
  rw [PerformICP_flag, PerformICP_flag, h]

theorem candidateQualifies_congr (env : Env P S) {a b : LaserLoopClosure P S}
    (h : SameSetup a b) (hv : a.values_ = b.values_) (key : Key) (pose1 : P) (cloud : S)
    (o : Key) :
    candidateQualifies env a key pose1 cloud o = candidateQualifies env b key pose1 cloud o := by
  obtain ⟨h1, h2, h3, h4, -⟩ := h
  unfold candidateQualifies
  rw [h1, h2, h3, hv]
  cases mapFind o b.keyed_scans_ with
  | none => rfl
  | some scan2 =>
    cases mapFind o b.values_ with
    | none => rfl
    | some pose2 => simp only [registrationSucceeds_congr env h4]

omit [Group P] in
/-- What the emission of a loop closure changes. -/
theorem emitLoopClosure_eq {env : Env P S} {key other_key : Key} {delta : P} {cov : Mat66}
    {st st2 : ClosureSearch P S}
    (h : emitLoopClosure env key other_key delta cov st = some st2) :
    SameSetup st2.s st.s ∧ st2.closure_keys = st.closure_keys ++ [other_key] ∧
      st2.s.loop_edges_ = st.s.loop_edges_ ++ [(key, other_key)] ∧
      st2.s.pgo_solver_.values = st.s.pgo_solver_.values ∧
      st2.s.pgo_solver_.factors = st.s.pgo_solver_.factors ++
        [Factor.between key other_key delta (.covariance cov)] := by
  unfold emitLoopClosure at h
  dsimp only at h
  split at h
  · exact absurd h (by simp)
  · rename_i st1 hsaved
    have hst1 : SameSetup st1.s st.s ∧ st1.closure_keys = st.closure_keys ∧
        st1.s.loop_edges_ = st.s.loop_edges_ ∧ st1.s.pgo_solver_ = st.s.pgo_solver_ := by
      split at hsaved
      · cases hsv : Save env st.s with
        | none => rw [hsv] at hsaved; exact absurd hsaved (by simp)
        | some s1 =>
          rw [hsv] at hsaved
          simp only [Option.map_some', Option.some.injEq] at hsaved
          obtain ⟨d, hd⟩ := Save_eq hsv
          subst hsaved; subst hd
          exact ⟨⟨rfl, rfl, rfl, rfl, rfl⟩, rfl, rfl, rfl⟩
      · simp only [Option.some.injEq] at hsaved
        subst hsaved
        exact ⟨SameSetup.refl _, rfl, rfl, rfl⟩
    split at h
    · exact absurd h (by simp)
    · rename_i σ hσ
      simp only [Option.some.injEq] at h
      subst h
      obtain ⟨a, b, c, d⟩ := hst1
      obtain ⟨u1, u2⟩ := update_no_values hσ
      refine ⟨?_, ?_, ?_, ?_, ?_⟩
      · exact SameSetup.trans ⟨rfl, rfl, rfl, rfl, rfl⟩ a
      · simp only [b]
      · simp only [c]
      · show σ.values = _
        rw [u1]; exact congrArg RobustPGO.values d
      · show σ.factors = _
        rw [u2]; exact congrArg (fun x => RobustPGO.factors x ++ _) d

theorem checkCandidate_nocheck {env : Env P S} {st : ClosureSearch P S}
    (hsan : st.s.b_check_deltas_ = false) :
    checkCandidate env st =
      some (.reassigned { st with
        s := { st.s with nfg_backup_ := st.s.nfg_, values_backup_ := st.s.values_ } }) := by
  unfold checkCandidate
  simp [hsan]

/-- One iteration of the loop of `FindLoopClosures` with the sanity check off: the
candidate is recorded exactly when it qualifies on the current state. -/
theorem loopBody_nocheck {env : Env P S} {key : Key} {pose1 : P} {cloud : S} {o : Key}
    {st : ClosureSearch P S} {r : LoopExit P S} (hkey : key < 2 ^ 64)
    (hsan : st.s.b_check_deltas_ = false)
    (h : loopBody env key pose1 cloud o st = some r) :
    SameSetup r.state.s st.s ∧
    r.state.closure_keys = st.closure_keys ++
      (if candidateQualifies env st.s key pose1 cloud o = true then [o] else []) ∧
    r.state.s.loop_edges_ = st.s.loop_edges_ ++
      (if candidateQualifies env st.s key pose1 cloud o = true then [(key, o)] else []) ∧
    (candidateQualifies env st.s key pose1 cloud o = true →
      (∃ st', r = .reassigned st') ∧
      r.state.s.values_ = r.state.s.pgo_solver_.calculateEstimate env.opt ∧
      r.state.s.pgo_solver_.values = st.s.pgo_solver_.values ∧
      ∃ f, r.state.s.pgo_solver_.factors = st.s.pgo_solver_.factors ++ [f]) ∧
    (candidateQualifies env st.s key pose1 cloud o = false →
      r.state.s.pgo_solver_ = st.s.pgo_solver_ ∧
      (r.state.s.values_ = st.s.values_ ∨
        r.state.s.values_ = st.s.pgo_solver_.calculateEstimate env.opt)) := by
  unfold loopBody at h
  by_cases hskip : skipsCandidate st.s key o = true
  · -- skipped
    rw [if_pos hskip] at h
    simp only [Option.some.injEq] at h
    subst h
    have hq : candidateQualifies env st.s key pose1 cloud o = false := by
      have hns : ¬ skipsCandidate st.s key o = false := by simp [hskip]
      rw [skipsCandidate_eq_false st.s o hkey] at hns
      unfold candidateQualifies
      by_cases h1 : o < key
      · by_cases h2 : st.s.skip_recent_poses_ ≤ (key : Int) - (o : Int)
        · have h3 : ¬ mapHas o st.s.keyed_scans_ = true := fun h3 => hns ⟨h1, h2, h3⟩
          have h4 : mapFind o st.s.keyed_scans_ = none := by
            unfold mapHas at h3
            simpa using h3
          simp [h4]
        · simp [h2]
      · simp [h1]
    simp [hq, LoopExit.state, SameSetup.refl]
  · have hskip' : skipsCandidate st.s key o = false := by simpa using hskip
    rw [if_neg hskip] at h
    obtain ⟨h1, h2, h3⟩ := (skipsCandidate_eq_false st.s o hkey).1 hskip'
    obtain ⟨scan2, hscan2⟩ := mapFind_isSome_of_has h3
    cases hpose : mapFind o st.s.values_ with
    | none =>
      rw [hpose] at h
      simp only [Option.some.injEq] at h
      subst h
      have hq : candidateQualifies env st.s key pose1 cloud o = false := by
        unfold candidateQualifies
        simp [hpose, hscan2]
      simp [hq, LoopExit.state, SameSetup.refl, hpose]
    | some pose2 =>
      rw [hpose] at h
      dsimp only at h
      by_cases hprox : env.geo.translationNorm (PoseDelta pose1 pose2) <
          st.s.proximity_threshold_
      · rw [if_pos hprox] at h
        cases hreg : registrationSucceeds env st.s cloud scan2 pose1 pose2 with
        | false =>
          have hq : candidateQualifies env st.s key pose1 cloud o = false := by
            unfold candidateQualifies
            simp [hpose, hscan2, hreg]
          rw [registerCandidate_failed key o pose1 pose2 cloud st hscan2 hreg] at h
          dsimp only at h
          rw [checkCandidate_nocheck (by exact hsan)] at h
          simp only [Option.some.injEq] at h
          subst h
          simp [hq, LoopExit.state, SameSetup]
        | true =>
          have hq : candidateQualifies env st.s key pose1 cloud o = true := by
            unfold candidateQualifies
            simp [hpose, hscan2, hreg, h1, h2, hprox]
          have hreg' := hreg
          unfold registrationSucceeds at hreg'
          have hout := PerformICP_outputs env st.s cloud scan2 pose1 pose2 1 Mat66.zeros true
            "World"
          rw [hreg'] at hout
          simp only [if_true] at hout
          unfold registerCandidate at h
          simp only [hscan2, hreg', hout] at h
          cases hemit : emitLoopClosure env key o
              (compensatedDelta pose1 pose2
                (alignScans env cloud scan2 pose1 pose2 true "World").finalTransformation)
              (icpCovariance st.s)
              { st with s := (PerformICP env st.s cloud scan2 pose1 pose2 (some 1)
                  (some Mat66.zeros) true "World").1 } with
          | none => rw [hemit] at h; simp at h
          | some st2 =>
            rw [hemit] at h
            simp only [Option.map_some'] at h
            obtain ⟨e1, e2, e3, e4, e5⟩ := emitLoopClosure_eq hemit
            have hs1 : SameSetup (PerformICP env st.s cloud scan2 pose1 pose2 (some 1)
                (some Mat66.zeros) true "World").1 st.s := by
              rw [PerformICP_state]; exact ⟨rfl, rfl, rfl, rfl, rfl⟩
            have e1' : SameSetup st2.s st.s := SameSetup.trans e1 hs1
            have hl1 : (PerformICP env st.s cloud scan2 pose1 pose2 (some 1)
                (some Mat66.zeros) true "World").1.loop_edges_ = st.s.loop_edges_ := by
              rw [PerformICP_state]
            rw [checkCandidate_nocheck (by exact e1'.2.2.2.2.trans hsan)] at h
            simp only [Option.some.injEq] at h
            subst h
            rw [hq]
            have hp1 : (PerformICP env st.s cloud scan2 pose1 pose2 (some 1)
                (some Mat66.zeros) true "World").1.pgo_solver_ = st.s.pgo_solver_ := by
              rw [PerformICP_state]
            refine ⟨?_, ?_, ?_, fun _ => ⟨⟨_, rfl⟩, rfl, ?_,
              Factor.between key o
                (compensatedDelta pose1 pose2
                  (alignScans env cloud scan2 pose1 pose2 true "World").finalTransformation)
                (.covariance (icpCovariance st.s)), ?_⟩, fun hc => absurd hc (by simp)⟩
            · exact SameSetup.trans ⟨rfl, rfl, rfl, rfl, rfl⟩ e1'
            · rw [if_pos rfl]; exact e2
            · rw [if_pos rfl]
              show st2.s.loop_edges_ = _
              rw [e3, hl1]
            · show st2.s.pgo_solver_.values = _
              rw [e4, hp1]
            · show st2.s.pgo_solver_.factors = _
              rw [e5, hp1]
      · rw [if_neg hprox] at h
        simp only [Option.some.injEq] at h
        subst h
        have hq : candidateQualifies env st.s key pose1 cloud o = false := by
          unfold candidateQualifies
          simp [hpose, hscan2, hprox]
        simp [hq, LoopExit.state, SameSetup.refl]

/-- Once no key qualifies any more and `values_` is the solver's estimate, the loop of
`FindLoopClosures` records nothing further, whatever keys it visits. -/
theorem staleLoop_idle {env : Env P S} {key : Key} {pose1 : P} {cloud : S} (hkey : key < 2 ^ 64)
    (keys : List Key) :
    ∀ (st : ClosureSearch P S) (r : LoopExit P S),
      st.s.b_check_deltas_ = false →
      st.s.values_ = st.s.pgo_solver_.calculateEstimate env.opt →
      (∀ o, candidateQualifies env st.s key pose1 cloud o = false) →
      staleLoop env key pose1 cloud keys st = some r →
      r.state.closure_keys = st.closure_keys ∧ r.state.s.loop_edges_ = st.s.loop_edges_ := by
  induction keys with
  | nil =>
    intro st r _ _ _ h
    simp only [staleLoop, Option.some.injEq] at h
    subst h
    exact ⟨rfl, rfl⟩
  | cons o rest ih =>
    intro st r hsan hval hnone h
    unfold staleLoop at h
    cases hb : loopBody env key pose1 cloud o st with
    | none => rw [hb] at h; exact absurd h (by simp)
    | some r1 =>
      rw [hb] at h
      obtain ⟨a1, a2, a3, -, a5⟩ := loopBody_nocheck hkey hsan hb
      rw [hnone o] at a2 a3
      simp only [Bool.false_eq_true, if_false, List.append_nil] at a2 a3
      obtain ⟨a6, a7⟩ := a5 (hnone o)
      have hval1 : r1.state.s.values_ = r1.state.s.pgo_solver_.calculateEstimate env.opt := by
        rw [a6]
        rcases a7 with h7 | h7
        · rw [h7]; exact hval
        · exact h7
      have hsame : r1.state.s.values_ = st.s.values_ := by rw [hval1, a6, ← hval]
      have hnone1 : ∀ o', candidateQualifies env r1.state.s key pose1 cloud o' = false := by
        intro o'
        rw [candidateQualifies_congr env a1 hsame]
        exact hnone o'
      have hsan1 : r1.state.s.b_check_deltas_ = false := a1.2.2.2.2.trans hsan
      cases r1 with
      | returned st1 =>
        simp only [Option.some.injEq] at h
        subst h
        exact ⟨a2, a3⟩
      | next st1 =>
        obtain ⟨b1, b2⟩ := ih st1 r hsan1 hval1 hnone1 h
        exact ⟨b1.trans a2, b2.trans a3⟩
      | reassigned st1 =>
        obtain ⟨b1, b2⟩ := ih st1 r hsan1 hval1 hnone1 h
        exact ⟨b1.trans a2, b2.trans a3⟩

end ClosureLoopFacts
section ClosureSearchFacts

variable {P S : Type} [Group P]

/-- With the periodic backup off and every gate open, `FindLoopClosures` comes down to its
loop over `values_`. -/
theorem FindLoopClosures_eq_loop (env : Env P S) (s : LaserLoopClosure P S) (key : Key)
    (ck : List Key) (pose1 : P) (scan1 : S)
    (hk : s.keys_between_each_posegraph_backup_ ≠ 0)
    (hsave : s.save_posegraph_backup_ = false)
    (hon : s.check_for_loop_closures_ = true)
    (hscan : mapFind key s.keyed_scans_ = some scan1)
    (hpose : mapFind key s.values_ = some pose1)
    (hgate : closedRecently s key = false) :
    FindLoopClosures env s key (some ck) =
      match closureLoop env key pose1 (env.reg.transformPointCloud pose1 (env.reg.filter scan1))
          (mapKeys s.values_) (searchStart (refreshBackups env s)) with
      | none => none
      | some r =>
        some (r.state.s,
          (match r with
            | .returned _ => false
            | .next st => st.closed_loop
            | .reassigned st => st.closed_loop),
          some r.state.closure_keys) := by
  have hpb : periodicBackup env s key = some s := by
    unfold periodicBackup
    rw [if_neg (by simp [hsave])]
  have hhas : mapHas key s.keyed_scans_ = true := by simp [mapHas, hscan]
  have hgate' : closedRecently (refreshBackups env s) key = false := hgate
  have hpose' : mapFind key (refreshBackups env s).values_ = some pose1 := hpose
  have hscan' : mapFind key (refreshBackups env s).keyed_scans_ = some scan1 := hscan
  unfold FindLoopClosures
  rw [if_neg hk, hpb]
  simp only [hon, hhas, Bool.not_true, Bool.false_eq_true, if_false, hpose', hgate', hscan']
  have hkeys : mapKeys (refreshBackups env s).values_ = mapKeys s.values_ := rfl
  rw [hkeys]
  cases closureLoop env key pose1 (env.reg.transformPointCloud pose1 (env.reg.filter scan1))
      (mapKeys s.values_) (searchStart (refreshBackups env s)) with
  | none => rfl
  | some r => cases r <;> rfl

end ClosureSearchFacts

section ClosureSearchInstances

theorem shift_estimate (g : NonlinearFactorGraph Pose1) (v : Values Pose1) (h : 1 < g.length) :
    (⟨g, v⟩ : RobustPGO Pose1).calculateEstimate shiftOptimizer =
      v.map fun e => (e.1, e.2 * Multiplicative.ofAdd 5) := by
  unfold RobustPGO.calculateEstimate
  simp [shiftOptimizer, not_le.2 h]

/-- Every pose of `driftState`, once moved by five metres, is out of the proximity of the
origin. -/
theorem drift_shifted_far (o : Key) (p : Pose1)
    (h : mapFind o
      [((0 : Key), (Multiplicative.ofAdd 5 : Pose1)), (1, Multiplicative.ofAdd (11 / 2)),
        (2, Multiplicative.ofAdd 7), (3, Multiplicative.ofAdd 6), (4, Multiplicative.ofAdd 5)]
      = some p) :
    ¬ lineGeometry.translationNorm (PoseDelta 1 p) < 1 := by
  simp only [mapFind] at h
  split_ifs at h <;>
    (simp only [Option.some.injEq] at h
     subst h
     norm_num [lineGeometry, PoseDelta, PoseUpdate, PoseInverse, abs_of_nonneg])

/-- C7 (the loop assigns `values_` while it iterates over it, and compares the pose read on
entry with poses read after the assignment): in `driftState` loop-closure checking is on,
sanity checks are off and every gate is open; the keys `0` and `1` both meet the conditions
of the claim for the key `4` (below `4`, at least `skip_recent_poses_` away, a stored scan,
a pose within `proximity_threshold_` of the pose of `4`, a registration that succeeds).
The solver moves every pose by five metres as soon as it holds a loop closure. Whatever the
build does once `values_` has been assigned inside the loop, a call `FindLoopClosures(4)`
that returns has appended the key `0` only: the loop has then compared the pose of `4` read
on entry with the moved pose of every key it came to visit. In the `values_` the call
leaves behind, the keys `4` and `1` are half a metre apart as before. -/
theorem FindLoopClosures_misses_qualifying_key :
    driftState.check_for_loop_closures_ = true ∧ driftState.b_check_deltas_ = false ∧
    candidateQualifies (shiftEnv plainBuild) driftState 4 1 7 0 = true ∧
    candidateQualifies (shiftEnv plainBuild) driftState 4 1 7 1 = true ∧
    (∀ build : Build,
      (FindLoopClosures (shiftEnv build) driftState 4 (some [])).map
          (fun r => (r.2.2, r.1.loop_edges_)) =
        (FindLoopClosures (shiftEnv build) driftState 4 (some [])).map
          (fun _ => (some [0], [(4, 0)]))) ∧
    (FindLoopClosures (shiftEnv plainBuild) driftState 4 (some [])).map (fun r => r.2) =
      some (true, some [0]) ∧
    (FindLoopClosures (shiftEnv plainBuild) driftState 4 (some [])).map
        (fun r => (mapFind 4 r.1.values_, mapFind 1 r.1.values_)) =
      some (some (Multiplicative.ofAdd 5), some (Multiplicative.ofAdd (11 / 2))) := by
  refine ⟨rfl, rfl, by decide!, by decide!, ?_, by decide!, by decide!⟩
  intro b
  rw [FindLoopClosures_eq_loop (shiftEnv b) driftState 4 [] 1 7 (by decide) rfl rfl
    (by decide) (by decide) (by decide!)]
  have hkeys : mapKeys driftState.values_ = [0, 1, 2, 3, 4] := by decide
  rw [hkeys]
  have hcloud : (shiftEnv b).reg.transformPointCloud 1 ((shiftEnv b).reg.filter 7) = 7 := rfl
  rw [hcloud]
  have hq0 : candidateQualifies (shiftEnv b) (searchStart (refreshBackups (shiftEnv b)
      driftState)).s 4 1 7 0 = true := by
    have h0 : candidateQualifies (shiftEnv plainBuild) driftState 4 1 7 0 = true := by decide!
    exact h0
  unfold closureLoop
  cases hb : loopBody (shiftEnv b) 4 1 7 0 (searchStart (refreshBackups (shiftEnv b)
      driftState)) with
  | none => rfl
  | some r1 =>
    obtain ⟨a1, a2, a3, a4, -⟩ := loopBody_nocheck (by norm_num) rfl hb
    obtain ⟨⟨st1, hr1⟩, hval, hvals, f, hfac⟩ := a4 hq0
    rw [hq0] at a2 a3
    subst hr1
    simp only [LoopExit.state] at a1 a2 a3 hval hvals hfac
    have hσ : st1.s.pgo_solver_ =
        ⟨driftState.pgo_solver_.factors ++ [f], driftState.pgo_solver_.values⟩ := by
      rcases hh : st1.s.pgo_solver_ with ⟨g, v⟩
      rw [hh] at hvals hfac
      simp only at hvals hfac
      rw [hvals, hfac]
      rfl
    have hV : st1.s.values_ =
        [((0 : Key), (Multiplicative.ofAdd 5 : Pose1)), (1, Multiplicative.ofAdd (11 / 2)),
          (2, Multiplicative.ofAdd 7), (3, Multiplicative.ofAdd 6),
          (4, Multiplicative.ofAdd 5)] := by
      rw [hval, hσ]
      show RobustPGO.calculateEstimate shiftOptimizer _ = _
      rw [shift_estimate _ _ (by simp [driftState])]
      decide!
    have hnone : ∀ o, candidateQualifies (shiftEnv b) st1.s 4 1 7 o = false := by
      intro o
      unfold candidateQualifies
      cases h1 : mapFind o st1.s.keyed_scans_ with
      | none => simp
      | some scan2 =>
        cases h2 : mapFind o st1.s.values_ with
        | none => simp
        | some pose2 =>
          rw [hV] at h2
          have hfar := drift_shifted_far o pose2 h2
          have hprox : st1.s.proximity_threshold_ = 1 := a1.2.2.1
          rw [hprox]
          have : decide ((shiftEnv b).geo.translationNorm (PoseDelta 1 pose2) < 1) = false := by
            simpa using hfar
          simp [this]
    dsimp only
    cases hres : (shiftEnv b).build.resume [1, 2, 3, 4] (mapKeys st1.s.values_) with
    | none => rfl
    | some keys =>
      dsimp only
      cases hst : staleLoop (shiftEnv b) 4 1 7 keys st1 with
      | none => rfl
      | some r =>
        obtain ⟨c1, c2⟩ := staleLoop_idle (by norm_num) keys st1 r
          (a1.2.2.2.2.trans rfl) hval hnone hst
        simp only [Option.map_some', Option.some.injEq, Prod.mk.injEq]
        rw [c1, c2, a2, a3]
        exact ⟨rfl, rfl⟩

end ClosureSearchInstances

/-! ## Merging on the base station -/

section MergeInstances

/-- C17 (artifact edges are appended without the test the other kinds get): applying the
incremental message `mixedMsg` once to the freshly initialised station gives the node
keys `0, 1` and one edge of each kind; applying it twice gives the same node keys and the
same odometry, loop and UWB edges, but the artifact edge `(1, 100)` twice. -/
theorem PoseGraphCallback_repeats_artifact_edge :
    (PoseGraphCallback lineEnv startState mixedMsg).map
        (fun s => (mapKeys s.values_, s.odometry_edges_, s.loop_edges_, s.uwb_edges_)) =
      some ([0, 1], [(0, 1)], [(1, 0)], [(1, 200)]) ∧
    (PoseGraphCallback lineEnv startState mixedMsg).map (fun s => s.artifact_edges_) =
      some [(1, 100)] ∧
    ((PoseGraphCallback lineEnv startState mixedMsg).bind
        fun s => PoseGraphCallback lineEnv s mixedMsg).map
        (fun s => (mapKeys s.values_, s.odometry_edges_, s.loop_edges_, s.uwb_edges_)) =
      some ([0, 1], [(0, 1)], [(1, 0)], [(1, 200)]) ∧
    ((PoseGraphCallback lineEnv startState mixedMsg).bind
        fun s => PoseGraphCallback lineEnv s mixedMsg).map (fun s => s.artifact_edges_) =
      some [(1, 100), (1, 100)] := by
  refine ⟨by decide!, by decide!, by decide!, by decide!⟩

/-- C18 (only the odometry list is cleared): `stationState` holds the odometry edges
`(0, 1), (1, 2)`, the loop edge `(2, 0)`, the artifact edge `(1, 100)` and the UWB edge
`(1, 200)`. The message `fullMsg` is not incremental and carries the odometry edge
`(0, 1)` and no other edge. After the callback the odometry list is exactly `[(0, 1)]`,
but the loop, artifact and UWB lists still hold their previous edges, none of which is in
the message. -/
theorem PoseGraphCallback_keeps_stale_edges :
    fullMsg.incremental = false ∧
    (PoseGraphCallback lineEnv stationState fullMsg).map (fun s => s.odometry_edges_) =
      some [(0, 1)] ∧
    (PoseGraphCallback lineEnv stationState fullMsg).map
        (fun s => (s.loop_edges_, s.artifact_edges_, s.uwb_edges_)) =
      some ([(2, 0)], [(1, 100)], [(1, 200)]) := by
  refine ⟨rfl, by decide!, by decide!⟩

/-- C19 (the predecessor is looked up in the message only): the station `blankState`
receives `chainMsg1` (nodes `0`, `1`) and then `chainMsg2` (node `2`). When the second
message arrives, the predecessor `1` of node `2` is in the graph; still the solver ends
with a prior on key `0` and a second prior on key `2`. -/
theorem PoseGraphCallback_second_prior :
    (PoseGraphCallback lineEnv blankState chainMsg1).map
        (fun s => (mapHas 1 s.values_, priorKeys s.pgo_solver_.factors)) =
      some (true, [0]) ∧
    (PoseGraphCallbacks lineEnv [chainMsg1, chainMsg2] blankState).map
        (fun s => (mapKeys s.values_, priorKeys s.pgo_solver_.factors)) =
      some ([0, 1, 2], [0, 2]) := by
  refine ⟨by decide!, by decide!⟩

end MergeInstances

/-! ## Artifact observations on the robot -/

section RobotFacts

variable {P : Type} [Group P]

/-- When `HandleRelativePoseMeasurement` does not hand back the error key, it hands back
the closest key, and the robot differs only by the read of `keyed_stamps` at that key. -/
theorem HandleRelativePoseMeasurement_key (env : RobotEnv P) (r : LampRobot P) (stamp : Time)
    (relative_pose transform global_pose : P)
    (h : (LampRobot.HandleRelativePoseMeasurement env r stamp relative_pose transform
      global_pose).2.2.2 ≠ env.GTSAM_ERROR_SYMBOL) :
    (LampRobot.HandleRelativePoseMeasurement env r stamp relative_pose transform
        global_pose).2.2.2 = env.GetClosestKeyAtTime r.pose_graph_ stamp false ∧
    (LampRobot.HandleRelativePoseMeasurement env r stamp relative_pose transform
        global_pose).1 =
      { r with
        pose_graph_ := r.pose_graph_ ++
          [.keyed_stamps_index (env.GetClosestKeyAtTime r.pose_graph_ stamp false)] } := by
  unfold LampRobot.HandleRelativePoseMeasurement at h ⊢
  dsimp only at h ⊢
  by_cases hk : env.GetClosestKeyAtTime r.pose_graph_ stamp false = env.GTSAM_ERROR_SYMBOL
  · rw [if_pos hk] at h
    exact absurd hk h
  · rw [if_neg hk] at h ⊢
    cases hf : env.GetFusedOdomDeltaBetweenTimes
        (env.keyed_stamps r.pose_graph_ (env.GetClosestKeyAtTime r.pose_graph_ stamp false))
        stamp with
    | none =>
      rw [hf] at h
      exact absurd rfl h
    | some delta_pose => exact ⟨rfl, rfl⟩

/-- The pose graph at the moment `ProcessArtifactData` tests the artifact key. -/
theorem processArtifact_ok {env : RobotEnv P} {r r' : LampRobot P} {l l' : ArtifactLocals P}
    {artifact : ArtifactFactor P}
    (h : LampRobot.processArtifact env r l artifact = .ok (r', l')) :
    ∃ covariance,
      l'.pose_key = env.GetClosestKeyAtTime r.pose_graph_ artifact.stamp false ∧
      l'.pose_key ≠ env.GTSAM_ERROR_SYMBOL ∧
      r'.pose_graph_ =
        (r.pose_graph_ ++ [.keyed_stamps_index l'.pose_key]) ++
        (if env.HasKey (r.pose_graph_ ++ [.keyed_stamps_index l'.pose_key]) artifact.key = false
          then [.TrackNode artifact.stamp artifact.key l'.global_pose covariance
                  (env.GetArtifactID artifact.key),
                .InsertKeyedStamp artifact.key artifact.stamp]
          else []) ++
        [.TrackFactor l'.pose_key artifact.key .ARTIFACT l'.transform covariance] ∧
      r'.b_run_optimization_ =
        (r.b_run_optimization_ ||
          env.HasKey (r.pose_graph_ ++ [.keyed_stamps_index l'.pose_key]) artifact.key) := by
  unfold LampRobot.processArtifact at h
  dsimp only at h
  generalize (if r.b_artifacts_in_global_ = true then
      LampRobot.ConvertGlobalToRelative env r artifact.stamp artifact.position l.temp_transform
    else (true, artifact.position)) = conv at h
  by_cases hc : conv.1 = false
  · rw [if_pos hc] at h
    exact absurd h (by simp)
  · rw [if_neg hc] at h
    by_cases hp : (LampRobot.HandleRelativePoseMeasurement env r artifact.stamp conv.2
        l.transform l.global_pose).2.2.2 = env.GTSAM_ERROR_SYMBOL
    · rw [if_pos hp] at h
      exact absurd h (by simp)
    · rw [if_neg hp] at h
      obtain ⟨e1, e2⟩ := HandleRelativePoseMeasurement_key env r artifact.stamp conv.2
        l.transform l.global_pose hp
      simp only [Except.ok.injEq, Prod.mk.injEq] at h
      obtain ⟨h1, h2⟩ := h
      subst h2
      subst h1
      dsimp only
      rw [e2]
      dsimp only
      rw [e1]
      rw [e1] at hp
      refine ⟨if r.b_use_fixed_covariances_ = true then env.SetFixedNoiseModels_artifact
        else artifact.covariance, rfl, hp, ?_, ?_⟩
      · split <;> simp
      · split <;> simp_all


/-- An iteration that ends in `return false` has cleared `b_has_new_factor_`, has called
`CleanFailedFactors(false)` last, and has not touched `b_run_optimization_`. -/
theorem processArtifact_error {env : RobotEnv P} {r r1 : LampRobot P} {l : ArtifactLocals P}
    {artifact : ArtifactFactor P}
    (h : LampRobot.processArtifact env r l artifact = .error r1) :
    r1.b_run_optimization_ = r.b_run_optimization_ ∧ r1.b_has_new_factor_ = false ∧
    r1.artifact_handler_ = r.artifact_handler_ ++ [.CleanFailedFactors false] := by
  unfold LampRobot.processArtifact at h
  dsimp only at h
  generalize (if r.b_artifacts_in_global_ = true then
      LampRobot.ConvertGlobalToRelative env r artifact.stamp artifact.position l.temp_transform
    else (true, artifact.position)) = conv at h
  by_cases hc : conv.1 = false
  · rw [if_pos hc] at h
    simp only [Except.error.injEq] at h
    subst h
    exact ⟨rfl, rfl, rfl⟩
  · rw [if_neg hc] at h
    by_cases hp : (LampRobot.HandleRelativePoseMeasurement env r artifact.stamp conv.2
        l.transform l.global_pose).2.2.2 = env.GTSAM_ERROR_SYMBOL
    · rw [if_pos hp] at h
      simp only [Except.error.injEq] at h
      subst h
      unfold LampRobot.HandleRelativePoseMeasurement
      dsimp only
      split
      · exact ⟨rfl, rfl, rfl⟩
      · split <;> exact ⟨rfl, rfl, rfl⟩
    · rw [if_neg hp] at h
      exact absurd h (by simp)

/-- A batch of first sightings leaves `b_run_optimization_` as it was, whether the batch
ends in success or in failure. -/
theorem processArtifacts_first_sightings (env : RobotEnv P)
    (factors : List (ArtifactFactor P)) :
    ∀ (r : LampRobot P) (l : ArtifactLocals P),
      LampRobot.firstSightings env factors r l = true →
      (LampRobot.processArtifacts env factors r l).1.b_run_optimization_ =
        r.b_run_optimization_ := by
  induction factors with
  | nil => exact fun _ _ _ => rfl
  | cons artifact rest ih =>
    intro r l hfirst
    unfold LampRobot.firstSightings at hfirst
    unfold LampRobot.processArtifacts
    cases h : LampRobot.processArtifact env r l artifact with
    | error r1 => exact (processArtifact_error h).1
    | ok p =>
      obtain ⟨r1, l1⟩ := p
      rw [h] at hfirst
      simp only [Bool.and_eq_true, Bool.not_eq_true'] at hfirst
      obtain ⟨_, e1, _, _, e4⟩ := processArtifact_ok h
      rw [e1, hfirst.1, Bool.or_false] at e4
      exact (ih r1 l1 hfirst.2).trans e4

/-- One observation that is processed to the end of its iteration tracks a node for the
artifact key exactly when that key is not yet in the pose graph, and otherwise sets
`b_run_optimization_`; either way it tracks one ARTIFACT edge from the closest pose key to
the artifact key. -/
theorem processArtifact_tracks {env : RobotEnv P} {r r1 : LampRobot P} {l l1 : ArtifactLocals P}
    {artifact : ArtifactFactor P}
    (h : LampRobot.processArtifact env r l artifact = .ok (r1, l1)) :
    nodesTracked r1.pose_graph_ = nodesTracked r.pose_graph_ ++
      (if env.HasKey (r.pose_graph_ ++ [.keyed_stamps_index
          (env.GetClosestKeyAtTime r.pose_graph_ artifact.stamp false)]) artifact.key = true
        then [] else [artifact.key]) ∧
    edgesTracked r1.pose_graph_ = edgesTracked r.pose_graph_ ++
      [(env.GetClosestKeyAtTime r.pose_graph_ artifact.stamp false, artifact.key,
        PoseGraphEdgeType.ARTIFACT)] ∧
    r1.b_run_optimization_ = (r.b_run_optimization_ ||
      env.HasKey (r.pose_graph_ ++ [.keyed_stamps_index
        (env.GetClosestKeyAtTime r.pose_graph_ artifact.stamp false)]) artifact.key) := by
  obtain ⟨covariance, e1, _, e3, e4⟩ := processArtifact_ok h
  rw [e1] at e3 e4
  refine ⟨?_, ?_, e4⟩
  · rw [e3]
    cases env.HasKey (r.pose_graph_ ++ [.keyed_stamps_index
        (env.GetClosestKeyAtTime r.pose_graph_ artifact.stamp false)]) artifact.key <;>
      simp [nodesTracked, List.filterMap_append]
  · rw [e3]
    cases env.HasKey (r.pose_graph_ ++ [.keyed_stamps_index
        (env.GetClosestKeyAtTime r.pose_graph_ artifact.stamp false)]) artifact.key <;>
      simp [edgesTracked, List.filterMap_append]

/-- An observation whose closest pose key is not the error key and for which the odometry
handler has a delta is processed to the end of its iteration. -/
theorem processArtifact_succeeds (env : RobotEnv P) (r : LampRobot P) (l : ArtifactLocals P)
    (artifact : ArtifactFactor P)
    (hk : env.GetClosestKeyAtTime r.pose_graph_ artifact.stamp false ≠ env.GTSAM_ERROR_SYMBOL)
    (hd : (env.GetFusedOdomDeltaBetweenTimes
      (env.keyed_stamps r.pose_graph_ (env.GetClosestKeyAtTime r.pose_graph_ artifact.stamp false))
      artifact.stamp).isSome = true) :
    ∃ p, LampRobot.processArtifact env r l artifact = .ok p := by
  obtain ⟨delta, hdelta⟩ := Option.isSome_iff_exists.1 hd
  unfold LampRobot.processArtifact LampRobot.ConvertGlobalToRelative
    LampRobot.HandleRelativePoseMeasurement
  simp only [hk, hdelta, if_false]
  split_ifs <;> simp_all

/-- What one iteration does to the pose graph and to the flags it reads depends on the pose
graph and on these flags only. -/
theorem processArtifact_congr (env : RobotEnv P) (r r2 : LampRobot P) (l l2 : ArtifactLocals P)
    (artifact : ArtifactFactor P)
    (h1 : r.pose_graph_ = r2.pose_graph_)
    (h2 : r.b_run_optimization_ = r2.b_run_optimization_)
    (h3 : r.b_artifacts_in_global_ = r2.b_artifacts_in_global_)
    (h4 : r.b_use_fixed_covariances_ = r2.b_use_fixed_covariances_) :
    match LampRobot.processArtifact env r l artifact,
      LampRobot.processArtifact env r2 l2 artifact with
    | .ok x, .ok y =>
      x.1.pose_graph_ = y.1.pose_graph_ ∧ x.1.b_run_optimization_ = y.1.b_run_optimization_ ∧
      x.1.b_artifacts_in_global_ = y.1.b_artifacts_in_global_ ∧
      x.1.b_use_fixed_covariances_ = y.1.b_use_fixed_covariances_
    | .error x, .error y =>
      x.pose_graph_ = y.pose_graph_ ∧ x.b_run_optimization_ = y.b_run_optimization_
    | _, _ => False := by
  obtain ⟨pg, ah, nf, ro, gl, fx⟩ := r
  obtain ⟨pg2, ah2, nf2, ro2, gl2, fx2⟩ := r2
  simp only at h1 h2 h3 h4
  subst h1 h2 h3 h4
  by_cases hk : env.GetClosestKeyAtTime pg artifact.stamp false = env.GTSAM_ERROR_SYMBOL <;>
    cases gl <;>
    cases hf : env.GetFusedOdomDeltaBetweenTimes
      (env.keyed_stamps pg (env.GetClosestKeyAtTime pg artifact.stamp false)) artifact.stamp <;>
    simp [LampRobot.processArtifact, LampRobot.ConvertGlobalToRelative,
      LampRobot.HandleRelativePoseMeasurement, LampRobot.failArtifact, hk, hf] <;>
    (try split_ifs) <;> simp

/-- What the loop over a batch does to the pose graph and to `b_run_optimization_`, and
whether it succeeds, depends on the pose graph and on the flags it reads only. -/
theorem processArtifacts_congr (env : RobotEnv P) (factors : List (ArtifactFactor P)) :
    ∀ (r r2 : LampRobot P) (l l2 : ArtifactLocals P),
      r.pose_graph_ = r2.pose_graph_ →
      r.b_run_optimization_ = r2.b_run_optimization_ →
      r.b_artifacts_in_global_ = r2.b_artifacts_in_global_ →
      r.b_use_fixed_covariances_ = r2.b_use_fixed_covariances_ →
      (LampRobot.processArtifacts env factors r l).2 =
        (LampRobot.processArtifacts env factors r2 l2).2 ∧
      (LampRobot.processArtifacts env factors r l).1.pose_graph_ =
        (LampRobot.processArtifacts env factors r2 l2).1.pose_graph_ ∧
      (LampRobot.processArtifacts env factors r l).1.b_run_optimization_ =
        (LampRobot.processArtifacts env factors r2 l2).1.b_run_optimization_ := by
  induction factors with
  | nil =>
    intro r r2 l l2 h1 h2 _ _
    exact ⟨rfl, h1, h2⟩
  | cons artifact rest ih =>
    intro r r2 l l2 h1 h2 h3 h4
    have hc := processArtifact_congr env r r2 l l2 artifact h1 h2 h3 h4
    unfold LampRobot.processArtifacts
    cases e1 : LampRobot.processArtifact env r l artifact with
    | error x =>
      cases e2 : LampRobot.processArtifact env r2 l2 artifact with
      | error y =>
        rw [e1, e2] at hc
        exact ⟨rfl, hc.1, hc.2⟩
      | ok y =>
        rw [e1, e2] at hc
        exact hc.elim
    | ok x =>
      cases e2 : LampRobot.processArtifact env r2 l2 artifact with
      | error y =>
        rw [e1, e2] at hc
        exact hc.elim
      | ok y =>
        rw [e1, e2] at hc
        exact ih x.1 y.1 x.2 y.2 hc.1 hc.2.1 hc.2.2.1 hc.2.2.2

/-- A batch that is processed to its end has tracked one ARTIFACT edge per observation, to
the artifact key of that observation and in the order of the batch, and has tracked nodes
for artifact keys of the batch only. -/
theorem processArtifacts_tracks (env : RobotEnv P) (factors : List (ArtifactFactor P)) :
    ∀ (r : LampRobot P) (l : ArtifactLocals P),
      (LampRobot.processArtifacts env factors r l).2 = true →
      ∃ (pose_keys : List Key) (news : List Key),
        pose_keys.length = factors.length ∧
        edgesTracked (LampRobot.processArtifacts env factors r l).1.pose_graph_ =
          edgesTracked r.pose_graph_ ++
            List.zipWith (fun pk a => (pk, a.key, PoseGraphEdgeType.ARTIFACT)) pose_keys
              factors ∧
        nodesTracked (LampRobot.processArtifacts env factors r l).1.pose_graph_ =
          nodesTracked r.pose_graph_ ++ news ∧
        news.Sublist (factors.map fun a => a.key) := by
  induction factors with
  | nil =>
    intro r l _
    exact ⟨[], [], rfl, by simp [LampRobot.processArtifacts], by
      simp [LampRobot.processArtifacts], List.Sublist.refl _⟩
  | cons artifact rest ih =>
    intro r l h
    unfold LampRobot.processArtifacts at h ⊢
    cases e1 : LampRobot.processArtifact env r l artifact with
    | error x =>
      rw [e1] at h
      exact absurd h (by simp)
    | ok x =>
      obtain ⟨r1, l1⟩ := x
      rw [e1] at h
      dsimp only at h ⊢
      obtain ⟨t1, t2, -⟩ := processArtifact_tracks e1
      obtain ⟨pks, news, i1, i2, i3, i4⟩ := ih r1 l1 h
      refine ⟨env.GetClosestKeyAtTime r.pose_graph_ artifact.stamp false :: pks,
        (if env.HasKey (r.pose_graph_ ++ [.keyed_stamps_index
            (env.GetClosestKeyAtTime r.pose_graph_ artifact.stamp false)]) artifact.key = true
          then [] else [artifact.key]) ++ news, ?_, ?_, ?_, ?_⟩
      · simp [i1]
      · rw [i2, t2]
        simp
      · rw [i3, t1]
        simp
      · split
        · simpa using List.Sublist.cons artifact.key i4
        · simpa using List.Sublist.cons₂ artifact.key i4

/-- C20: `ProcessArtifactData` on a batch. An observation whose closest pose key is found
and for which the odometry handler has a delta is processed successfully: handed over alone,
it makes the call return true, tracks a node for the artifact key exactly when that key is
not yet in the pose graph (tested right after the closest pose key was looked up) and
otherwise tracks no node and sets `b_run_optimization_`; either way it tracks exactly one
edge, of type ARTIFACT, from the closest pose key to the artifact key. A batch is processed
one observation after the other: the call on a batch whose first observation succeeds ends,
in its flag, its pose graph and `b_run_optimization_`, as the call on the rest of the batch
made after the call on the first observation. A batch on which the call returns true has
tracked one ARTIFACT edge per observation, to its artifact key and in the order of the
batch, and nodes for artifact keys of the batch only. A batch in which every observation is
a first sighting leaves `b_run_optimization_` unchanged. -/
theorem ProcessArtifactData_tracks (env : RobotEnv P) (r : LampRobot P) :
    (∀ artifact : ArtifactFactor P,
      env.GetClosestKeyAtTime r.pose_graph_ artifact.stamp false ≠ env.GTSAM_ERROR_SYMBOL →
      (env.GetFusedOdomDeltaBetweenTimes
        (env.keyed_stamps r.pose_graph_
          (env.GetClosestKeyAtTime r.pose_graph_ artifact.stamp false))
        artifact.stamp).isSome = true →
      (LampRobot.ProcessArtifactData env r ⟨true, [artifact]⟩).2 = true ∧
      nodesTracked (LampRobot.ProcessArtifactData env r ⟨true, [artifact]⟩).1.pose_graph_ =
        nodesTracked r.pose_graph_ ++
          (if env.HasKey (r.pose_graph_ ++ [.keyed_stamps_index
              (env.GetClosestKeyAtTime r.pose_graph_ artifact.stamp false)]) artifact.key = true
            then [] else [artifact.key]) ∧
      edgesTracked (LampRobot.ProcessArtifactData env r ⟨true, [artifact]⟩).1.pose_graph_ =
        edgesTracked r.pose_graph_ ++
          [(env.GetClosestKeyAtTime r.pose_graph_ artifact.stamp false, artifact.key,
            PoseGraphEdgeType.ARTIFACT)] ∧
      (LampRobot.ProcessArtifactData env r ⟨true, [artifact]⟩).1.b_run_optimization_ =
        (r.b_run_optimization_ ||
          env.HasKey (r.pose_graph_ ++ [.keyed_stamps_index
            (env.GetClosestKeyAtTime r.pose_graph_ artifact.stamp false)]) artifact.key)) ∧
    (∀ (artifact : ArtifactFactor P) (rest : List (ArtifactFactor P)),
      (LampRobot.ProcessArtifactData env r ⟨true, [artifact]⟩).2 = true →
      (LampRobot.ProcessArtifactData env r ⟨true, artifact :: rest⟩).2 =
        (LampRobot.ProcessArtifactData env
          (LampRobot.ProcessArtifactData env r ⟨true, [artifact]⟩).1 ⟨true, rest⟩).2 ∧
      (LampRobot.ProcessArtifactData env r ⟨true, artifact :: rest⟩).1.pose_graph_ =
        (LampRobot.ProcessArtifactData env
          (LampRobot.ProcessArtifactData env r ⟨true, [artifact]⟩).1
          ⟨true, rest⟩).1.pose_graph_ ∧
      (LampRobot.ProcessArtifactData env r ⟨true, artifact :: rest⟩).1.b_run_optimization_ =
        (LampRobot.ProcessArtifactData env
          (LampRobot.ProcessArtifactData env r ⟨true, [artifact]⟩).1
          ⟨true, rest⟩).1.b_run_optimization_) ∧
    (∀ data : ArtifactData P,
      (LampRobot.ProcessArtifactData env r data).2 = true →
      ∃ (pose_keys : List Key) (news : List Key),
        pose_keys.length = data.factors.length ∧
        edgesTracked (LampRobot.ProcessArtifactData env r data).1.pose_graph_ =
          edgesTracked r.pose_graph_ ++
            List.zipWith (fun pk a => (pk, a.key, PoseGraphEdgeType.ARTIFACT)) pose_keys
              data.factors ∧
        nodesTracked (LampRobot.ProcessArtifactData env r data).1.pose_graph_ =
          nodesTracked r.pose_graph_ ++ news ∧
        news.Sublist (data.factors.map fun a => a.key)) ∧
    (∀ data : ArtifactData P,
      LampRobot.firstSightings env data.factors { r with b_has_new_factor_ := true }
        ⟨1, 1, 1, 0⟩ = true →
      (LampRobot.ProcessArtifactData env r data).1.b_run_optimization_ =
        r.b_run_optimization_) := by
  refine ⟨?_, ?_, ?_, ?_⟩
  · intro artifact hk hd
    obtain ⟨p, hp⟩ := processArtifact_succeeds env { r with b_has_new_factor_ := true }
      ⟨1, 1, 1, 0⟩ artifact hk hd
    obtain ⟨r1, l1⟩ := p
    obtain ⟨t1, t2, t3⟩ := processArtifact_tracks hp
    have hres : LampRobot.ProcessArtifactData env r ⟨true, [artifact]⟩ =
        ({ r1 with artifact_handler_ := r1.artifact_handler_ ++ [.CleanFailedFactors true] },
          true) := by
      simp [LampRobot.ProcessArtifactData, LampRobot.processArtifacts, hp]
    rw [hres]
    exact ⟨rfl, t1, t2, t3⟩
  · intro artifact rest h
    cases hp : LampRobot.processArtifact env { r with b_has_new_factor_ := true } ⟨1, 1, 1, 0⟩
        artifact with
    | error x =>
      have : (LampRobot.ProcessArtifactData env r ⟨true, [artifact]⟩).2 = false := by
        simp [LampRobot.ProcessArtifactData, LampRobot.processArtifacts, hp]
      rw [this] at h
      exact absurd h (by simp)
    | ok p =>
      obtain ⟨r1, l1⟩ := p
      have hres : LampRobot.ProcessArtifactData env r ⟨true, [artifact]⟩ =
          ({ r1 with artifact_handler_ := r1.artifact_handler_ ++ [.CleanFailedFactors true] },
            true) := by
        simp [LampRobot.ProcessArtifactData, LampRobot.processArtifacts, hp]
      have hbatch : LampRobot.ProcessArtifactData env r ⟨true, artifact :: rest⟩ =
          LampRobot.processArtifacts env rest r1 l1 := by
        simp [LampRobot.ProcessArtifactData, LampRobot.processArtifacts, hp]
      have hrest : LampRobot.ProcessArtifactData env
          { r1 with artifact_handler_ := r1.artifact_handler_ ++ [.CleanFailedFactors true] }
          ⟨true, rest⟩ =
          LampRobot.processArtifacts env rest
            { r1 with
              artifact_handler_ := r1.artifact_handler_ ++ [.CleanFailedFactors true]
              b_has_new_factor_ := true } ⟨1, 1, 1, 0⟩ := by
        simp [LampRobot.ProcessArtifactData]
      rw [hres, hbatch, hrest]
      exact processArtifacts_congr env rest r1 _ l1 _ rfl rfl rfl rfl
  · intro data h
    unfold LampRobot.ProcessArtifactData at h ⊢
    split at h
    · exact absurd h (by simp)
    · rename_i hdata
      rw [if_neg hdata]
      exact processArtifacts_tracks env data.factors _ _ h
  · intro data hfirst
    unfold LampRobot.ProcessArtifactData
    split
    · rfl
    · exact processArtifacts_first_sightings env data.factors _ _ hfirst

end RobotFacts

section RobotInstances

/-- An instance of C20: a robot with an empty pose graph is handed the first sighting of
the artifact `100`, then that sighting followed by a second sighting of the same artifact,
and the batch `twoArtifacts` of two first sightings. -/
theorem ProcessArtifactData_tracks_witness :
    ((LampRobot.ProcessArtifactData lineRobotEnv idleRobot
        ⟨true, [⟨5, 100, Multiplicative.ofAdd 2, .isotropic 1⟩]⟩).2 = true ∧
      nodesTracked (LampRobot.ProcessArtifactData lineRobotEnv idleRobot
        ⟨true, [⟨5, 100, Multiplicative.ofAdd 2, .isotropic 1⟩]⟩).1.pose_graph_ = [100] ∧
      edgesTracked (LampRobot.ProcessArtifactData lineRobotEnv idleRobot
        ⟨true, [⟨5, 100, Multiplicative.ofAdd 2, .isotropic 1⟩]⟩).1.pose_graph_ =
        [(3, 100, PoseGraphEdgeType.ARTIFACT)] ∧
      (LampRobot.ProcessArtifactData lineRobotEnv idleRobot
        ⟨true, [⟨5, 100, Multiplicative.ofAdd 2, .isotropic 1⟩]⟩).1.b_run_optimization_
        = false) ∧
    ((LampRobot.ProcessArtifactData lineRobotEnv idleRobot
        ⟨true, [⟨5, 100, Multiplicative.ofAdd 2, .isotropic 1⟩,
          ⟨6, 100, Multiplicative.ofAdd 2, .isotropic 1⟩]⟩).2 = true ∧
      nodesTracked (LampRobot.ProcessArtifactData lineRobotEnv idleRobot
        ⟨true, [⟨5, 100, Multiplicative.ofAdd 2, .isotropic 1⟩,
          ⟨6, 100, Multiplicative.ofAdd 2, .isotropic 1⟩]⟩).1.pose_graph_ = [100] ∧
      edgesTracked (LampRobot.ProcessArtifactData lineRobotEnv idleRobot
        ⟨true, [⟨5, 100, Multiplicative.ofAdd 2, .isotropic 1⟩,
          ⟨6, 100, Multiplicative.ofAdd 2, .isotropic 1⟩]⟩).1.pose_graph_ =
        [(3, 100, PoseGraphEdgeType.ARTIFACT), (3, 100, PoseGraphEdgeType.ARTIFACT)] ∧
      (LampRobot.ProcessArtifactData lineRobotEnv idleRobot
        ⟨true, [⟨5, 100, Multiplicative.ofAdd 2, .isotropic 1⟩,
          ⟨6, 100, Multiplicative.ofAdd 2, .isotropic 1⟩]⟩).1.b_run_optimization_ = true) ∧
    (∃ (pose_keys : List Key) (news : List Key),
      pose_keys.length = twoArtifacts.length ∧
      edgesTracked (LampRobot.ProcessArtifactData lineRobotEnv idleRobot
          ⟨true, twoArtifacts⟩).1.pose_graph_ =
        edgesTracked idleRobot.pose_graph_ ++
          List.zipWith (fun pk a => (pk, a.key, PoseGraphEdgeType.ARTIFACT)) pose_keys
            twoArtifacts ∧
      nodesTracked (LampRobot.ProcessArtifactData lineRobotEnv idleRobot
          ⟨true, twoArtifacts⟩).1.pose_graph_ = nodesTracked idleRobot.pose_graph_ ++ news ∧
      news.Sublist (twoArtifacts.map fun a => a.key)) ∧
    (LampRobot.ProcessArtifactData lineRobotEnv idleRobot
        ⟨true, twoArtifacts⟩).1.b_run_optimization_ = idleRobot.b_run_optimization_ := by
  have hA := (ProcessArtifactData_tracks lineRobotEnv idleRobot).1
    ⟨5, 100, Multiplicative.ofAdd 2, .isotropic 1⟩ (by decide) (by decide!)
  have hB := (ProcessArtifactData_tracks lineRobotEnv idleRobot).2.1
    ⟨5, 100, Multiplicative.ofAdd 2, .isotropic 1⟩
    [⟨6, 100, Multiplicative.ofAdd 2, .isotropic 1⟩] hA.1
  refine ⟨⟨hA.1, hA.2.1.trans (by decide!), hA.2.2.1.trans (by decide!),
      hA.2.2.2.trans (by decide!)⟩,
    ⟨hB.1.trans (by decide!), (congrArg nodesTracked hB.2.1).trans (by decide!),
      (congrArg edgesTracked hB.2.1).trans (by decide!), hB.2.2.trans (by decide!)⟩,
    (ProcessArtifactData_tracks lineRobotEnv idleRobot).2.2.1 ⟨true, twoArtifacts⟩
      (by decide!),
    (ProcessArtifactData_tracks lineRobotEnv idleRobot).2.2.2 ⟨true, twoArtifacts⟩
      (by decide!)⟩

end RobotInstances

section FactorInstances

/-- An instance of C14: in `chainState` the solver holds an odometry factor between the
keys `1` and `2` (slot `2`); asking to remove it, in either order of the keys, is
refused. -/
theorem RemoveFactor_consecutive_witness :
    factorsToRemove 1 2 (chainState.pgo_solver_.getFactorsUnsafe lineEnv.opt) = [2] ∧
    RemoveFactor lineEnv 0 chainState 1 2 false = some (chainState, false) ∧
    RemoveFactor lineEnv 0 chainState 2 1 true = some (chainState, false) :=
  ⟨by decide,
    (RemoveFactor_consecutive lineEnv 0 chainState 1 2 false).1 (Or.inl (by decide)),
    (RemoveFactor_consecutive lineEnv 0 chainState 2 1 true).2 (by decide) (by decide)
      (Or.inr (by decide))⟩

/-- An instance of C15: on `chainState` a manual closure to the missing key `7` is
refused, and the closure between the nodes `2` and `0` is recorded. -/
theorem AddManualLoopClosure_endpoints_witness :
    (∃ s', AddManualLoopClosure pullEnv chainState 2 7 1 = some (s', false) ∧
      s'.pgo_solver_ = chainState.pgo_solver_ ∧ s'.values_ = chainState.values_ ∧
      s'.nfg_ = chainState.pgo_solver_.getFactorsUnsafe pullEnv.opt ∧
      s'.loop_edges_ = chainState.loop_edges_ ∧
      s'.manual_loop_edges_ = chainState.manual_loop_edges_) ∧
    (∃ s', AddManualLoopClosure pullEnv chainState 2 0 (Multiplicative.ofAdd (-10)) =
        some (s', true) ∧
      s'.loop_edges_ = chainState.loop_edges_ ++ [(2, 0)] ∧
      mapHas 2 s'.values_ = true ∧ mapHas 0 s'.values_ = true) := by
  refine ⟨(AddManualLoopClosure_endpoints pullEnv chainState 2 7 1).1 (Or.inr (by decide)), ?_⟩
  cases h : AddManualLoopClosure pullEnv chainState 2 0 (Multiplicative.ofAdd (-10)) with
  | none =>
    have hsome : (AddManualLoopClosure pullEnv chainState 2 0
        (Multiplicative.ofAdd (-10))).isSome = true := by decide!
    rw [h] at hsome
    exact absurd hsome (by simp)
  | some p =>
    obtain ⟨s', flag⟩ := p
    have hflag : (AddManualLoopClosure pullEnv chainState 2 0
        (Multiplicative.ofAdd (-10))).map Prod.snd = some true := by decide!
    rw [h] at hflag
    simp only [Option.map_some', Option.some.injEq] at hflag
    rcases (AddManualLoopClosure_endpoints pullEnv chainState 2 0
      (Multiplicative.ofAdd (-10))).2 s' flag h with ⟨hf, -⟩ | ⟨hf, e1, -, -, -, -, -, e2, e3⟩
    · rw [hf] at hflag
      exact absurd hflag (by simp)
    · subst hf
      exact ⟨s', rfl, e1, e2, e3⟩

/-- An instance of C16: in `loopState` the key `1` has the scan `7` and the key `2` has
none. -/
theorem keyed_scans_write_once_witness :
    (AddKeyScanPair (fun c => c) loopState 1 9 true = (loopState, false) ∧
      KeyedScanCallback (fun c => c) loopState 1 9 = loopState) ∧
    ((AddKeyScanPair (fun c => c) loopState 2 9 false).2 = true ∧
      mapFind 2 (AddKeyScanPair (fun c => c) loopState 2 9 false).1.keyed_scans_ = some 9) ∧
    mapFind 1 (runScanCalls (fun c => c) loopState
      [.addKeyScanPair 1 9 true, .keyedScanCallback 1 8, .addKeyScanPair 2 5 false]).keyed_scans_
      = some 7 :=
  ⟨⟨((keyed_scans_write_once (fun c => c) loopState 1 9).1 (by decide)).1 true,
      ((keyed_scans_write_once (fun c => c) loopState 1 9).1 (by decide)).2⟩,
    ((keyed_scans_write_once (fun c => c) loopState 2 9).2.1 (by decide)).1 false,
    (keyed_scans_write_once (fun c => c) loopState 1 9).2.2 _ 7 (by decide)⟩

end FactorInstances

/-! ## Failed artifact batches -/

section BatchFacts

variable {P : Type} [Group P]

/-- A batch that ends in `return false` leaves `b_has_new_factor_` false and has called
`CleanFailedFactors(false)` last. -/
theorem processArtifacts_failed (env : RobotEnv P) (factors : List (ArtifactFactor P)) :
    ∀ (r : LampRobot P) (l : ArtifactLocals P),
      (LampRobot.processArtifacts env factors r l).2 = false →
      (LampRobot.processArtifacts env factors r l).1.b_has_new_factor_ = false ∧
      (cleanCalls (LampRobot.processArtifacts env factors r l).1.artifact_handler_).getLast? =
        some false := by
  induction factors with
  | nil =>
    intro r l h
    simp [LampRobot.processArtifacts] at h
  | cons artifact rest ih =>
    intro r l h
    unfold LampRobot.processArtifacts at h ⊢
    cases hp : LampRobot.processArtifact env r l artifact with
    | error r1 =>
      obtain ⟨-, e2, e3⟩ := processArtifact_error hp
      refine ⟨e2, ?_⟩
      show (cleanCalls r1.artifact_handler_).getLast? = some false
      rw [e3]
      simp [cleanCalls, List.filterMap_append]
    | ok p =>
      obtain ⟨r1, l1⟩ := p
      rw [hp] at h
      exact ih r1 l1 h

end BatchFacts

section BatchInstances

/-- C21 (observations before the failing one stay in the pose graph): with
`gappyRobotEnv` the batch `twoArtifacts` fails at its second observation, for which the
odometry handler has no delta. `ProcessArtifactData` returns false, `b_has_new_factor_`
is false and `CleanFailedFactors(false)` was the only clean-up call; but the node `100`
and the artifact edge `(3, 100)` of the first observation of the batch have been tracked
in the pose graph. -/
theorem ProcessArtifactData_keeps_partial_batch :
    (LampRobot.ProcessArtifactData gappyRobotEnv idleRobot ⟨true, twoArtifacts⟩).2 = false ∧
    (LampRobot.ProcessArtifactData gappyRobotEnv idleRobot
      ⟨true, twoArtifacts⟩).1.b_has_new_factor_ = false ∧
    cleanCalls (LampRobot.ProcessArtifactData gappyRobotEnv idleRobot
      ⟨true, twoArtifacts⟩).1.artifact_handler_ = [false] ∧
    nodesTracked idleRobot.pose_graph_ = [] ∧ edgesTracked idleRobot.pose_graph_ = [] ∧
    nodesTracked (LampRobot.ProcessArtifactData gappyRobotEnv idleRobot
      ⟨true, twoArtifacts⟩).1.pose_graph_ = [100] ∧
    edgesTracked (LampRobot.ProcessArtifactData gappyRobotEnv idleRobot
      ⟨true, twoArtifacts⟩).1.pose_graph_ = [(3, 100, PoseGraphEdgeType.ARTIFACT)] := by
  refine ⟨by decide!, by decide!, by decide!, by decide, by decide, by decide!, by decide!⟩

end BatchInstances

/-! ## Reloading a saved graph -/

section ReloadInstances

/-- C24 (the reload fills only one side of the time index): `savedState` is saved, erased
and loaded back. The load succeeds and gives the keys `0` and `1` their stamps in
`keyed_stamps_`, but `stamps_keyed_`, emptied by `ErasePosegraph`, stays empty: the
assignment `stamps_keyed_[t] = key_` of `Load` is commented out. Key `1` has the stamp of
one second and no stamp maps to it. -/
theorem Load_leaves_stamps_keyed_empty :
    ((Save lineEnv savedState).bind fun s1 =>
        (ErasePosegraph lineEnv s1).bind (Load lineEnv)).map
        (fun r => (r.2, r.1.keyed_stamps_)) =
      some (true, [(0, 0), (1, 1000000000)]) ∧
    ((Save lineEnv savedState).bind fun s1 =>
        (ErasePosegraph lineEnv s1).bind (Load lineEnv)).map
        (fun r => r.1.stamps_keyed_) = some [] := by
  refine ⟨by decide!, by decide!⟩

/-- C26 (the next key is taken from the keyed scans only): in `savedState` the pose nodes
are `0`, `1`, `2` and the last one, `2`, has no keyed scan. After saving, erasing and a
successful load, `key_` is `2`, which is a key of `values_`; the following
`AddFactorAtLoad` hands the solver a value for the key `2` it already holds, and throws. -/
theorem Load_next_key_collides :
    mapKeys savedState.values_ = [0, 1, 2] ∧ mapKeys savedState.keyed_scans_ = [0, 1] ∧
    ((Save lineEnv savedState).bind fun s1 =>
        (ErasePosegraph lineEnv s1).bind (Load lineEnv)).map
        (fun r => (r.2, r.1.key_, mapKeys r.1.values_, mapHas r.1.key_ r.1.values_)) =
      some (true, 2, [0, 1, 2], true) ∧
    (((Save lineEnv savedState).bind fun s1 =>
        (ErasePosegraph lineEnv s1).bind (Load lineEnv)).map
        fun r => (AddFactorAtLoad lineEnv r.1 (Multiplicative.ofAdd 1) Mat66.zeros).isSome) =
      some false := by
  refine ⟨by decide, by decide, by decide!, by decide!⟩

end ReloadInstances

/-! ## Loops and recursions that do not end -/

section Divergence

variable {P S : Type}

/-- The loop of `RemoveFactor` over `loop_edges_` never ends when some entry does not
join the two keys. -/
theorem eraseLoopEdges_stuck (key1 key2 : Key) (fuel : Nat) :
    ∀ edges : List Edge,
      (∃ e ∈ edges, ¬ ((key1 = e.1 ∧ key2 = e.2) ∨ (key1 = e.2 ∧ key2 = e.1))) →
      eraseLoopEdges key1 key2 fuel edges = none := by
  induction fuel with
  | zero =>
    intro edges h
    obtain ⟨e, he, -⟩ := h
    cases edges with
    | nil => exact absurd he (by simp)
    | cons a rest => rfl
  | succ n ih =>
    intro edges h
    cases edges with
    | nil =>
      obtain ⟨e, he, -⟩ := h
      exact absurd he (by simp)
    | cons a rest =>
      unfold eraseLoopEdges
      by_cases ha : (key1 = a.1 ∧ key2 = a.2) ∨ (key1 = a.2 ∧ key2 = a.1)
      · rw [if_pos ha]
        apply ih
        obtain ⟨e, he, hne⟩ := h
        rcases List.mem_cons.1 he with rfl | hr
        · exact absurd ha hne
        · exact ⟨e, hr, hne⟩
      · rw [if_neg ha]
        exact ih _ h

/-- The loop of `RemoveFactor` over `loop_edges_` ends, with an empty list, when every
entry joins the two keys and the fuel covers the entries. -/
theorem eraseLoopEdges_all (key1 key2 : Key) :
    ∀ (edges : List Edge) (fuel : Nat), edges.length ≤ fuel →
      (∀ e ∈ edges, (key1 = e.1 ∧ key2 = e.2) ∨ (key1 = e.2 ∧ key2 = e.1)) →
      eraseLoopEdges key1 key2 fuel edges = some [] := by
  intro edges
  induction edges with
  | nil =>
    intro fuel _ _
    cases fuel <;> rfl
  | cons a rest ih =>
    intro fuel hf hall
    cases fuel with
    | zero => simp at hf
    | succ n =>
      unfold eraseLoopEdges
      rw [if_pos (hall a (List.mem_cons_self _ _))]
      exact ih n (by simpa using hf) fun e he => hall e (List.mem_cons_of_mem _ he)

/-- The recursion of `ChangeKeyNumber` never ends when `initial_key_` equals
`first_loaded_key_`: no call changes either of them. -/
theorem ChangeKeyNumber_stuck (fuel : Nat) :
    ∀ (rand : Nat → Nat) (s : LaserLoopClosure P S),
      s.initial_key_ = s.first_loaded_key_ → ChangeKeyNumber rand fuel s = none := by
  induction fuel with
  | zero =>
    intro rand s h
    unfold ChangeKeyNumber
    rw [if_pos h]
  | succ n ih =>
    intro rand s h
    unfold ChangeKeyNumber
    rw [if_pos h]
    exact ih _ _ h

end Divergence

section DivergenceInstances

/-- C25 (the loop index is never advanced): in `twoLoopState` the keys `2` and `0` are
not consecutive and are joined by the between factor in slot `3` of the solver's graph;
`loop_edges_` is `[(2, 0), (3, 1)]`. `RemoveFactor(2, 0)` erases the first entry and then
tests the entry `(3, 1)` again and again: whatever the number of iterations allowed, the
call does not return. -/
theorem RemoveFactor_loop_diverges :
    ((2 : Key) ≠ keyPred 0 ∧ (0 : Key) ≠ keyPred 2) ∧
    factorsToRemove 2 0 (twoLoopState.pgo_solver_.getFactorsUnsafe lineEnv.opt) = [3] ∧
    twoLoopState.loop_edges_ = [(2, 0), (3, 1)] ∧
    ∀ (fuel : Nat) (is_batch_loop_closure : Bool),
      RemoveFactor lineEnv fuel twoLoopState 2 0 is_batch_loop_closure = none := by
  refine ⟨by decide, by decide, rfl, fun fuel b => ?_⟩
  have hstuck : eraseLoopEdges 2 0 fuel twoLoopState.loop_edges_ = none :=
    eraseLoopEdges_stuck 2 0 fuel _ ⟨(3, 1), by decide, by decide⟩
  unfold RemoveFactor
  rw [if_neg (by decide)]
  dsimp only
  rw [if_neg (by decide), hstuck]

/-- C28 (the recursion has no way out): in the freshly initialised robot `initial_key_`
and `first_loaded_key_` are both `0`, and `ChangeKeyNumber` does not return, whatever
`rand()` yields and however many nested calls are allowed. In `reloadedState` the two
keys differ and the call returns at once with `key_ = initial_key_`, whose prefix `a` is
the prefix of `first_loaded_key_`. -/
theorem ChangeKeyNumber_diverges :
    startState.initial_key_ = startState.first_loaded_key_ ∧
    (∀ (rand : Nat → Nat) (fuel : Nat), ChangeKeyNumber rand fuel startState = none) ∧
    (∀ (rand : Nat → Nat) (fuel : Nat),
      (ChangeKeyNumber rand fuel reloadedState).map (fun s => keyChr s.key_) = some 97) ∧
    keyChr reloadedState.first_loaded_key_ = 97 := by
  refine ⟨rfl, fun rand fuel => ChangeKeyNumber_stuck fuel rand startState rfl,
    fun rand fuel => ?_, by decide⟩
  unfold ChangeKeyNumber
  rw [if_neg (by decide)]
  decide

end DivergenceInstances

/-! ## Noise models, anchors and the initial pose -/

section AnchorInstances

/-- C27 (the noise model is a function-local static): on `stationState` a manual loop
closure between `2` and `0` is added with the precisions `(0, 1/25)`, then the artifact
`100` is added from pose `1` with the precisions `(0, 1/100)`. The between factor handed
to the solver for the artifact carries `(0, 0, 0, 1/25, 1/25, 1/25)`, the precisions of
the earlier call, not those of its own call. -/
theorem AddFactor_reuses_first_noise :
    (stationState.manual_lc_rot_precision_, stationState.manual_lc_trans_precision_) =
      (0, 1 / 25) ∧
    List.ofFn (factorPrecisions stationState.artifact_rot_precision_
      stationState.artifact_trans_precision_) = [0, 0, 0, 1 / 100, 1 / 100, 1 / 100] ∧
    ((AddManualLoopClosure lineEnv stationState 2 0 (Multiplicative.ofAdd (-10))).bind
        fun r => AddArtifact lineEnv r.1 1 100 (Multiplicative.ofAdd 3) ⟨"artifact", 0⟩).map
        (fun r => r.2) = some true ∧
    ((AddManualLoopClosure lineEnv stationState 2 0 (Multiplicative.ofAdd (-10))).bind
        fun r => AddArtifact lineEnv r.1 1 100 (Multiplicative.ofAdd 3) ⟨"artifact", 0⟩).map
        (fun r => betweenPrecisions r.1.pgo_solver_.factors) =
      some
        [(0, 1, none), (1, 2, none), (2, 0, some [0, 0, 0, 1 / 25, 1 / 25, 1 / 25]),
         (1, 100, some [0, 0, 0, 1 / 25, 1 / 25, 1 / 25])] := by
  refine ⟨by decide!, by decide!, by decide!, by decide!⟩

/-- C29 (the first sighting records its edge twice): `savedState` runs in range mode and
knows no anchor. The first `AddUwbFactor` for the anchor `"anchor"`, stamped at one
second (closest pose key `1`), succeeds and adds one range factor, but appends the edge
`(1, u0)` to `uwb_edges_` twice. A second call for the same anchor adds one range factor
and one edge. -/
theorem AddUwbFactor_first_sighting_two_edges :
    savedState.uwb_range_compensation_ = 0 ∧ savedState.uwb_edges_ = [] ∧
    (AddUwbFactor lineEnv savedTree savedState "anchor" 1000000000 (3 / 2)
        (Multiplicative.ofAdd 6)).map
        (fun r => (r.2, r.1.uwb_edges_, rangeEdges r.1.pgo_solver_.factors)) =
      some (true, [(1, Symbol 117 0), (1, Symbol 117 0)], [(1, Symbol 117 0)]) ∧
    ((AddUwbFactor lineEnv savedTree savedState "anchor" 1000000000 (3 / 2)
        (Multiplicative.ofAdd 6)).bind
        fun r => AddUwbFactor lineEnv savedTree r.1 "anchor" 1000000000 (3 / 2)
          (Multiplicative.ofAdd 6)).map
        (fun r => (r.2, r.1.uwb_edges_.length, (rangeEdges r.1.pgo_solver_.factors).length)) =
      some (true, 3, 2) := by
  refine ⟨rfl, rfl, by decide!, by decide!⟩

/-- C30 (the initial pose is looked up under the key `0`): a robot with the prefix
character `a` is initialised on `blankState` with the identity as initial pose. Its
`initial_key_` is `Symbol('a', 0)`, the only key of `values_`, and the pose stored there
is the identity; but `GetInitialPose` and `GetLastPose` both look up the key `0`, which is
absent from `values_`, and throw. -/
theorem GetInitialPose_reads_key_zero :
    (setInitialPose lineEnv blankState false (some 97) 1).map
        (fun r => (r.2, r.1.initial_key_, mapKeys r.1.values_, keyIndex r.1.key_)) =
      some (true, Symbol 97 0, [Symbol 97 0], 1) ∧
    (setInitialPose lineEnv blankState false (some 97) 1).map
        (fun r => mapFind r.1.initial_key_ r.1.values_) = some (some 1) ∧
    (setInitialPose lineEnv blankState false (some 97) 1).map
        (fun r => (mapHas 0 r.1.values_, GetInitialPose r.1, GetLastPose r.1)) =
      some (false, none, none) := by
  refine ⟨by decide!, by decide!, by decide!⟩

end AnchorInstances

/-! ## The prior on a UWB anchor -/

section UwbFacts

variable {P S : Type} [Group P]

omit [Group P] in
/-- Looking up the key of an anchor touches the two hash maps only. -/
theorem uwbKey_fields (s : LaserLoopClosure P S) (uwb_id : String) :
    (uwbKey s uwb_id).1.values_ = s.values_ ∧
    (uwbKey s uwb_id).1.pgo_solver_ = s.pgo_solver_ ∧
    (uwbKey s uwb_id).1.uwb_range_compensation_ = s.uwb_range_compensation_ ∧
    (uwbKey s uwb_id).1.uwb_range_measurement_error_ = s.uwb_range_measurement_error_ ∧
    (uwbKey s uwb_id).1.uwb_edges_ = s.uwb_edges_ := by
  unfold uwbKey
  split <;> exact ⟨rfl, rfl, rfl, rfl, rfl⟩

/-- C22 as amended: the prior that `AddUwbFactor` (range mode, new anchor) and
`DropUwbAnchor` hand to the solver for the anchor key is the identity pose with the
diagonal precisions `(10, 10, 10, 0, 0, 0)`. Read as `AddFactor` reads such a vector
(first three rotation, last three translation), each rotation precision is `10`, each
translation precision is `0`, so the translation precisions are strictly smaller than
the rotation precisions: the prior is tight in rotation and void in translation. -/
theorem uwb_anchor_prior (env : Env P S) (tree : TreeEdges) (s : LaserLoopClosure P S)
    (uwb_id : String) (stamp : Time) (range : ℚ) (robot_position : P) :
    (∀ s' flag, s.uwb_range_compensation_ = 0 →
      mapHas (uwbKey s uwb_id).2 s.values_ = false →
      AddUwbFactor env tree s uwb_id stamp range robot_position = some (s', flag) →
      ∃ pose_key, s'.pgo_solver_.factors = s.pgo_solver_.factors ++
        [Factor.prior (uwbKey s uwb_id).2 1 (.precisions uwbPriorPrecisions),
         Factor.range pose_key (uwbKey s uwb_id).2 range
           (.isotropic s.uwb_range_measurement_error_)]) ∧
    (∀ s' flag, DropUwbAnchor env tree s uwb_id stamp robot_position = some (s', flag) →
      ∃ pose_key, s'.pgo_solver_.factors = s.pgo_solver_.factors ++
        [Factor.prior (uwbKey s uwb_id).2 1 (.precisions uwbPriorPrecisions),
         Factor.between pose_key (uwbKey s uwb_id).2 1 (.precisions uwbDropPrecisions)]) ∧
    (∀ i j : Fin 6, i.val < 3 → 3 ≤ j.val →
      uwbPriorPrecisions i = 10 ∧ uwbPriorPrecisions j = 0 ∧
      uwbPriorPrecisions j < uwbPriorPrecisions i) := by
  obtain ⟨f1, f2, f3, f4, -⟩ := uwbKey_fields s uwb_id
  refine ⟨?_, ?_, ?_⟩
  · intro s' flag hmode hnew h
    unfold AddUwbFactor at h
    dsimp only at h
    cases hk : GetKeyAtTime (uwbKey s uwb_id).1.stamps_keyed_ (uwbKey s uwb_id).1.key_ tree
        (toSec stamp) with
    | none =>
      rw [hk] at h
      exact absurd h (by simp)
    | some pose_key =>
      rw [hk] at h
      dsimp only at h
      rw [f1, if_pos hnew, f2, f3, f4, if_pos hmode, if_pos hmode] at h
      split at h
      · exact absurd h (by simp)
      · split at h
        · exact absurd h (by simp)
        · rename_i σ hσ
          simp only [Option.some.injEq, Prod.mk.injEq] at h
          obtain ⟨h1, -⟩ := h
          subst h1
          exact ⟨_, (update_single hσ).2.2⟩
  · intro s' flag h
    unfold DropUwbAnchor at h
    dsimp only at h
    cases hk : GetKeyAtTime (uwbKey s uwb_id).1.stamps_keyed_ (uwbKey s uwb_id).1.key_ tree
        (toSec stamp) with
    | none =>
      rw [hk] at h
      exact absurd h (by simp)
    | some pose_key =>
      rw [hk] at h
      dsimp only at h
      rw [f2] at h
      split at h
      · exact absurd h (by simp)
      · split at h
        · exact absurd h (by simp)
        · rename_i σ hσ
          simp only [Option.some.injEq, Prod.mk.injEq] at h
          obtain ⟨h1, -⟩ := h
          subst h1
          exact ⟨_, (update_single hσ).2.2⟩
  · intro i j hi hj
    have hj' : ¬ j.val < 3 := by omega
    simp [uwbPriorPrecisions, hi, hj']

end UwbFacts

section UwbInstances

/-- C22 (the claim as stated fails): on `savedState` the first `AddUwbFactor` for an
anchor, and likewise `DropUwbAnchor`, hand the solver a prior for the anchor key `u0`
with the precisions `(10, 10, 10, 0, 0, 0)`. The rotation precision `10` is not smaller
than the translation precision `0`. -/
theorem uwb_anchor_prior_counterexample :
    (AddUwbFactor lineEnv savedTree savedState "anchor" 1000000000 (3 / 2)
        (Multiplicative.ofAdd 6)).map (fun r => priorPrecisions r.1.pgo_solver_.factors) =
      some [(0, none), (Symbol 117 0, some [10, 10, 10, 0, 0, 0])] ∧
    (DropUwbAnchor lineEnv savedTree savedState "anchor" 1000000000
        (Multiplicative.ofAdd 6)).map (fun r => priorPrecisions r.1.pgo_solver_.factors) =
      some [(0, none), (Symbol 117 0, some [10, 10, 10, 0, 0, 0])] ∧
    ¬ (uwbPriorPrecisions 0 < uwbPriorPrecisions 3) := by
  refine ⟨by decide!, by decide!, by decide!⟩

/-- An instance of C22 as amended: the anchor `"anchor"` seen for the first time from
`savedState`, by a range measurement and by a drop. -/
theorem uwb_anchor_prior_witness :
    (∃ s' pose_key,
      AddUwbFactor lineEnv savedTree savedState "anchor" 1000000000 (3 / 2)
        (Multiplicative.ofAdd 6) = some (s', true) ∧
      s'.pgo_solver_.factors = savedState.pgo_solver_.factors ++
        [Factor.prior (Symbol 117 0) 1 (.precisions uwbPriorPrecisions),
         Factor.range pose_key (Symbol 117 0) (3 / 2) (.isotropic (1 / 10))]) ∧
    (∃ s' pose_key,
      DropUwbAnchor lineEnv savedTree savedState "anchor" 1000000000
        (Multiplicative.ofAdd 6) = some (s', true) ∧
      s'.pgo_solver_.factors = savedState.pgo_solver_.factors ++
        [Factor.prior (Symbol 117 0) 1 (.precisions uwbPriorPrecisions),
         Factor.between pose_key (Symbol 117 0) 1 (.precisions uwbDropPrecisions)]) ∧
    uwbPriorPrecisions 5 < uwbPriorPrecisions 0 := by
  refine ⟨?_, ?_, ((uwb_anchor_prior lineEnv savedTree savedState "anchor" 1000000000 (3 / 2)
    (Multiplicative.ofAdd 6)).2.2 0 5 (by decide) (by decide)).2.2⟩
  · cases h : AddUwbFactor lineEnv savedTree savedState "anchor" 1000000000 (3 / 2)
        (Multiplicative.ofAdd 6) with
    | none =>
      have hsome : (AddUwbFactor lineEnv savedTree savedState "anchor" 1000000000 (3 / 2)
          (Multiplicative.ofAdd 6)).isSome = true := by decide!
      rw [h] at hsome
      exact absurd hsome (by simp)
    | some p =>
      obtain ⟨s', flag⟩ := p
      have hflag : (AddUwbFactor lineEnv savedTree savedState "anchor" 1000000000 (3 / 2)
          (Multiplicative.ofAdd 6)).map Prod.snd = some true := by decide!
      rw [h] at hflag
      simp only [Option.map_some', Option.some.injEq] at hflag
      subst hflag
      obtain ⟨pose_key, hk⟩ := (uwb_anchor_prior lineEnv savedTree savedState "anchor"
        1000000000 (3 / 2) (Multiplicative.ofAdd 6)).1 s' true rfl (by decide) h
      exact ⟨s', pose_key, rfl, hk⟩
  · cases h : DropUwbAnchor lineEnv savedTree savedState "anchor" 1000000000
        (Multiplicative.ofAdd 6) with
    | none =>
      have hsome : (DropUwbAnchor lineEnv savedTree savedState "anchor" 1000000000
          (Multiplicative.ofAdd 6)).isSome = true := by decide!
      rw [h] at hsome
      exact absurd hsome (by simp)
    | some p =>
      obtain ⟨s', flag⟩ := p
      have hflag : (DropUwbAnchor lineEnv savedTree savedState "anchor" 1000000000
          (Multiplicative.ofAdd 6)).map Prod.snd = some true := by decide!
      rw [h] at hflag
      simp only [Option.map_some', Option.some.injEq] at hflag
      subst hflag
      obtain ⟨pose_key, hk⟩ := (uwb_anchor_prior lineEnv savedTree savedState "anchor"
        1000000000 (3 / 2) (Multiplicative.ofAdd 6)).2.1 s' true h
      exact ⟨s', pose_key, rfl, hk⟩

end UwbInstances

/-! ## The round trip of the saved manifests -/

section RoundTrip

variable {P S : Type}

/-- Setting a key above every key of a map appends the entry. -/
theorem mapSet_last {β : Type} (k : Key) (v : β) (m : List (Key × β))
    (h : ∀ a ∈ m, a.1 < k) : mapSet k v m = m ++ [(k, v)] := by
  induction m with
  | nil => rfl
  | cons e m ih =>
    have he : e.1 < k := h e (List.mem_cons_self _ _)
    have h1 : ¬ k < e.1 := by
      dsimp only [Key] at *
      omega
    have h2 : ¬ k = e.1 := by
      dsimp only [Key] at *
      omega
    simp only [mapSet, if_neg h1, if_neg h2, List.cons_append]
    rw [ih fun a ha => h a (List.mem_cons_of_mem _ ha)]

/-- Setting the entries of a map in increasing key order rebuilds the map. -/
theorem foldl_mapSet_sorted {β : Type} (rows : List (Key × β)) :
    ∀ acc : List (Key × β), (∀ a ∈ acc, ∀ r ∈ rows, a.1 < r.1) →
      rows.Pairwise (fun a b => a.1 < b.1) →
      rows.foldl (fun m r => mapSet r.1 r.2 m) acc = acc ++ rows := by
  induction rows with
  | nil => intro acc _ _; simp
  | cons r rest ih =>
    intro acc hacc hsorted
    rw [List.pairwise_cons] at hsorted
    simp only [List.foldl_cons]
    rw [mapSet_last r.1 r.2 acc fun a ha => hacc a ha r (List.mem_cons_self _ _)]
    rw [ih (acc ++ [(r.1, r.2)]) ?_ hsorted.2]
    · simp
    · intro a ha x hx
      rcases List.mem_append.1 ha with h | h
      · exact hacc a h x (List.mem_cons_of_mem _ hx)
      · simp only [List.mem_singleton] at h
        subst h
        exact hsorted.1 x hx

/-- The fields the loop of `Load` over the rows of `keys.csv` leaves. -/
theorem loadKeyRows_fields (rows : List (Key × S × Time)) :
    ∀ t : LaserLoopClosure P S,
      (loadKeyRows rows t).keyed_scans_ =
        (rows.map fun r => (r.1, r.2.1)).foldl (fun m e => mapSet e.1 e.2 m) t.keyed_scans_ ∧
      (loadKeyRows rows t).keyed_stamps_ =
        (rows.map fun r => (r.1, r.2.2)).foldl (fun m e => mapSet e.1 e.2 m) t.keyed_stamps_ ∧
      (loadKeyRows rows t).values_ = t.values_ ∧
      (loadKeyRows rows t).odometry_edges_ = t.odometry_edges_ ∧
      (loadKeyRows rows t).loop_edges_ = t.loop_edges_ ∧
      (loadKeyRows rows t).disk = t.disk ∧
      (loadKeyRows rows t).pgo_solver_ = t.pgo_solver_ := by
  induction rows with
  | nil => intro t; exact ⟨rfl, rfl, rfl, rfl, rfl, rfl, rfl⟩
  | cons r rest ih =>
    intro t
    unfold loadKeyRows
    obtain ⟨h1, h2, h3, h4, h5, h6, h7⟩ := ih
      { t with
        key_ := r.1
        keyed_scans_ := mapSet r.1 r.2.1 t.keyed_scans_
        keyed_stamps_ := mapSet r.1 r.2.2 t.keyed_stamps_ }
    exact ⟨h1, h2, h3, h4, h5, h6, h7⟩

/-- The rows `Save` writes to `keys.csv` when every keyed scan has a node and a stamp:
one row per keyed scan, in order, with the stamp of its key. -/
theorem saveKeyRows_ok (values_ : Values P) (keyed_stamps_ : List (Key × Time)) :
    ∀ scans : List (Key × S),
      (∀ e ∈ scans, mapHas e.1 values_ = true ∧ mapHas e.1 keyed_stamps_ = true) →
      ∃ rows, saveKeyRows values_ keyed_stamps_ scans = some (some rows) ∧
        (rows.map fun r => (r.1, r.2.1)) = scans ∧
        ∀ k, mapHas k scans = true →
          mapFind k (rows.map fun r => (r.1, r.2.2)) = mapFind k keyed_stamps_ := by
  intro scans
  induction scans with
  | nil =>
    intro _
    exact ⟨[], rfl, rfl, fun k hk => absurd hk (by simp [mapHas_nil])⟩
  | cons e rest ih =>
    intro h
    obtain ⟨hv, hs⟩ := h e (List.mem_cons_self _ _)
    obtain ⟨rows, hrows, hmap, hst⟩ := ih fun x hx => h x (List.mem_cons_of_mem _ hx)
    obtain ⟨t, ht⟩ := mapFind_isSome_of_has hs
    refine ⟨(e.1, e.2, t) :: rows, ?_, ?_, ?_⟩
    · unfold saveKeyRows
      simp only [hv, Bool.not_true, Bool.false_eq_true, if_false, ht, hrows]
    · simp only [List.map_cons, hmap]
    · intro k hk
      simp only [List.map_cons, mapFind]
      by_cases hek : e.1 = k
      · rw [if_pos hek, ← hek, ht]
      · rw [if_neg hek]
        apply hst
        rw [mapHas_cons] at hk
        simpa [hek] using hk

/-- The rows `Save` writes depend on the stamps of the keyed scans only. -/
theorem saveKeyRows_congr (values_ : Values P) (stamps1 stamps2 : List (Key × Time)) :
    ∀ scans : List (Key × S),
      (∀ k, mapHas k scans = true → mapFind k stamps1 = mapFind k stamps2) →
      saveKeyRows values_ stamps1 scans = saveKeyRows values_ stamps2 scans := by
  intro scans
  induction scans with
  | nil => intro _; rfl
  | cons e rest ih =>
    intro h
    unfold saveKeyRows
    rw [h e.1 (by simp [mapHas_cons]),
      ih fun k hk => h k (by rw [mapHas_cons, hk, Bool.or_true])]

end RoundTrip

section RoundTripMain

variable {P S : Type} [Group P]

omit [Group P] in
/-- What a successful `Load` leaves: the keyed scans and stamps of the rows of `keys.csv`
set one after the other, the values of the g2o file, and the saved edges appended. -/
theorem Load_of_disk (env : Env P S) (t : LaserLoopClosure P S) (b : Bundle P S)
    (pose0 : P) (σ : RobustPGO P) (hd : t.disk = some b)
    (hpose : mapFind (firstKey env b.graph.1) b.graph.2 = some pose0)
    (hσ : RobustPGO.fresh.update env.opt
        (b.graph.1 ++ [Factor.prior (firstKey env b.graph.1) pose0 (.sigmas t.initial_noise_)])
        b.graph.2 = some σ) :
    ∃ s2, Load env t = some (s2, true) ∧
      s2.keyed_scans_ =
        (b.keys.map fun r => (r.1, r.2.1)).foldl (fun m e => mapSet e.1 e.2 m)
          t.keyed_scans_ ∧
      s2.keyed_stamps_ =
        (b.keys.map fun r => (r.1, r.2.2)).foldl (fun m e => mapSet e.1 e.2 m)
          t.keyed_stamps_ ∧
      s2.values_ = b.graph.2 ∧
      s2.odometry_edges_ = t.odometry_edges_ ++ b.odometry_edges ∧
      s2.loop_edges_ = t.loop_edges_ ++ b.loop_edges ∧
      s2.disk = some b ∧ s2.pgo_solver_ = σ := by
  unfold Load
  dsimp only
  rw [hd]
  dsimp only
  rw [hpose]
  dsimp only
  rw [hσ]
  dsimp only
  refine ⟨_, rfl, ?_, ?_, ?_, ?_, ?_, ?_, ?_⟩
  · exact (loadKeyRows_fields b.keys _).1
  · exact (loadKeyRows_fields b.keys _).2.1
  · exact (loadKeyRows_fields b.keys _).2.2.1
  · exact congrArg (· ++ b.odometry_edges) (loadKeyRows_fields b.keys _).2.2.2.1
  · exact congrArg (· ++ b.loop_edges) (loadKeyRows_fields b.keys _).2.2.2.2.1
  · exact (loadKeyRows_fields b.keys _).2.2.2.2.2.1
  · exact (loadKeyRows_fields b.keys _).2.2.2.2.2.2


/-- The round trip where `Load` gets past its first key: let every keyed scan of a state
have its key in `values_` and a stamp, let the keyed scans be in key order, let the build
come back from a call that ends without `return`, let the key that `Load` reads as the
first key of the saved graph be a node, and let the fresh solver take in the graph with the
new prior. Then `Save` succeeds, `Load` after `ErasePosegraph` returns true and restores
the keyed scans, the stamp of each of their keys, `odometry_edges_` and `loop_edges_` in
their order, and a second `Save` writes the same `keys.csv`, `odometry_edges.csv` and
`loop_edges.csv` as the first. -/
theorem Save_Load_restores (env : Env P S) (s : LaserLoopClosure P S) (pose0 : P)
    (hret : env.build.returnsAtEnd = true)
    (hscans : ∀ e ∈ s.keyed_scans_,
      mapHas e.1 s.values_ = true ∧ mapHas e.1 s.keyed_stamps_ = true)
    (hsorted : s.keyed_scans_.Pairwise fun a b => a.1 < b.1)
    (hpose : mapFind (firstKey env (g2oFactors (s.pgo_solver_.getFactorsUnsafe env.opt)))
      s.values_ = some pose0)
    (hsolver : (RobustPGO.fresh.update env.opt
        (g2oFactors (s.pgo_solver_.getFactorsUnsafe env.opt) ++
          [Factor.prior (firstKey env (g2oFactors (s.pgo_solver_.getFactorsUnsafe env.opt)))
            pose0 (.sigmas s.initial_noise_)]) s.values_).isSome = true) :
    ∃ s1 s2 s3 b,
      Save env s = some s1 ∧ s1.disk = some b ∧
      (ErasePosegraph env s1).bind (Load env) = some (s2, true) ∧
      s2.keyed_scans_ = s.keyed_scans_ ∧
      (∀ k, mapHas k s.keyed_scans_ = true →
        mapFind k s2.keyed_stamps_ = mapFind k s.keyed_stamps_) ∧
      s2.odometry_edges_ = s.odometry_edges_ ∧ s2.loop_edges_ = s.loop_edges_ ∧
      Save env s2 = some s3 ∧
      s3.disk.map (fun d => (d.keys, d.odometry_edges, d.loop_edges)) =
        some (b.keys, b.odometry_edges, b.loop_edges) := by
  obtain ⟨rows, hrows, hmap, hst⟩ :=
    saveKeyRows_ok s.values_ s.keyed_stamps_ s.keyed_scans_ hscans
  have hsave : Save env s = some
      { s with
        disk := some
          { graph := (g2oFactors (s.pgo_solver_.getFactorsUnsafe env.opt), s.values_)
            keys := rows
            odometry_edges := s.odometry_edges_
            loop_edges := s.loop_edges_ } } := by
    unfold Save
    rw [hrows]
    dsimp only
    rw [if_pos hret]
  cases hσ : RobustPGO.fresh.update env.opt
      (g2oFactors (s.pgo_solver_.getFactorsUnsafe env.opt) ++
        [Factor.prior (firstKey env (g2oFactors (s.pgo_solver_.getFactorsUnsafe env.opt)))
          pose0 (.sigmas s.initial_noise_)]) s.values_ with
  | none =>
    rw [hσ] at hsolver
    exact absurd hsolver (by simp)
  | some σ =>
    have herase : ∀ t : LaserLoopClosure P S, ErasePosegraph env t = some
        { t with
          keyed_scans_ := []
          keyed_stamps_ := []
          stamps_keyed_ := []
          loop_edges_ := []
          manual_loop_edges_ := []
          odometry_ := 1
          odometry_kf_ := 1
          odometry_edges_ := []
          has_changed_ := true } := by
      intro t
      unfold ErasePosegraph
      rw [if_pos hret]
    obtain ⟨s2, hload, e1, e2, e3, e4, e5, e6, e7⟩ :=
      Load_of_disk env
        { s with
          disk := some
            { graph := (g2oFactors (s.pgo_solver_.getFactorsUnsafe env.opt), s.values_)
              keys := rows
              odometry_edges := s.odometry_edges_
              loop_edges := s.loop_edges_ }
          keyed_scans_ := []
          keyed_stamps_ := []
          stamps_keyed_ := []
          loop_edges_ := []
          manual_loop_edges_ := []
          odometry_ := 1
          odometry_kf_ := 1
          odometry_edges_ := []
          has_changed_ := true }
        _ pose0 σ rfl hpose hσ
    have hsortedRows : (rows.map fun r => (r.1, r.2.1)).Pairwise fun a b => a.1 < b.1 := by
      rw [hmap]
      exact hsorted
    have hsortedStamps :
        (rows.map fun r => (r.1, r.2.2)).Pairwise fun a b => a.1 < b.1 := by
      rw [List.pairwise_map] at hsortedRows ⊢
      exact hsortedRows
    have e1' : s2.keyed_scans_ = s.keyed_scans_ := by
      rw [e1]
      show List.foldl _ [] _ = _
      rw [foldl_mapSet_sorted _ [] (fun a ha => absurd ha (by simp)) hsortedRows]
      simpa using hmap
    have e2' : s2.keyed_stamps_ = rows.map fun r => (r.1, r.2.2) := by
      rw [e2]
      show List.foldl _ [] _ = _
      rw [foldl_mapSet_sorted _ [] (fun a ha => absurd ha (by simp)) hsortedStamps]
      simp
    have hstamps : ∀ k, mapHas k s.keyed_scans_ = true →
        mapFind k s2.keyed_stamps_ = mapFind k s.keyed_stamps_ := by
      intro k hk
      rw [e2']
      exact hst k hk
    have e3' : s2.values_ = s.values_ := e3
    have e4' : s2.odometry_edges_ = s.odometry_edges_ := by
      rw [e4]
      show [] ++ s.odometry_edges_ = _
      simp
    have e5' : s2.loop_edges_ = s.loop_edges_ := by
      rw [e5]
      show [] ++ s.loop_edges_ = _
      simp
    have hrows2 : saveKeyRows s2.values_ s2.keyed_stamps_ s2.keyed_scans_ =
        some (some rows) := by
      rw [e1', e3', saveKeyRows_congr s.values_ s2.keyed_stamps_ s.keyed_stamps_
        s.keyed_scans_ hstamps]
      exact hrows
    refine ⟨_, s2,
      { s2 with
        disk := some
          { graph := (g2oFactors (s2.pgo_solver_.getFactorsUnsafe env.opt), s2.values_)
            keys := rows
            odometry_edges := s2.odometry_edges_
            loop_edges := s2.loop_edges_ } },
      { graph := (g2oFactors (s.pgo_solver_.getFactorsUnsafe env.opt), s.values_)
        keys := rows
        odometry_edges := s.odometry_edges_
        loop_edges := s.loop_edges_ },
      hsave, rfl, ?_, e1', hstamps, e4', e5', ?_, ?_⟩
    · rw [herase, Option.some_bind]
      exact hload
    · unfold Save
      rw [hrows2]
      dsimp only
      rw [if_pos hret]
    · simp only [Option.map_some', e4', e5']

end RoundTripMain
section RoundTripInstances

/-- C23 (`Load` dereferences `begin()` of an empty key set, `Save` and `ErasePosegraph`
end without `return`): in `prefixedScanState` the only keyed scan, of key `a0`, has its key
in `values_` and has a stamp. `Save` writes one row to `keys.csv` and a graph without
edges. After `ErasePosegraph`, `Load` reads the first key of the empty key set, gets `0`,
which is no node of the robot, and returns false before it reads `keys.csv`: no keyed scan
and no stamp is restored. On a build that does not come back from a call that ends without
`return`, the first `Save` of any state that passes its checks, here `savedState`, does not
come back at all. -/
theorem Load_first_key_of_edgeless_graph :
    (∀ e ∈ prefixedScanState.keyed_scans_,
      mapHas e.1 prefixedScanState.values_ = true ∧
      mapHas e.1 prefixedScanState.keyed_stamps_ = true) ∧
    (Save lineEnv prefixedScanState).map
        (fun s1 => s1.disk.map fun d => (d.graph.1.length, d.keys)) =
      some (some (0, [(Symbol 97 0, 7, 5)])) ∧
    mapHas 0 prefixedScanState.values_ = false ∧
    ((Save lineEnv prefixedScanState).bind fun s1 =>
        (ErasePosegraph lineEnv s1).bind (Load lineEnv)).map
        (fun r => (r.2, r.1.first_loaded_key_)) = some (false, 0) ∧
    ((Save lineEnv prefixedScanState).bind fun s1 =>
        (ErasePosegraph lineEnv s1).bind (Load lineEnv)).map
        (fun r => (r.1.keyed_scans_.length, r.1.keyed_stamps_.length)) = some (0, 0) ∧
    (Save strictEnv savedState).isSome = false ∧
    (ErasePosegraph strictEnv savedState).isSome = false := by
  refine ⟨by decide, by decide!, by decide, by decide!, by decide!, by decide!, by decide!⟩

/-- An instance of the round trip where `Load` gets past its first key: `savedState`, whose
graph has two between factors and whose keyed scans are those of the keys `0` and `1`. -/
theorem Save_Load_restores_savedState :
    ∃ s1 s2 s3 b,
      Save lineEnv savedState = some s1 ∧ s1.disk = some b ∧
      (ErasePosegraph lineEnv s1).bind (Load lineEnv) = some (s2, true) ∧
      s2.keyed_scans_ = savedState.keyed_scans_ ∧
      (∀ k, mapHas k savedState.keyed_scans_ = true →
        mapFind k s2.keyed_stamps_ = mapFind k savedState.keyed_stamps_) ∧
      s2.odometry_edges_ = savedState.odometry_edges_ ∧
      s2.loop_edges_ = savedState.loop_edges_ ∧
      Save lineEnv s2 = some s3 ∧
      s3.disk.map (fun d => (d.keys, d.odometry_edges, d.loop_edges)) =
        some (b.keys, b.odometry_edges, b.loop_edges) :=
  Save_Load_restores lineEnv savedState 1 rfl (by decide) (by decide) (by decide!) (by decide!)

end RoundTripInstances
end LAMP
